import Mathlib

/-!
# HPC: ball simulation on a worker pool

A shallow embedding of `Vector3_SSE.h`, `HPCAssignment.cpp`, `ThreadPool.cpp`
and `HPCEngine::updateRenderData`.

* The four `float` lanes of `__m128` are elements of a linearly ordered field
  `F` (exact arithmetic); `_mm_sqrt_ps` is a function `sqrt : F → F` passed to
  every definition that takes a square root.  Everything is computable for
  `F = ℚ`.
* A `Vector3` produced by `_mm_cmplt_ps` holds all-ones / all-zero lanes; it is
  a `Mask4` here, and `operator&` takes such a mask as its right operand, the
  only way the simulation uses it.
* `std::vector<Vector3>` is a `List`; `v[i]` is `List.getD v i Vector3.zero`
  and `v[i] = a` is `List.set`.  `run` only passes indices below `size()`.
* `run` returns `none` where the C++ divides an integer by zero or an `int`
  leaves the 32-bit range.
* The tasks of one frame are executed one after the other, in submission
  order; `runTasks_perm` shows that any other order gives the same state.
-/

set_option autoImplicit false
set_option linter.unusedSectionVars false
set_option linter.unnecessarySeqFocus false

namespace HPC

/-! ## Vector3_SSE.h -/

/-- Four packed lanes, `_mm_setr_ps(x, y, z, w)`. -/
structure Vector3 (F : Type) where
  x : F
  y : F
  z : F
  w : F
deriving DecidableEq, Repr

/-- Result of `_mm_cmplt_ps`: per lane all-ones (`true`) or all-zero (`false`). -/
structure Mask4 where
  x : Bool
  y : Bool
  z : Bool
  w : Bool
deriving DecidableEq, Repr

namespace Vector3

variable {F : Type} [LinearOrderedField F]

/-- Constructor `Vector3()`: `_mm_setzero_ps()`. -/
def zero : Vector3 F := ⟨0, 0, 0, 0⟩

/-- Constructor `Vector3(const float value)`: `_mm_set1_ps(value)`. -/
def splat (value : F) : Vector3 F := ⟨value, value, value, value⟩

/-- Constructor `Vector3(x, y, z)`: `_mm_setr_ps(x, y, z, 0)`. -/
def mk3 (x y z : F) : Vector3 F := ⟨x, y, z, 0⟩

/-- Method `getR`: `_mm_permute_ps(v, _MM_SHUFFLE(3,3,3,3))`, lane 3 in every lane. -/
def getR (v : Vector3 F) : Vector3 F := ⟨v.w, v.w, v.w, v.w⟩

/-- Method `setR`: `_mm_insert_ps(v, r, 0x30)` copies lane 0 of `r` into lane 3 of `v`
(source index bits 7:6 = 0, destination index bits 5:4 = 3, zero mask 0). -/
def setR (v r : Vector3 F) : Vector3 F := ⟨v.x, v.y, v.z, r.x⟩

/-- Lane-wise `operator+ (const Vector3&)`. -/
def add (a b : Vector3 F) : Vector3 F := ⟨a.x + b.x, a.y + b.y, a.z + b.z, a.w + b.w⟩

/-- Lane-wise `operator- (const Vector3&)`. -/
def sub (a b : Vector3 F) : Vector3 F := ⟨a.x - b.x, a.y - b.y, a.z - b.z, a.w - b.w⟩

/-- Lane-wise `operator* (const Vector3&)`. -/
def mul (a b : Vector3 F) : Vector3 F := ⟨a.x * b.x, a.y * b.y, a.z * b.z, a.w * b.w⟩

/-- Lane-wise `operator/ (const Vector3&)`. -/
def div (a b : Vector3 F) : Vector3 F := ⟨a.x / b.x, a.y / b.y, a.z / b.z, a.w / b.w⟩

instance : Add (Vector3 F) := ⟨add⟩
instance : Sub (Vector3 F) := ⟨sub⟩
instance : Mul (Vector3 F) := ⟨mul⟩
instance : Div (Vector3 F) := ⟨div⟩

/-- Broadcast `operator+ (const float)`. -/
def addScalar (a : Vector3 F) (value : F) : Vector3 F := a + splat value

/-- Broadcast `operator- (const float)`. -/
def subScalar (a : Vector3 F) (value : F) : Vector3 F := a - splat value

/-- Broadcast `operator* (const float)`. -/
def mulScalar (a : Vector3 F) (value : F) : Vector3 F := a * splat value

/-- Broadcast `operator/ (const float)`. -/
def divScalar (a : Vector3 F) (value : F) : Vector3 F := a / splat value

/-- Masking `operator&` with a comparison mask on the right: `_mm_and_ps` keeps the
lanes whose mask is all-ones and clears the others to `+0.0`. -/
def and (a : Vector3 F) (m : Mask4) : Vector3 F :=
  ⟨if m.x then a.x else 0, if m.y then a.y else 0,
   if m.z then a.z else 0, if m.w then a.w else 0⟩

/-- Method `lessThan`: `_mm_cmplt_ps(this, other)`. -/
def lessThan (a b : Vector3 F) : Mask4 :=
  ⟨decide (a.x < b.x), decide (a.y < b.y), decide (a.z < b.z), decide (a.w < b.w)⟩

/-- Comparison `operator<`: `_mm_comilt_ss(this, other) == 1` compares lane 0 only. -/
def lt (a b : Vector3 F) : Bool := decide (a.x < b.x)

/-- Method `dot3`: `_mm_dp_ps(a, b, 0x7F)` multiplies lanes 0-2 and broadcasts the sum
to all four lanes. -/
def dot3 (a b : Vector3 F) : Vector3 F := splat (a.x * b.x + a.y * b.y + a.z * b.z)

/-- Method `length`: `_mm_sqrt_ps(_mm_dp_ps(v, v, 0x7F))`. -/
def length (sqrt : F → F) (a : Vector3 F) : Vector3 F :=
  let dp := dot3 a a
  ⟨sqrt dp.x, sqrt dp.y, sqrt dp.z, sqrt dp.w⟩

/-- Method `normalise`: `_mm_dp_ps(v, v, 0x77)` broadcasts the sum to lanes 0-2 only
and leaves lane 3 zero; then `_mm_sqrt_ps` and `_mm_div_ps`. -/
def normalise (sqrt : F → F) (a : Vector3 F) : Vector3 F :=
  let s := a.x * a.x + a.y * a.y + a.z * a.z
  let temp : Vector3 F := ⟨sqrt s, sqrt s, sqrt s, sqrt 0⟩
  a / temp

/-- Method `cross3`: four `_mm_shuffle_ps`, `_MM_SHUFFLE(3,0,2,1)` selects lanes
`(1,2,0,3)` and `_MM_SHUFFLE(3,1,0,2)` selects lanes `(2,0,1,3)`.  Over the
field the fourth lane `a.w * b.w - a.w * b.w` is zero for all operands; the
`float` product can overflow, and `cross3Lanes` below is the same method on
lanes that keep the range of `float`. -/
def cross3 (a b : Vector3 F) : Vector3 F :=
  let temp1 : Vector3 F := ⟨a.y, a.z, a.x, a.w⟩
  let temp2 : Vector3 F := ⟨b.z, b.x, b.y, b.w⟩
  let temp3 : Vector3 F := ⟨a.z, a.x, a.y, a.w⟩
  let temp4 : Vector3 F := ⟨b.y, b.z, b.x, b.w⟩
  (temp1 * temp2) - (temp3 * temp4)

end Vector3

/-! ## HPCAssignment.h / HPCAssignment.cpp -/

/-- Data members of `HPCAssignment`: front buffers `myballz`, `myvelocityz` and
back buffers `myballz2`, `myvelocityz2`. -/
structure HPCAssignment (F : Type) where
  myballz : List (Vector3 F)
  myvelocityz : List (Vector3 F)
  myballz2 : List (Vector3 F)
  myvelocityz2 : List (Vector3 F)
deriving DecidableEq, Repr

section Simulation

variable {F : Type} [LinearOrderedField F]

open Vector3

/-- State left by `HPCAssignment() = default`: four empty vectors. -/
def HPCAssignment.fresh : HPCAssignment F := ⟨[], [], [], []⟩

/-- Values taken by the loop variable of
`for (float x = start; x < bound; x += step)`, at most `fuel` iterations. -/
def floatLoop : Nat → F → F → F → List F
  | 0, _, _, _ => []
  | fuel + 1, x, bound, step =>
    if x < bound then x :: floatLoop fuel (x + step) bound step else []

/-- Elements appended by one pair of nested loops of `addBalls`:
`for x ... for z ... push_back(Vector3(x, y, z, r))`. -/
def grid (fuel : Nat) (x0 xBound xStep z0 zBound zStep y r : F) : List (Vector3 F) :=
  (floatLoop fuel x0 xBound xStep).flatMap fun x =>
    (floatLoop fuel z0 zBound zStep).map fun z => Vector3.mk x y z r

/-- Resizing `std::vector::resize(n)`: truncate, or pad with `Vector3()`. -/
def resize (v : List (Vector3 F)) (n : Nat) : List (Vector3 F) :=
  v.take n ++ List.replicate (n - v.length) Vector3.zero

/-- Body of `addBalls` with every `for` loop cut after `fuel` iterations. -/
def addBallsFuel (fuel : Nat) (s : HPCAssignment F) : HPCAssignment F :=
  -- blue: x < 38.0f step 4.5f, z < 38.0f step 4.0f, Vector3(x, 38.0f, z, 1.5f)
  let blue := grid fuel (-38) 38 (9 / 2) (-38) 38 4 38 (3 / 2)
  -- green: x < 38.5f step 4.5f, z < 38.5f step 4.5f, Vector3(x, 35.3f, z, 1.0f)
  let green := grid fuel (-38) (77 / 2) (9 / 2) (-38) (77 / 2) (9 / 2) (353 / 10) 1
  -- red: x < 38.5f step 4.3f, z < 38.5f step 3.5f, Vector3(x, 32.0f, z, 0.5f)
  let red := grid fuel (-38) (77 / 2) (43 / 10) (-38) (77 / 2) (7 / 2) 32 (1 / 2)
  let new := blue ++ green ++ red
  let myballz := s.myballz ++ new
  let myvelocityz := s.myvelocityz ++ new.map fun _ => splat 0
  { myballz := myballz
    myvelocityz := myvelocityz
    myballz2 := resize s.myballz2 myballz.length
    myvelocityz2 := resize s.myvelocityz2 myvelocityz.length }

/-- Function `HPCAssignment::addBalls`.  No loop of it runs more than 22 times
(`addBallsFuel_eq`), so 32 iterations are enough. -/
def addBalls (s : HPCAssignment F) : HPCAssignment F := addBallsFuel 32 s

/-- Wall part of the force of one body (lines 67-80 of `doSomeBallStuff`). -/
def wallForce (pointp pointv : Vector3 F) : Vector3 F :=
  let kw : Vector3 F := splat (-500)
  let bw : Vector3 F := splat 10
  let radius := pointp.getR
  let force : Vector3 F := splat 0
  let four : Vector3 F := splat 40
  let xp := (pointp + radius) - four
  let match1 := (Vector3.zero).lessThan xp
  let force2 := ((kw * xp) - (bw * pointv)).and match1
  let force := force + force2
  let xn := four + (pointp - radius)
  let match2 := xn.lessThan Vector3.zero
  let force3 := ((kw * xn) - (bw * pointv)).and match2
  force + force3

/-- One iteration of the inner loop over `current2` (lines 85-103). -/
def pairStep (sqrt : F → F) (balls vels : List (Vector3 F)) (current : Nat)
    (force : Vector3 F) (current2 : Nat) : Vector3 F :=
  let kb : Vector3 F := splat (-300)
  let bb : Vector3 F := splat 5
  let pointp := balls.getD current Vector3.zero
  let radius := pointp.getR
  let pointv := vels.getD current Vector3.zero
  if current ≠ current2 then
    let pointp2 := balls.getD current2 Vector3.zero
    let d := pointp - pointp2
    let length := d.length sqrt
    let radius2 := pointp2.getR
    if length.lt (radius + radius2) then
      let pointv2 := vels.getD current2 Vector3.zero
      let nor := d / length
      let x := length - (radius + radius2)
      let vs := (pointv - pointv2).dot3 nor
      force + nor * ((kb * x) - (bb * vs))
    else force
  else force

/-- Value of `force` when the inner loop of `doSomeBallStuff` has finished
(line 105): wall terms, then one `pairStep` for every index of `myballz`. -/
def forceOn (sqrt : F → F) (balls vels : List (Vector3 F)) (current : Nat) : Vector3 F :=
  (List.range balls.length).foldl (pairStep sqrt balls vels current)
    (wallForce (balls.getD current Vector3.zero) (vels.getD current Vector3.zero))

/-- Integration step (lines 106-113): the pair `(newpos, newvelocity)` stored
at index `current` of the back buffers. -/
def integrate (sqrt : F → F) (balls vels : List (Vector3 F)) (elapsedTime : F)
    (gravityVec : Vector3 F) (current : Nat) : Vector3 F × Vector3 F :=
  let pointp := balls.getD current Vector3.zero
  let radius := pointp.getR
  let pointv := vels.getD current Vector3.zero
  let force := forceOn sqrt balls vels current
  let accleration := (force / (radius + radius)) + gravityVec
  let newpos := pointp + ((pointv + accleration.mulScalar elapsedTime).mulScalar elapsedTime)
  let newpos := newpos.setR radius
  let newvelocity := (newpos - pointp).divScalar elapsedTime
  (newpos, newvelocity)

/-- One iteration of the outer loop of `doSomeBallStuff`. -/
def ballStep (sqrt : F → F) (elapsedTime : F) (gravityVec : Vector3 F)
    (s : HPCAssignment F) (current : Nat) : HPCAssignment F :=
  let r := integrate sqrt s.myballz s.myvelocityz elapsedTime gravityVec current
  { s with myballz2 := s.myballz2.set current r.1
           myvelocityz2 := s.myvelocityz2.set current r.2 }

/-- Function `HPCAssignment::doSomeBallStuff(start, end, elapsedTime, gravityVec)`:
`for (current = start; current < end; current++)`. -/
def doSomeBallStuff (sqrt : F → F) (start stop : Nat) (elapsedTime : F)
    (gravityVec : Vector3 F) (s : HPCAssignment F) : HPCAssignment F :=
  (List.range' start (stop - start)).foldl (ballStep sqrt elapsedTime gravityVec) s

/-- Function `HPCAssignment::load`: `addBalls(); return true;`. -/
def load (s : HPCAssignment F) : Bool × HPCAssignment F := (true, addBalls s)

end Simulation

/-- Argument lists `(start, end)` of the tasks that `run` submits for a
population of `size` bodies on a pool of `poolSize` threads (lines 137-143), in
submission order.

`none` when `numBalls` is zero (`myballz.size() / numBalls` divides by zero) or
when an `int` of the computation is not below `2^31`; every product
`i*numBalls`, `(i+1)*numBalls` of the loop is at most `(numThreads-1)*numBalls`.
The `uint32_t` parameter `end` of the last task receives `size % 2^32`. -/
def dispatch (size poolSize : Nat) : Option (List (Nat × Nat)) :=
  if poolSize * 2 = 0 then none
  else
    let numBalls := size / (poolSize * 2)
    if numBalls = 0 then none
    else
      let numThreads := size / numBalls
      if numBalls < 2 ^ 31 ∧ numThreads < 2 ^ 31 ∧ (numThreads - 1) * numBalls < 2 ^ 31 then
        some ((List.range (numThreads - 1)).map (fun i => (i * numBalls, (i + 1) * numBalls))
          ++ [((numThreads - 1) * numBalls, size % 2 ^ 32)])
      else none

section Run

variable {F : Type} [LinearOrderedField F]

/-- Lines 149-150, `std::swap` of the front and back buffers. -/
def swapBuffers (s : HPCAssignment F) : HPCAssignment F :=
  { myballz := s.myballz2
    myvelocityz := s.myvelocityz2
    myballz2 := s.myballz
    myvelocityz2 := s.myvelocityz }

/-- Lines 133-135 of `run`: `if (addBall == true) addBalls();`. -/
def spawnIf (addBall : Bool) (s : HPCAssignment F) : HPCAssignment F :=
  if addBall = true then addBalls s else s

/-- Execution of the submitted tasks, one after the other. -/
def runTasks (sqrt : F → F) (elapsedTime : F) (gravityVec : Vector3 F)
    (tasks : List (Nat × Nat)) (s : HPCAssignment F) : HPCAssignment F :=
  tasks.foldl (fun st r => doSomeBallStuff sqrt r.1 r.2 elapsedTime gravityVec st) s

/-- Function `HPCAssignment::run(elapsedTime, gravity, addBall)` on a pool of
`poolSize` threads: optional spawn, dispatch, wait for all tasks, swap. -/
def run (sqrt : F → F) (poolSize : Nat) (elapsedTime : F) (gravity : Vector3 F)
    (addBall : Bool) (s : HPCAssignment F) : Option (HPCAssignment F) :=
  let gravityVec := gravity
  let s1 := spawnIf addBall s
  match dispatch s1.myballz.length poolSize with
  | none => none
  | some tasks => some (swapBuffers (runTasks sqrt elapsedTime gravityVec tasks s1))

end Run

/-! ## Definitions used in the statements -/

section Predicates

variable {F : Type} [LinearOrderedField F]

/-- The four buffers have one common length. -/
def SameLength (s : HPCAssignment F) : Prop :=
  s.myvelocityz.length = s.myballz.length ∧ s.myballz2.length = s.myballz.length ∧
    s.myvelocityz2.length = s.myballz.length

instance (s : HPCAssignment F) : Decidable (SameLength s) := by
  unfold SameLength
  infer_instance

/-- Radius values of the three kinds of ball. -/
def ValidRadius (r : F) : Prop := r = 1 / 2 ∨ r = 1 ∨ r = 3 / 2

instance (r : F) : Decidable (ValidRadius r) := by
  unfold ValidRadius
  infer_instance

/-- Positions that one frame computes from the front buffers, by index. -/
def updatedPositions (sqrt : F → F) (elapsedTime : F) (gravityVec : Vector3 F)
    (balls vels : List (Vector3 F)) : List (Vector3 F) :=
  (List.range balls.length).map fun i =>
    (integrate sqrt balls vels elapsedTime gravityVec i).1

/-- Velocities that one frame computes from the front buffers, by index. -/
def updatedVelocities (sqrt : F → F) (elapsedTime : F) (gravityVec : Vector3 F)
    (balls vels : List (Vector3 F)) : List (Vector3 F) :=
  (List.range balls.length).map fun i =>
    (integrate sqrt balls vels elapsedTime gravityVec i).2

/-- Semi-implicit Euler step in the words of the specification:
`acceleration = force / (2·radius) + gravity`,
`velocity' = velocity + acceleration·dt`, `position' = position + velocity'·dt`,
the radius carried into lane 3 of `position'`. -/
def eulerSpec (force position velocity gravity : Vector3 F) (dt : F) :
    Vector3 F × Vector3 F :=
  let radius := position.w
  let acceleration := force / Vector3.splat (2 * radius) + gravity
  let newVelocity := velocity + acceleration * Vector3.splat dt
  let newPosition := position + newVelocity * Vector3.splat dt
  (⟨newPosition.x, newPosition.y, newPosition.z, radius⟩, newVelocity)

/-- States of an engine on a pool of `poolSize` threads after `load()` and any
number of returning `run` calls. -/
inductive Reachable (sqrt : F → F) (poolSize : Nat) : HPCAssignment F → Prop
  | load : Reachable sqrt poolSize (load HPCAssignment.fresh).2
  | run {s s1 : HPCAssignment F} (elapsedTime : F) (gravity : Vector3 F) (addBall : Bool) :
      Reachable sqrt poolSize s →
      run sqrt poolSize elapsedTime gravity addBall s = some s1 →
      Reachable sqrt poolSize s1

/-- States of an engine on a pool of `poolSize` threads after construction
and any sequence of `load()`, `addBalls()` and returning `run` calls. -/
inductive Constructed (sqrt : F → F) (poolSize : Nat) : HPCAssignment F → Prop
  | fresh : Constructed sqrt poolSize HPCAssignment.fresh
  | load {s : HPCAssignment F} :
      Constructed sqrt poolSize s → Constructed sqrt poolSize (load s).2
  | addBalls {s : HPCAssignment F} :
      Constructed sqrt poolSize s → Constructed sqrt poolSize (addBalls s)
  | run {s s1 : HPCAssignment F} (elapsedTime : F) (gravity : Vector3 F) (addBall : Bool) :
      Constructed sqrt poolSize s →
      run sqrt poolSize elapsedTime gravity addBall s = some s1 →
      Constructed sqrt poolSize s1

end Predicates

/-! ## Force terms -/

section Forces

variable {F : Type} [LinearOrderedField F]

open Vector3

/-- Overlap test of line 91, `length < (radius + radius2)`, for a body at
`pointp` and another one at `pointp2`. -/
def overlaps (sqrt : F → F) (pointp pointp2 : Vector3 F) : Bool :=
  ((pointp - pointp2).length sqrt).lt (pointp.getR + pointp2.getR)

/-- Lines 93-99 of `doSomeBallStuff`: the term added to `force` for the body
`(pointp, pointv)` because of the body `(pointp2, pointv2)`. -/
def pairTerm (sqrt : F → F) (pointp pointv pointp2 pointv2 : Vector3 F) : Vector3 F :=
  let kb : Vector3 F := splat (-300)
  let bb : Vector3 F := splat 5
  let radius := pointp.getR
  let d := pointp - pointp2
  let length := d.length sqrt
  let radius2 := pointp2.getR
  let nor := d / length
  let x := length - (radius + radius2)
  let vs := (pointv - pointv2).dot3 nor
  nor * ((kb * x) - (bb * vs))

/-- Pairwise force in the words of the specification: zero when
`length ≥ radius_i + radius_j`, otherwise `normal * (-300*x - 5*vs)` with
`d = position_i - position_j`, `length` the Euclidean norm of `d` over lanes
0-2, `normal = d / length`, `x = length - (radius_i + radius_j)` and `vs` the
3-lane dot product of `velocity_i - velocity_j` with `normal`. -/
def pairForceSpec (sqrt : F → F) (positionI velocityI positionJ velocityJ : Vector3 F) :
    Vector3 F :=
  let d := positionI - positionJ
  let length := sqrt (d.x * d.x + d.y * d.y + d.z * d.z)
  let radiusSum := positionI.w + positionJ.w
  if length ≥ radiusSum then Vector3.zero
  else
    let normal := d / splat length
    let x := length - radiusSum
    let vs := (velocityI.x - velocityJ.x) * normal.x + (velocityI.y - velocityJ.y) * normal.y +
      (velocityI.z - velocityJ.z) * normal.z
    normal * splat (-300 * x - 5 * vs)

/-- One wall term in the words of the specification: `-500*penetration -
10*velocity` when the mask indicates penetration, zero otherwise. -/
def wallTermSpec (mask : Bool) (penetration velocity : F) : F :=
  if mask then -500 * penetration - 10 * velocity else 0

/-- The 1008 records of one spawn in the words of the specification: `nx` by
`nz` bodies of radius `r` at height `y`, starting at `-38` on both axes. -/
def gridSpec (nx nz : Nat) (xStep zStep y r : F) : List (Vector3 F) :=
  (List.range nx).flatMap fun i : Nat =>
    (List.range nz).map fun k : Nat =>
      Vector3.mk (-38 + (i : F) * xStep) y (-38 + (k : F) * zStep) r

/-- Records of one spawn: 17 x 19 of radius 1.5 at y = 38, 17 x 17 of radius
1.0 at y = 35.3, 18 x 22 of radius 0.5 at y = 32. -/
def spawnSpec : List (Vector3 F) :=
  gridSpec 17 19 (9 / 2) 4 38 (3 / 2) ++ gridSpec 17 17 (9 / 2) (9 / 2) (353 / 10) 1 ++
    gridSpec 18 22 (43 / 10) (7 / 2) 32 (1 / 2)

end Forces

/-! ## ThreadPool.h / ThreadPool.cpp

The members guarded by `m_mutex` are a record; every function that holds the
lock is one atomic step on it.  `m_queue.push` appends at the back of the list
and `front` / `pop` take its head. -/

/-- Members of `ThreadPool`: the number of workers in `m_threads`, the pending
tasks of `m_queue` (oldest first) and the flag `m_shutdown`. -/
structure ThreadPool (T : Type) where
  m_threads : Nat
  m_queue : List T
  m_shutdown : Bool

namespace ThreadPool

variable {T : Type}

/-- Constructor `ThreadPool()`: `max(thread::hardware_concurrency(), 1U)`
workers, an empty queue, `m_shutdown = false`. -/
def init (hardwareConcurrency : Nat) : ThreadPool T :=
  { m_threads := max hardwareConcurrency 1, m_queue := [], m_shutdown := false }

/-- Method `size()`. -/
def size (p : ThreadPool T) : Nat := p.m_threads

/-- Method `shutdown()`: `m_shutdown = true; notify_all()`. -/
def shutdown (p : ThreadPool T) : ThreadPool T := { p with m_shutdown := true }

/-- Destructor `~ThreadPool()`: `shutdown()`, then every worker is joined. -/
def destroy (p : ThreadPool T) : ThreadPool T := p.shutdown

/-- Method `enqueueFunc(function<void()> func)`: the result of the call (an
exception `runtime_error` is `Except.error` of its message) and the pool
after it. -/
def enqueueFunc (func : T) (p : ThreadPool T) : Except String Unit × ThreadPool T :=
  if p.m_shutdown = true then (Except.error "enqueue on stopped ThreadPool", p)
  else (Except.ok (), { p with m_queue := p.m_queue ++ [func] })

/-- What one pass through the locked block of `threadFunc` (lines 39-53) does:
`return`, stay in `m_conditionVar.wait`, or leave the block with a task moved
out of the queue. -/
inductive Iteration (T : Type) where
  | exit : Iteration T
  | wait : Iteration T
  | execute (task : T) (pool : ThreadPool T) : Iteration T

/-- Lines 39-53 of `threadFunc`: the wait predicate is
`m_shutdown || !m_queue.empty()`; after it `m_shutdown` is tested first. -/
def threadFuncIteration (p : ThreadPool T) : Iteration T :=
  if p.m_shutdown = true then Iteration.exit
  else
    match p.m_queue with
    | [] => Iteration.wait
    | task :: rest => Iteration.execute task { p with m_queue := rest }

end ThreadPool

/-- Something that happens to a pool: a caller submits `func`, some worker
passes through the locked block of `threadFunc`, or `shutdown()` is called. -/
inductive PoolEvent (T : Type) where
  | enqueueFunc (func : T) : PoolEvent T
  | worker : PoolEvent T
  | shutdown : PoolEvent T

/-- Effect of one event on the pool and on the list of tasks that workers have
taken out of the queue and call at line 55, in the order they were taken. -/
def poolStep {T : Type} (st : ThreadPool T × List T) : PoolEvent T → ThreadPool T × List T
  | PoolEvent.enqueueFunc func => ((st.1.enqueueFunc func).2, st.2)
  | PoolEvent.shutdown => (st.1.shutdown, st.2)
  | PoolEvent.worker =>
    match st.1.threadFuncIteration with
    | ThreadPool.Iteration.execute task pool => (pool, st.2 ++ [task])
    | ThreadPool.Iteration.exit => st
    | ThreadPool.Iteration.wait => st

/-- Effect of a sequence of events. -/
def poolTrace {T : Type} (events : List (PoolEvent T)) (st : ThreadPool T × List T) :
    ThreadPool T × List T :=
  events.foldl poolStep st

/-! ### Tasks that may throw, `std::packaged_task` and `std::future`

The shared state of a `future<R>` is not ready (`none`), a value or a stored
exception.  A `function<void()>` acts on the shared states of the futures
created so far and either returns or throws.  `packaged_task::operator()`
stores the value or the exception of the wrapped call in the shared state and
returns; `future::get()` returns the stored value or throws the stored
exception (C++ standard library). -/

/-- Shared state of a `std::future<R>`. -/
abbrev SharedState (R : Type) := Option (Except String R)

/-- A `function<void()>`: a call returns with new shared states or throws. -/
abbrev Job (R : Type) := List (SharedState R) → Except String (List (SharedState R))

/-- The lambda `[task]() { (*task)(); }` of `enqueue` for the packaged task
whose shared state is number `handle`. -/
def packagedJob {R : Type} (f : Unit → Except String R) (handle : Nat) : Job R :=
  fun shared => Except.ok (shared.set handle (some (f ())))

/-- Method `enqueue(f, args...)`: the returned future (the number of its shared
state) or the exception of `enqueueFunc`, the pool and the shared states. -/
def ThreadPool.enqueue {R : Type} (f : Unit → Except String R) (p : ThreadPool (Job R))
    (shared : List (SharedState R)) :
    Except String Nat × ThreadPool (Job R) × List (SharedState R) :=
  let handle := shared.length
  let shared1 := shared ++ [none]
  match p.enqueueFunc (packagedJob f handle) with
  | (Except.error e, p1) => (Except.error e, p1, shared1)
  | (Except.ok _, p1) => (Except.ok handle, p1, shared1)

/-- Method `future::get()` on a ready shared state; `none` while the state is
not ready (the caller blocks). -/
def futureGet {R : Type} (shared : List (SharedState R)) (handle : Nat) :
    Option (Except String R) :=
  (shared.getD handle none)

/-- How a worker's `threadFunc` ends: `return` after shutdown, blocked in
`wait` on an empty queue, an exception that left `threadFunc` (nothing in the
loop catches it, so it leaves the thread function and `std::terminate` is
called), or the iteration bound of the model reached. -/
inductive WorkerEnd where
  | returned : WorkerEnd
  | waiting : WorkerEnd
  | terminated (what : String) : WorkerEnd
  | unfinished : WorkerEnd
deriving DecidableEq, Repr

/-- Function `ThreadPool::threadFunc` run by one worker for at most `fuel`
iterations of `while (true)`: how it ends, the pool and the shared states. -/
def ThreadPool.threadFunc {R : Type} : Nat → ThreadPool (Job R) → List (SharedState R) →
    WorkerEnd × ThreadPool (Job R) × List (SharedState R)
  | 0, p, shared => (WorkerEnd.unfinished, p, shared)
  | fuel + 1, p, shared =>
    match p.threadFuncIteration with
    | ThreadPool.Iteration.exit => (WorkerEnd.returned, p, shared)
    | ThreadPool.Iteration.wait => (WorkerEnd.waiting, p, shared)
    | ThreadPool.Iteration.execute task p1 =>
      match task shared with
      | Except.ok shared1 => ThreadPool.threadFunc fuel p1 shared1
      | Except.error e => (WorkerEnd.terminated e, p1, shared)

/-! ## Publishing and unloading -/

section Publish

variable {F : Type} [LinearOrderedField F]

/-- Record `HPCEngine::RenderData`: four consecutive floats. -/
structure RenderData (F : Type) where
  m_positionX : F
  m_positionY : F
  m_positionZ : F
  m_radius : F
deriving DecidableEq, Repr

/-- Members of `HPCEngine` written by `updateRenderData`; `m_renderData` is the
array the stored pointer points at. -/
structure HPCEngine (F : Type) where
  m_renderData : List (RenderData F)
  m_numSpheres : Nat
  m_frameNumber : Nat
deriving DecidableEq, Repr

/-- The cast `(HPCEngine::RenderData*)myballz.data()` read at one element: the
four lanes of `_mm_setr_ps(x, y, z, r)` in memory order. -/
def asRenderData (v : Vector3 F) : RenderData F := ⟨v.x, v.y, v.z, v.w⟩

/-- Function `HPCEngine::updateRenderData(renderData, numRenderItems)`;
`m_frameNumber` is a `uint32_t`. -/
def updateRenderData (renderData : List (RenderData F)) (numRenderItems : Nat)
    (e : HPCEngine F) : HPCEngine F :=
  { m_renderData := renderData
    m_numSpheres := numRenderItems
    m_frameNumber := (e.m_frameNumber + 1) % 2 ^ 32 }

/-- Function `HPCAssignment::run` with its last line (152), the call
`updateRenderData((RenderData*)myballz.data(), myballz.size())`, whose second
parameter is a `uint32_t`. -/
def runFrame (sqrt : F → F) (poolSize : Nat) (elapsedTime : F) (gravity : Vector3 F)
    (addBall : Bool) (s : HPCAssignment F) (e : HPCEngine F) :
    Option (HPCAssignment F × HPCEngine F) :=
  match run sqrt poolSize elapsedTime gravity addBall s with
  | none => none
  | some s1 =>
    some (s1, updateRenderData (s1.myballz.map asRenderData) (s1.myballz.length % 2 ^ 32) e)

/-- Function `HPCAssignment::unload`: the body is empty, the buffers and the
member `threads` are left as they are. -/
def unload {T : Type} (s : HPCAssignment F) (threads : ThreadPool T) :
    HPCAssignment F × ThreadPool T :=
  (s, threads)

end Publish


/-! ## Definitions used in the statements, continued -/

section Predicates3

variable {F : Type} [LinearOrderedField F]

/-- Chunk granularity in the words of the specification: the average range
size `size / ranges` is within a factor of two of `2 * poolSize`, that is
`poolSize ≤ size / ranges ≤ 4 * poolSize` as fractions. -/
def AverageAboutTwicePool (size ranges poolSize : Nat) : Prop :=
  poolSize * ranges ≤ size ∧ size ≤ 4 * poolSize * ranges

instance (size ranges poolSize : Nat) : Decidable (AverageAboutTwicePool size ranges poolSize) := by
  unfold AverageAboutTwicePool
  infer_instance

/-- The function `sqrt` is a square root on the non-negative elements. -/
def IsSqrt (sqrt : F → F) : Prop :=
  ∀ x : F, 0 ≤ x → 0 ≤ sqrt x ∧ sqrt x * sqrt x = x

/-- A body penetrates none of the six walls: on every axis
`-40 ≤ position - radius` and `position + radius ≤ 40`. -/
def InsideWalls (p : Vector3 F) : Prop :=
  (-40 ≤ p.x - p.w ∧ p.x + p.w ≤ 40) ∧ (-40 ≤ p.y - p.w ∧ p.y + p.w ≤ 40) ∧
    (-40 ≤ p.z - p.w ∧ p.z + p.w ≤ 40)

instance (p : Vector3 F) : Decidable (InsideWalls p) := by
  unfold InsideWalls
  infer_instance

/-- Two bodies are separated along one axis by at least the sum of their
radii. -/
def Apart (a b : Vector3 F) : Prop :=
  (a.w + b.w) * (a.w + b.w) ≤ (a.x - b.x) * (a.x - b.x) ∨
    (a.w + b.w) * (a.w + b.w) ≤ (a.y - b.y) * (a.y - b.y) ∨
    (a.w + b.w) * (a.w + b.w) ≤ (a.z - b.z) * (a.z - b.z)

instance (a b : Vector3 F) : Decidable (Apart a b) := by
  unfold Apart
  infer_instance

/-- Outer wall term of one lane (lines 70-74): penetration
`(position + radius) - 40`, mask `0 < penetration`. -/
def outerWallTerm (position radius velocity : F) : F :=
  wallTermSpec (decide (0 < (position + radius) - 40)) ((position + radius) - 40) velocity

/-- Inner wall term of one lane (lines 76-80): penetration
`40 + (position - radius)`, mask `penetration < 0`. -/
def innerWallTerm (position radius velocity : F) : F :=
  wallTermSpec (decide (40 + (position - radius) < 0)) (40 + (position - radius)) velocity

end Predicates3

/-! ## The inner loop with its division made explicit

In `pairStep` the quotient `d / length` is a total operation of the field.
The definitions below are the same lines of `doSomeBallStuff` with that one
division checked: an iteration that evaluates `d / length` with a zero lane
in the divisor has no value. -/

section CheckedDivision

variable {F : Type} [LinearOrderedField F]

open Vector3

/-- Operator `/` on two vectors (`_mm_div_ps`) with the divisor checked: no
value when a lane of the divisor is zero. -/
def Vector3.divChecked (a b : Vector3 F) : Option (Vector3 F) :=
  if b.x = 0 ∨ b.y = 0 ∨ b.z = 0 ∨ b.w = 0 then none else some (a / b)

/-- One iteration of the inner loop over `current2` (lines 85-103), the
quotient `d / length` of line 94 computed by `divChecked`: `none` when that
line is executed with a zero divisor, else the new value of `force`. -/
def pairStepChecked (sqrt : F → F) (balls vels : List (Vector3 F)) (current : Nat)
    (force : Vector3 F) (current2 : Nat) : Option (Vector3 F) :=
  let kb : Vector3 F := splat (-300)
  let bb : Vector3 F := splat 5
  let pointp := balls.getD current Vector3.zero
  let radius := pointp.getR
  let pointv := vels.getD current Vector3.zero
  if current ≠ current2 then
    let pointp2 := balls.getD current2 Vector3.zero
    let d := pointp - pointp2
    let length := d.length sqrt
    let radius2 := pointp2.getR
    if length.lt (radius + radius2) then
      let pointv2 := vels.getD current2 Vector3.zero
      match d.divChecked length with
      | none => none
      | some nor =>
        let x := length - (radius + radius2)
        let vs := (pointv - pointv2).dot3 nor
        some (force + nor * ((kb * x) - (bb * vs)))
    else some force
  else some force

/-- The inner loop over the indices `js` from the value `force`, one
`pairStepChecked` after the other: `none` when one of the iterations divides
by a zero length. -/
def pairLoopChecked (sqrt : F → F) (balls vels : List (Vector3 F)) (current : Nat) :
    List Nat → Vector3 F → Option (Vector3 F)
  | [], force => some force
  | current2 :: js, force =>
    match pairStepChecked sqrt balls vels current force current2 with
    | none => none
    | some force1 => pairLoopChecked sqrt balls vels current js force1

/-- Value of `force` when the inner loop of `doSomeBallStuff` has finished
(line 105), the division of line 94 checked in every iteration. -/
def forceOnChecked (sqrt : F → F) (balls vels : List (Vector3 F)) (current : Nat) :
    Option (Vector3 F) :=
  pairLoopChecked sqrt balls vels current (List.range balls.length)
    (wallForce (balls.getD current Vector3.zero) (vels.getD current Vector3.zero))

end CheckedDivision

/-! ## Lanes with the range of `float`

Over the field a product never overflows.  The definitions below keep the
range of a `float` lane: a result at or above `2^128 - 2^103` in magnitude is
an infinity, and the special values combine by the IEEE 754 rules.  Rounding
of finite results is not modelled. -/

section FloatRange

/-- A `float` lane: a finite value, an infinity with its sign bit, or a NaN. -/
inductive Lane where
  | finite (value : ℚ)
  | inf (negative : Bool)
  | nan
deriving DecidableEq

/-- Least magnitude that rounds to an infinity: `FLT_MAX` plus half a unit in
its last place, `2^128 - 2^103`. -/
def overflowThreshold : ℚ := 2 ^ 128 - 2 ^ 103

/-- The exact value `q` is below the overflow threshold in magnitude. -/
def InRange (q : ℚ) : Prop :=
  -overflowThreshold < q ∧ q < overflowThreshold

instance (q : ℚ) : Decidable (InRange q) := by
  unfold InRange
  infer_instance

/-- Result of an operation on finite lanes whose exact value is `q`. -/
def Lane.ofExact (q : ℚ) : Lane :=
  if overflowThreshold ≤ q then Lane.inf false
  else if q ≤ -overflowThreshold then Lane.inf true
  else Lane.finite q

/-- One lane of `_mm_mul_ps`: a NaN operand or `inf * 0` gives a NaN, an
infinite operand gives an infinity with the product of the signs. -/
def Lane.mul : Lane → Lane → Lane
  | Lane.nan, _ => Lane.nan
  | _, Lane.nan => Lane.nan
  | Lane.finite a, Lane.finite b => Lane.ofExact (a * b)
  | Lane.finite a, Lane.inf n => if a = 0 then Lane.nan else Lane.inf (decide (a < 0) != n)
  | Lane.inf n, Lane.finite b => if b = 0 then Lane.nan else Lane.inf (n != decide (b < 0))
  | Lane.inf n, Lane.inf m => Lane.inf (n != m)

/-- One lane of `_mm_sub_ps`: a NaN operand or the difference of two
infinities of the same sign gives a NaN. -/
def Lane.sub : Lane → Lane → Lane
  | Lane.nan, _ => Lane.nan
  | _, Lane.nan => Lane.nan
  | Lane.finite a, Lane.finite b => Lane.ofExact (a - b)
  | Lane.finite _, Lane.inf n => Lane.inf (!n)
  | Lane.inf n, Lane.finite _ => Lane.inf n
  | Lane.inf n, Lane.inf m => if n = m then Lane.nan else Lane.inf n

/-- Intrinsic `_mm_mul_ps` on four lanes with the range of `float`. -/
def mulLanes (a b : Vector3 Lane) : Vector3 Lane :=
  ⟨a.x.mul b.x, a.y.mul b.y, a.z.mul b.z, a.w.mul b.w⟩

/-- Intrinsic `_mm_sub_ps` on four lanes with the range of `float`. -/
def subLanes (a b : Vector3 Lane) : Vector3 Lane :=
  ⟨a.x.sub b.x, a.y.sub b.y, a.z.sub b.z, a.w.sub b.w⟩

/-- Method `cross3` on lanes with the range of `float`: the same four
shuffles as `Vector3.cross3`, `_MM_SHUFFLE(3,0,2,1)` selecting lanes
`(1,2,0,3)` and `_MM_SHUFFLE(3,1,0,2)` lanes `(2,0,1,3)`, then
`_mm_sub_ps(_mm_mul_ps(temp1, temp2), _mm_mul_ps(temp3, temp4))`. -/
def cross3Lanes (a b : Vector3 Lane) : Vector3 Lane :=
  let temp1 : Vector3 Lane := ⟨a.y, a.z, a.x, a.w⟩
  let temp2 : Vector3 Lane := ⟨b.z, b.x, b.y, b.w⟩
  let temp3 : Vector3 Lane := ⟨a.z, a.x, a.y, a.w⟩
  let temp4 : Vector3 Lane := ⟨b.y, b.z, b.x, b.w⟩
  subLanes (mulLanes temp1 temp2) (mulLanes temp3 temp4)

/-- The four lanes of a vector of the field `ℚ` as finite `float` lanes. -/
def finiteLanes (a : Vector3 ℚ) : Vector3 Lane :=
  ⟨Lane.finite a.x, Lane.finite a.y, Lane.finite a.z, Lane.finite a.w⟩

end FloatRange

/-! ## Lanes of the vector operations -/

namespace Vector3

variable {F : Type} [LinearOrderedField F]

@[simp] theorem zero_x : (zero : Vector3 F).x = 0 := rfl
@[simp] theorem zero_y : (zero : Vector3 F).y = 0 := rfl
@[simp] theorem zero_z : (zero : Vector3 F).z = 0 := rfl
@[simp] theorem zero_w : (zero : Vector3 F).w = 0 := rfl
@[simp] theorem splat_x (c : F) : (splat c).x = c := rfl
@[simp] theorem splat_y (c : F) : (splat c).y = c := rfl
@[simp] theorem splat_z (c : F) : (splat c).z = c := rfl
@[simp] theorem splat_w (c : F) : (splat c).w = c := rfl
@[simp] theorem getR_x (a : Vector3 F) : a.getR.x = a.w := rfl
@[simp] theorem getR_y (a : Vector3 F) : a.getR.y = a.w := rfl
@[simp] theorem getR_z (a : Vector3 F) : a.getR.z = a.w := rfl
@[simp] theorem getR_w (a : Vector3 F) : a.getR.w = a.w := rfl
@[simp] theorem setR_x (a r : Vector3 F) : (a.setR r).x = a.x := rfl
@[simp] theorem setR_y (a r : Vector3 F) : (a.setR r).y = a.y := rfl
@[simp] theorem setR_z (a r : Vector3 F) : (a.setR r).z = a.z := rfl
@[simp] theorem setR_w (a r : Vector3 F) : (a.setR r).w = r.x := rfl
@[simp] theorem add_x (a b : Vector3 F) : (a + b).x = a.x + b.x := rfl
@[simp] theorem add_y (a b : Vector3 F) : (a + b).y = a.y + b.y := rfl
@[simp] theorem add_z (a b : Vector3 F) : (a + b).z = a.z + b.z := rfl
@[simp] theorem add_w (a b : Vector3 F) : (a + b).w = a.w + b.w := rfl
@[simp] theorem sub_x (a b : Vector3 F) : (a - b).x = a.x - b.x := rfl
@[simp] theorem sub_y (a b : Vector3 F) : (a - b).y = a.y - b.y := rfl
@[simp] theorem sub_z (a b : Vector3 F) : (a - b).z = a.z - b.z := rfl
@[simp] theorem sub_w (a b : Vector3 F) : (a - b).w = a.w - b.w := rfl
@[simp] theorem mul_x (a b : Vector3 F) : (a * b).x = a.x * b.x := rfl
@[simp] theorem mul_y (a b : Vector3 F) : (a * b).y = a.y * b.y := rfl
@[simp] theorem mul_z (a b : Vector3 F) : (a * b).z = a.z * b.z := rfl
@[simp] theorem mul_w (a b : Vector3 F) : (a * b).w = a.w * b.w := rfl
@[simp] theorem div_x (a b : Vector3 F) : (a / b).x = a.x / b.x := rfl
@[simp] theorem div_y (a b : Vector3 F) : (a / b).y = a.y / b.y := rfl
@[simp] theorem div_z (a b : Vector3 F) : (a / b).z = a.z / b.z := rfl
@[simp] theorem div_w (a b : Vector3 F) : (a / b).w = a.w / b.w := rfl
@[simp] theorem and_x (a : Vector3 F) (m : Mask4) : (a.and m).x = if m.x then a.x else 0 := rfl
@[simp] theorem and_y (a : Vector3 F) (m : Mask4) : (a.and m).y = if m.y then a.y else 0 := rfl
@[simp] theorem and_z (a : Vector3 F) (m : Mask4) : (a.and m).z = if m.z then a.z else 0 := rfl
@[simp] theorem and_w (a : Vector3 F) (m : Mask4) : (a.and m).w = if m.w then a.w else 0 := rfl
@[simp] theorem lessThan_x (a b : Vector3 F) : (a.lessThan b).x = decide (a.x < b.x) := rfl
@[simp] theorem lessThan_y (a b : Vector3 F) : (a.lessThan b).y = decide (a.y < b.y) := rfl
@[simp] theorem lessThan_z (a b : Vector3 F) : (a.lessThan b).z = decide (a.z < b.z) := rfl
@[simp] theorem lessThan_w (a b : Vector3 F) : (a.lessThan b).w = decide (a.w < b.w) := rfl
@[simp] theorem mulScalar_x (a : Vector3 F) (c : F) : (a.mulScalar c).x = a.x * c := rfl
@[simp] theorem mulScalar_y (a : Vector3 F) (c : F) : (a.mulScalar c).y = a.y * c := rfl
@[simp] theorem mulScalar_z (a : Vector3 F) (c : F) : (a.mulScalar c).z = a.z * c := rfl
@[simp] theorem mulScalar_w (a : Vector3 F) (c : F) : (a.mulScalar c).w = a.w * c := rfl
@[simp] theorem divScalar_x (a : Vector3 F) (c : F) : (a.divScalar c).x = a.x / c := rfl
@[simp] theorem divScalar_y (a : Vector3 F) (c : F) : (a.divScalar c).y = a.y / c := rfl
@[simp] theorem divScalar_z (a : Vector3 F) (c : F) : (a.divScalar c).z = a.z / c := rfl
@[simp] theorem divScalar_w (a : Vector3 F) (c : F) : (a.divScalar c).w = a.w / c := rfl

theorem ext_lanes {a b : Vector3 F} (hx : a.x = b.x) (hy : a.y = b.y) (hz : a.z = b.z)
    (hw : a.w = b.w) : a = b := by
  cases a
  cases b
  simp only [Vector3.mk.injEq]
  exact ⟨hx, hy, hz, hw⟩

end Vector3

/-! ## Writes of one task -/

section Frame

variable {F : Type} [LinearOrderedField F]

/-- Writing `f j` at every index `j` of `[a, a + n)`, read back at index `i`. -/
theorem foldl_set_getElem? {α : Type} (f : Nat → α) (n a : Nat) (l : List α) (i : Nat) :
    ((List.range' a n).foldl (fun acc j => acc.set j (f j)) l)[i]? =
      if a ≤ i ∧ i < a + n then (l[i]?).map (fun _ => f i) else l[i]? := by
  induction n generalizing a l with
  | zero =>
    have h : ¬ (a ≤ i ∧ i < a + 0) := by omega
    rw [if_neg h]
    rfl
  | succ n ih =>
    rw [List.range'_succ, List.foldl_cons, ih]
    by_cases hia : i = a
    · subst hia
      have h1 : ¬ (i + 1 ≤ i ∧ i < i + 1 + n) := by omega
      have h2 : i ≤ i ∧ i < i + (n + 1) := by omega
      rw [if_neg h1, if_pos h2, List.getElem?_set_self']
      rfl
    · have hne : a ≠ i := fun h => hia h.symm
      rw [List.getElem?_set_ne hne]
      by_cases h : a ≤ i ∧ i < a + (n + 1)
      · have h' : a + 1 ≤ i ∧ i < a + 1 + n := by omega
        rw [if_pos h, if_pos h']
      · have h' : ¬ (a + 1 ≤ i ∧ i < a + 1 + n) := by omega
        rw [if_neg h, if_neg h']

/-- The outer loop of `doSomeBallStuff` over any list of indices: the front
buffers are kept and each back buffer receives a fold of `List.set`. -/
theorem foldl_ballStep (sqrt : F → F) (elapsedTime : F) (gravityVec : Vector3 F)
    (idx : List Nat) (s : HPCAssignment F) :
    idx.foldl (ballStep sqrt elapsedTime gravityVec) s =
      { myballz := s.myballz
        myvelocityz := s.myvelocityz
        myballz2 := idx.foldl (fun acc j => acc.set j
          (integrate sqrt s.myballz s.myvelocityz elapsedTime gravityVec j).1) s.myballz2
        myvelocityz2 := idx.foldl (fun acc j => acc.set j
          (integrate sqrt s.myballz s.myvelocityz elapsedTime gravityVec j).2) s.myvelocityz2 } := by
  induction idx generalizing s with
  | nil => rfl
  | cons c rest ih =>
    rw [List.foldl_cons, ih]
    rfl

end Frame

section TaskEffect

variable {F : Type} [LinearOrderedField F]

theorem doSomeBallStuff_myballz (sqrt : F → F) (start stop : Nat) (elapsedTime : F)
    (gravityVec : Vector3 F) (s : HPCAssignment F) :
    (doSomeBallStuff sqrt start stop elapsedTime gravityVec s).myballz = s.myballz := by
  unfold doSomeBallStuff
  rw [foldl_ballStep]

theorem doSomeBallStuff_myvelocityz (sqrt : F → F) (start stop : Nat) (elapsedTime : F)
    (gravityVec : Vector3 F) (s : HPCAssignment F) :
    (doSomeBallStuff sqrt start stop elapsedTime gravityVec s).myvelocityz = s.myvelocityz := by
  unfold doSomeBallStuff
  rw [foldl_ballStep]

/-- Back positions after one task, read at any index. -/
theorem doSomeBallStuff_myballz2 (sqrt : F → F) (start stop : Nat) (elapsedTime : F)
    (gravityVec : Vector3 F) (s : HPCAssignment F) (i : Nat) :
    (doSomeBallStuff sqrt start stop elapsedTime gravityVec s).myballz2[i]? =
      if start ≤ i ∧ i < stop then
        (s.myballz2[i]?).map
          (fun _ => (integrate sqrt s.myballz s.myvelocityz elapsedTime gravityVec i).1)
      else s.myballz2[i]? := by
  unfold doSomeBallStuff
  rw [foldl_ballStep]
  show ((List.range' start (stop - start)).foldl _ s.myballz2)[i]? = _
  rw [foldl_set_getElem?
    (fun j => (integrate sqrt s.myballz s.myvelocityz elapsedTime gravityVec j).1)]
  by_cases h : start ≤ i ∧ i < stop
  · have h' : start ≤ i ∧ i < start + (stop - start) := by omega
    rw [if_pos h, if_pos h']
  · have h' : ¬ (start ≤ i ∧ i < start + (stop - start)) := by omega
    rw [if_neg h, if_neg h']

/-- Back velocities after one task, read at any index. -/
theorem doSomeBallStuff_myvelocityz2 (sqrt : F → F) (start stop : Nat) (elapsedTime : F)
    (gravityVec : Vector3 F) (s : HPCAssignment F) (i : Nat) :
    (doSomeBallStuff sqrt start stop elapsedTime gravityVec s).myvelocityz2[i]? =
      if start ≤ i ∧ i < stop then
        (s.myvelocityz2[i]?).map
          (fun _ => (integrate sqrt s.myballz s.myvelocityz elapsedTime gravityVec i).2)
      else s.myvelocityz2[i]? := by
  unfold doSomeBallStuff
  rw [foldl_ballStep]
  show ((List.range' start (stop - start)).foldl _ s.myvelocityz2)[i]? = _
  rw [foldl_set_getElem?
    (fun j => (integrate sqrt s.myballz s.myvelocityz elapsedTime gravityVec j).2)]
  by_cases h : start ≤ i ∧ i < stop
  · have h' : start ≤ i ∧ i < start + (stop - start) := by omega
    rw [if_pos h, if_pos h']
  · have h' : ¬ (start ≤ i ∧ i < start + (stop - start)) := by omega
    rw [if_neg h, if_neg h']

omit [LinearOrderedField F] in
theorem HPCAssignment.ext_getElem? {s t : HPCAssignment F}
    (h1 : s.myballz = t.myballz) (h2 : s.myvelocityz = t.myvelocityz)
    (h3 : ∀ i : Nat, s.myballz2[i]? = t.myballz2[i]?)
    (h4 : ∀ i : Nat, s.myvelocityz2[i]? = t.myvelocityz2[i]?) : s = t := by
  cases s
  cases t
  simp only [HPCAssignment.mk.injEq]
  exact ⟨h1, h2, List.ext_getElem? h3, List.ext_getElem? h4⟩

theorem runTasks_myballz (sqrt : F → F) (elapsedTime : F) (gravityVec : Vector3 F)
    (tasks : List (Nat × Nat)) (s : HPCAssignment F) :
    (runTasks sqrt elapsedTime gravityVec tasks s).myballz = s.myballz := by
  induction tasks generalizing s with
  | nil => rfl
  | cons r rest ih =>
    show (runTasks sqrt elapsedTime gravityVec rest _).myballz = _
    rw [ih, doSomeBallStuff_myballz]

theorem runTasks_myvelocityz (sqrt : F → F) (elapsedTime : F) (gravityVec : Vector3 F)
    (tasks : List (Nat × Nat)) (s : HPCAssignment F) :
    (runTasks sqrt elapsedTime gravityVec tasks s).myvelocityz = s.myvelocityz := by
  induction tasks generalizing s with
  | nil => rfl
  | cons r rest ih =>
    show (runTasks sqrt elapsedTime gravityVec rest _).myvelocityz = _
    rw [ih, doSomeBallStuff_myvelocityz]

/-- Back positions after a list of tasks: index `i` is rewritten exactly when
some task's range contains it. -/
theorem runTasks_myballz2 (sqrt : F → F) (elapsedTime : F) (gravityVec : Vector3 F)
    (tasks : List (Nat × Nat)) (s : HPCAssignment F) (i : Nat) :
    (runTasks sqrt elapsedTime gravityVec tasks s).myballz2[i]? =
      if ∃ r ∈ tasks, r.1 ≤ i ∧ i < r.2 then
        (s.myballz2[i]?).map
          (fun _ => (integrate sqrt s.myballz s.myvelocityz elapsedTime gravityVec i).1)
      else s.myballz2[i]? := by
  induction tasks generalizing s with
  | nil => simp [runTasks]
  | cons r rest ih =>
    show (runTasks sqrt elapsedTime gravityVec rest _).myballz2[i]? = _
    rw [ih, doSomeBallStuff_myballz, doSomeBallStuff_myvelocityz, doSomeBallStuff_myballz2]
    by_cases hr : r.1 ≤ i ∧ i < r.2
    · have h : ∃ q ∈ r :: rest, q.1 ≤ i ∧ i < q.2 := ⟨r, List.mem_cons_self _ _, hr⟩
      rw [if_pos hr, if_pos h]
      split
      · cases s.myballz2[i]? <;> rfl
      · rfl
    · rw [if_neg hr]
      by_cases h : ∃ q ∈ rest, q.1 ≤ i ∧ i < q.2
      · have h' : ∃ q ∈ r :: rest, q.1 ≤ i ∧ i < q.2 := by
          obtain ⟨q, hq, hq'⟩ := h
          exact ⟨q, List.mem_cons_of_mem _ hq, hq'⟩
        rw [if_pos h, if_pos h']
      · have h' : ¬ ∃ q ∈ r :: rest, q.1 ≤ i ∧ i < q.2 := by
          rintro ⟨q, hq, hq'⟩
          rcases List.mem_cons.1 hq with rfl | hq
          · exact hr hq'
          · exact h ⟨q, hq, hq'⟩
        rw [if_neg h, if_neg h']

/-- Back velocities after a list of tasks. -/
theorem runTasks_myvelocityz2 (sqrt : F → F) (elapsedTime : F) (gravityVec : Vector3 F)
    (tasks : List (Nat × Nat)) (s : HPCAssignment F) (i : Nat) :
    (runTasks sqrt elapsedTime gravityVec tasks s).myvelocityz2[i]? =
      if ∃ r ∈ tasks, r.1 ≤ i ∧ i < r.2 then
        (s.myvelocityz2[i]?).map
          (fun _ => (integrate sqrt s.myballz s.myvelocityz elapsedTime gravityVec i).2)
      else s.myvelocityz2[i]? := by
  induction tasks generalizing s with
  | nil => simp [runTasks]
  | cons r rest ih =>
    show (runTasks sqrt elapsedTime gravityVec rest _).myvelocityz2[i]? = _
    rw [ih, doSomeBallStuff_myballz, doSomeBallStuff_myvelocityz, doSomeBallStuff_myvelocityz2]
    by_cases hr : r.1 ≤ i ∧ i < r.2
    · have h : ∃ q ∈ r :: rest, q.1 ≤ i ∧ i < q.2 := ⟨r, List.mem_cons_self _ _, hr⟩
      rw [if_pos hr, if_pos h]
      split
      · cases s.myvelocityz2[i]? <;> rfl
      · rfl
    · rw [if_neg hr]
      by_cases h : ∃ q ∈ rest, q.1 ≤ i ∧ i < q.2
      · have h' : ∃ q ∈ r :: rest, q.1 ≤ i ∧ i < q.2 := by
          obtain ⟨q, hq, hq'⟩ := h
          exact ⟨q, List.mem_cons_of_mem _ hq, hq'⟩
        rw [if_pos h, if_pos h']
      · have h' : ¬ ∃ q ∈ r :: rest, q.1 ≤ i ∧ i < q.2 := by
          rintro ⟨q, hq, hq'⟩
          rcases List.mem_cons.1 hq with rfl | hq
          · exact hr hq'
          · exact h ⟨q, hq, hq'⟩
        rw [if_neg h, if_neg h']

/-- The state after a list of tasks does not depend on the order in which
the tasks are taken. -/
theorem runTasks_perm (sqrt : F → F) (elapsedTime : F) (gravityVec : Vector3 F)
    (tasks1 tasks2 : List (Nat × Nat)) (hp : tasks1.Perm tasks2) (s : HPCAssignment F) :
    runTasks sqrt elapsedTime gravityVec tasks1 s =
      runTasks sqrt elapsedTime gravityVec tasks2 s := by
  have hiff : ∀ i : Nat, (∃ r ∈ tasks1, r.1 ≤ i ∧ i < r.2) ↔ (∃ r ∈ tasks2, r.1 ≤ i ∧ i < r.2) := by
    intro i
    constructor
    · rintro ⟨r, hr, h⟩
      exact ⟨r, hp.mem_iff.1 hr, h⟩
    · rintro ⟨r, hr, h⟩
      exact ⟨r, hp.mem_iff.2 hr, h⟩
  apply HPCAssignment.ext_getElem?
  · rw [runTasks_myballz, runTasks_myballz]
  · rw [runTasks_myvelocityz, runTasks_myvelocityz]
  · intro i
    rw [runTasks_myballz2, runTasks_myballz2]
    simp only [hiff i]
  · intro i
    rw [runTasks_myvelocityz2, runTasks_myvelocityz2]
    simp only [hiff i]

end TaskEffect

/-! ## Range dispatch -/

section Dispatch

/-- A population smaller than twice the pool size makes `numBalls` zero. -/
theorem dispatch_eq_none_of_lt (size poolSize : Nat) (h : size < 2 * poolSize) :
    dispatch size poolSize = none := by
  unfold dispatch
  split
  · rfl
  · have h0 : size / (poolSize * 2) = 0 := Nat.div_eq_of_lt (by omega)
    simp [h0]

/-- Facts about a successful dispatch: chunk size `c`, chunk count `k`. -/
theorem dispatch_some_shape (size poolSize : Nat) (tasks : List (Nat × Nat))
    (h : dispatch size poolSize = some tasks) :
    ∃ c k : Nat, 0 < poolSize ∧ c = size / (poolSize * 2) ∧ k = size / c ∧ 0 < c ∧
      2 * poolSize ≤ k ∧ k * c ≤ size ∧ size < k * c + c ∧ size < 2 ^ 32 ∧
      tasks = (List.range (k - 1)).map (fun i => (i * c, (i + 1) * c))
        ++ [((k - 1) * c, size)] := by
  unfold dispatch at h
  split at h
  · exact absurd h (by simp)
  · rename_i hP
    simp only at h
    split at h
    · exact absurd h (by simp)
    · rename_i hc
      split at h
      · rename_i hg
        obtain ⟨hg1, hg2, hg3⟩ := hg
        have hPpos : 0 < poolSize := by omega
        have hcpos : 0 < size / (poolSize * 2) := Nat.pos_of_ne_zero hc
        generalize hcdef : size / (poolSize * 2) = c at h hg1 hg2 hg3 hcpos
        generalize hkdef : size / c = k at h hg2 hg3
        have e1 : poolSize * 2 * c + size % (poolSize * 2) = size := by
          rw [← hcdef]
          exact Nat.div_add_mod size (poolSize * 2)
        have e2 : size % (poolSize * 2) < poolSize * 2 := Nat.mod_lt _ (by omega)
        have e3 : c * k + size % c = size := by
          rw [← hkdef]
          exact Nat.div_add_mod size c
        have e4 : size % c < c := Nat.mod_lt _ hcpos
        have e5 : 2 * poolSize ≤ k := by
          rw [← hkdef, Nat.le_div_iff_mul_le hcpos]
          have : 2 * poolSize * c = poolSize * 2 * c := by ring
          omega
        have e6 : k * c = c * k := Nat.mul_comm k c
        have e7 : (k - 1) * c = k * c - c := by
          rw [Nat.sub_mul, Nat.one_mul]
        have hsize : size < 2 ^ 32 := by
          by_cases hP1 : poolSize = 1
          · subst hP1
            omega
          · have h3 : 3 ≤ k - 1 := by omega
            have h4 : 3 * c ≤ (k - 1) * c := Nat.mul_le_mul_right c h3
            omega
        refine ⟨c, k, hPpos, rfl, hkdef.symm, hcpos, e5, by omega, by omega, hsize, ?_⟩
        have hmod : size % 2 ^ 32 = size := Nat.mod_eq_of_lt hsize
        rw [hmod] at h
        exact (Option.some.inj h).symm
      · exact absurd h (by simp)

/-- The ranges of a successful dispatch contain exactly the indices below
`size`. -/
theorem dispatch_cover (size poolSize : Nat) (tasks : List (Nat × Nat))
    (h : dispatch size poolSize = some tasks) (i : Nat) :
    (∃ r ∈ tasks, r.1 ≤ i ∧ i < r.2) ↔ i < size := by
  obtain ⟨c, k, _, _, _, hc, hk, h1, h2, _, rfl⟩ := dispatch_some_shape size poolSize tasks h
  have e7 : (k - 1) * c = k * c - c := by
    rw [Nat.sub_mul, Nat.one_mul]
  constructor
  · rintro ⟨r, hr, hr1, hr2⟩
    rcases List.mem_append.1 hr with hr | hr
    · obtain ⟨j, hj, rfl⟩ := List.mem_map.1 hr
      have hj' : j + 1 ≤ k - 1 := by
        have := List.mem_range.1 hj
        omega
      have h3 : (j + 1) * c ≤ (k - 1) * c := Nat.mul_le_mul_right c hj'
      simp only at hr2
      omega
    · rw [List.mem_singleton] at hr
      subst hr
      exact hr2
  · intro hi
    by_cases hlast : i < (k - 1) * c
    · refine ⟨(i / c * c, (i / c + 1) * c), ?_, ?_, ?_⟩
      · apply List.mem_append_left
        apply List.mem_map.2
        refine ⟨i / c, List.mem_range.2 ?_, rfl⟩
        exact (Nat.div_lt_iff_lt_mul hc).2 hlast
      · exact Nat.div_mul_le_self i c
      · have e1 := Nat.div_add_mod i c
        have e2 := Nat.mod_lt i hc
        have e3 : (i / c + 1) * c = c * (i / c) + c := by ring
        simp only
        omega
    · refine ⟨((k - 1) * c, size), ?_, ?_, hi⟩
      · apply List.mem_append_right
        exact List.mem_singleton.2 rfl
      · simp only
        omega

/-- With a pool of at least one thread, at least `2 * poolSize` bodies and
fewer than `2^31`, the dispatch is defined. -/
theorem dispatch_isSome (size poolSize : Nat) (hP : 0 < poolSize)
    (h : 2 * poolSize ≤ size) (hsize : size < 2 ^ 31) :
    ∃ tasks, dispatch size poolSize = some tasks := by
  have hc : 0 < size / (poolSize * 2) := Nat.div_pos (by omega) (by omega)
  have hcle : size / (poolSize * 2) ≤ size := Nat.div_le_self _ _
  have hkle : size / (size / (poolSize * 2)) ≤ size := Nat.div_le_self _ _
  have hm : size / (size / (poolSize * 2)) * (size / (poolSize * 2)) ≤ size :=
    Nat.div_mul_le_self _ _
  have hm' : (size / (size / (poolSize * 2)) - 1) * (size / (poolSize * 2)) ≤
      size / (size / (poolSize * 2)) * (size / (poolSize * 2)) :=
    Nat.mul_le_mul_right _ (Nat.sub_le _ _)
  unfold dispatch
  rw [if_neg (by omega), if_neg (by omega), if_pos ⟨by omega, by omega, by omega⟩]
  exact ⟨_, rfl⟩

end Dispatch

/-! ## One frame -/

section Frame

variable {F : Type} [LinearOrderedField F]

theorem length_resize (v : List (Vector3 F)) (n : Nat) :
    (resize v n).length = n := by
  unfold resize
  simp only [List.length_append, List.length_take, List.length_replicate]
  omega

theorem addBallsFuel_myballz2_length (fuel : Nat) (s : HPCAssignment F) :
    (addBallsFuel fuel s).myballz2.length = (addBallsFuel fuel s).myballz.length := by
  simp only [addBallsFuel, length_resize]

theorem addBallsFuel_myvelocityz2_length (fuel : Nat) (s : HPCAssignment F) :
    (addBallsFuel fuel s).myvelocityz2.length = (addBallsFuel fuel s).myvelocityz.length := by
  simp only [addBallsFuel, length_resize]

theorem addBallsFuel_myvelocityz_length (fuel : Nat) (s : HPCAssignment F)
    (h : s.myvelocityz.length = s.myballz.length) :
    (addBallsFuel fuel s).myvelocityz.length = (addBallsFuel fuel s).myballz.length := by
  simp only [addBallsFuel, List.length_append, List.length_map, h]

/-- Spawning keeps the four buffers at one length. -/
theorem addBalls_sameLength (s : HPCAssignment F) (h : SameLength s) :
    SameLength (addBalls s) := by
  have h1 := addBallsFuel_myvelocityz_length 32 s h.1
  have h2 := addBallsFuel_myballz2_length 32 s
  have h3 := addBallsFuel_myvelocityz2_length 32 s
  exact ⟨h1, h2, h3.trans h1⟩

theorem spawnIf_sameLength (addBall : Bool) (s : HPCAssignment F) (h : SameLength s) :
    SameLength (spawnIf addBall s) := by
  unfold spawnIf
  split
  · exact addBalls_sameLength s h
  · exact h

/-- Closed form of a returning `run` on buffers of one length: the new front
buffers hold the update of every index, the new back buffers the old front. -/
theorem run_eq_some (sqrt : F → F) (poolSize : Nat) (elapsedTime : F) (gravity : Vector3 F)
    (addBall : Bool) (s s1 : HPCAssignment F) (hs : SameLength s)
    (h : run sqrt poolSize elapsedTime gravity addBall s = some s1) :
    s1.myballz = updatedPositions sqrt elapsedTime gravity
        (spawnIf addBall s).myballz (spawnIf addBall s).myvelocityz ∧
      s1.myvelocityz = updatedVelocities sqrt elapsedTime gravity
        (spawnIf addBall s).myballz (spawnIf addBall s).myvelocityz ∧
      s1.myballz2 = (spawnIf addBall s).myballz ∧
      s1.myvelocityz2 = (spawnIf addBall s).myvelocityz := by
  have hl := spawnIf_sameLength addBall s hs
  unfold run at h
  simp only at h
  generalize spawnIf addBall s = t at hl h
  cases hd : dispatch t.myballz.length poolSize with
  | none =>
    rw [hd] at h
    exact absurd h (by simp)
  | some tasks =>
    rw [hd] at h
    have hs1 := (Option.some.inj h).symm
    subst hs1
    have hcov := dispatch_cover t.myballz.length poolSize tasks hd
    refine ⟨?_, ?_, ?_, ?_⟩
    · apply List.ext_getElem?
      intro i
      show (runTasks sqrt elapsedTime gravity tasks t).myballz2[i]? = _
      rw [runTasks_myballz2]
      unfold updatedPositions
      by_cases hi : i < t.myballz.length
      · have hi2 : i < t.myballz2.length := by rw [hl.2.1]; exact hi
        rw [if_pos ((hcov i).2 hi), List.getElem?_map, List.getElem?_range hi,
          List.getElem?_eq_getElem hi2]
        rfl
      · have hi2 : t.myballz2.length ≤ i := by rw [hl.2.1]; omega
        rw [if_neg (fun hc => hi ((hcov i).1 hc)), List.getElem?_eq_none hi2,
          List.getElem?_eq_none (by simp; omega)]
    · apply List.ext_getElem?
      intro i
      show (runTasks sqrt elapsedTime gravity tasks t).myvelocityz2[i]? = _
      rw [runTasks_myvelocityz2]
      unfold updatedVelocities
      by_cases hi : i < t.myballz.length
      · have hi2 : i < t.myvelocityz2.length := by rw [hl.2.2]; exact hi
        rw [if_pos ((hcov i).2 hi), List.getElem?_map, List.getElem?_range hi,
          List.getElem?_eq_getElem hi2]
        rfl
      · have hi2 : t.myvelocityz2.length ≤ i := by rw [hl.2.2]; omega
        rw [if_neg (fun hc => hi ((hcov i).1 hc)), List.getElem?_eq_none hi2,
          List.getElem?_eq_none (by simp; omega)]
    · exact runTasks_myballz sqrt elapsedTime gravity tasks t
    · exact runTasks_myvelocityz sqrt elapsedTime gravity tasks t

end Frame

/-! ## Spawn -/

section Spawn

variable {F : Type} [LinearOrderedField F]

/-- A loop `for (x = x0; x < bound; x += step)` whose condition holds for the
first `n` values and fails for the next one yields those `n` values as soon as
`n ≤ fuel`. -/
theorem floatLoop_eq (n : Nat) : ∀ (fuel : Nat) (x bound step : F), n ≤ fuel →
    (∀ k : Nat, k < n → x + k * step < bound) → ¬ (x + n * step < bound) →
    floatLoop fuel x bound step = (List.range n).map fun k : Nat => x + (k : F) * step := by
  induction n with
  | zero =>
    intro fuel x bound step _ _ hge
    have hx : ¬ (x < bound) := by simpa using hge
    cases fuel with
    | zero => rfl
    | succ fuel => simp [floatLoop, hx]
  | succ n ih =>
    intro fuel x bound step hfuel hlt hge
    cases fuel with
    | zero => omega
    | succ fuel =>
      have hx : x < bound := by simpa using hlt 0 (Nat.succ_pos n)
      have hrec := ih fuel (x + step) bound step (by omega)
        (fun k hk => by
          have := hlt (k + 1) (by omega)
          push_cast at this
          linarith)
        (by
          intro hc
          apply hge
          push_cast
          linarith)
      rw [floatLoop, if_pos hx, hrec, List.range_succ_eq_map, List.map_cons, List.map_map]
      congr 1
      · simp
      · apply List.map_congr_left
        intro k _
        simp only [Function.comp, Nat.succ_eq_add_one]
        push_cast
        ring

/-- A loop with a non-negative step whose condition holds at iteration `n` and
fails at iteration `n + 1` runs `n + 1` times. -/
theorem floatLoop_count (n fuel : Nat) (x bound step : F) (hstep : 0 ≤ step)
    (hfuel : n + 1 ≤ fuel) (hlast : x + (n : F) * step < bound)
    (hge : ¬ (x + ((n : F) + 1) * step < bound)) :
    floatLoop fuel x bound step = (List.range (n + 1)).map fun k : Nat => x + (k : F) * step := by
  apply floatLoop_eq (n + 1) fuel x bound step hfuel
  · intro k hk
    have hkn : (k : F) ≤ (n : F) := by exact_mod_cast Nat.lt_succ_iff.1 hk
    have := mul_le_mul_of_nonneg_right hkn hstep
    linarith
  · push_cast
    exact hge

theorem length_flatMap_map {α β γ : Type} (xs : List α) (zs : List β) (f : α → β → γ) :
    (xs.flatMap fun x => zs.map fun z => f x z).length = xs.length * zs.length := by
  induction xs with
  | nil => simp
  | cons x rest ih =>
    rw [List.flatMap_cons, List.length_append, ih, List.length_map, List.length_cons]
    ring

/-- The three grids of `addBalls` hold 17 x 19, 17 x 17 and 18 x 22 bodies for
every bound of at least 23 iterations on the loops. -/
theorem grid_lengths (fuel : Nat) (h : 23 ≤ fuel) :
    (grid fuel (-38 : F) 38 (9 / 2) (-38) 38 4 38 (3 / 2)).length = 323 ∧
    (grid fuel (-38 : F) (77 / 2) (9 / 2) (-38) (77 / 2) (9 / 2) (353 / 10) 1).length = 289 ∧
    (grid fuel (-38 : F) (77 / 2) (43 / 10) (-38) (77 / 2) (7 / 2) 32 (1 / 2)).length = 396 := by
  have hA := floatLoop_count 16 fuel (-38 : F) 38 (9 / 2) (by norm_num) (by omega)
    (by norm_num) (by norm_num)
  have hB := floatLoop_count 18 fuel (-38 : F) 38 4 (by norm_num) (by omega)
    (by norm_num) (by norm_num)
  have hC := floatLoop_count 16 fuel (-38 : F) (77 / 2) (9 / 2) (by norm_num) (by omega)
    (by norm_num) (by norm_num)
  have hD := floatLoop_count 17 fuel (-38 : F) (77 / 2) (43 / 10) (by norm_num) (by omega)
    (by norm_num) (by norm_num)
  have hE := floatLoop_count 21 fuel (-38 : F) (77 / 2) (7 / 2) (by norm_num) (by omega)
    (by norm_num) (by norm_num)
  unfold grid
  rw [length_flatMap_map, length_flatMap_map, length_flatMap_map, hA, hB, hC, hD, hE]
  simp only [List.length_map, List.length_range]
  decide

/-- The grids do not depend on the iteration bound once it is at least 23:
every loop of `addBalls` ends because its condition fails. -/
theorem addBallsFuel_eq (fuel : Nat) (h : 23 ≤ fuel) (s : HPCAssignment F) :
    addBallsFuel fuel s = addBalls s := by
  have hA := floatLoop_count 16 fuel (-38 : F) 38 (9 / 2) (by norm_num) (by omega)
    (by norm_num) (by norm_num)
  have hB := floatLoop_count 18 fuel (-38 : F) 38 4 (by norm_num) (by omega)
    (by norm_num) (by norm_num)
  have hC := floatLoop_count 16 fuel (-38 : F) (77 / 2) (9 / 2) (by norm_num) (by omega)
    (by norm_num) (by norm_num)
  have hD := floatLoop_count 17 fuel (-38 : F) (77 / 2) (43 / 10) (by norm_num) (by omega)
    (by norm_num) (by norm_num)
  have hE := floatLoop_count 21 fuel (-38 : F) (77 / 2) (7 / 2) (by norm_num) (by omega)
    (by norm_num) (by norm_num)
  have hA' := floatLoop_count 16 32 (-38 : F) 38 (9 / 2) (by norm_num) (by omega)
    (by norm_num) (by norm_num)
  have hB' := floatLoop_count 18 32 (-38 : F) 38 4 (by norm_num) (by omega)
    (by norm_num) (by norm_num)
  have hC' := floatLoop_count 16 32 (-38 : F) (77 / 2) (9 / 2) (by norm_num) (by omega)
    (by norm_num) (by norm_num)
  have hD' := floatLoop_count 17 32 (-38 : F) (77 / 2) (43 / 10) (by norm_num) (by omega)
    (by norm_num) (by norm_num)
  have hE' := floatLoop_count 21 32 (-38 : F) (77 / 2) (7 / 2) (by norm_num) (by omega)
    (by norm_num) (by norm_num)
  unfold addBalls addBallsFuel grid
  rw [hA, hB, hC, hD, hE, hA', hB', hC', hD', hE']

/-- Spawning appends 1008 bodies. -/
theorem addBalls_myballz_length (s : HPCAssignment F) :
    (addBalls s).myballz.length = s.myballz.length + 1008 := by
  obtain ⟨h1, h2, h3⟩ := @grid_lengths F _ 32 (by decide)
  unfold addBalls addBallsFuel
  simp only [List.length_append, h1, h2, h3]

end Spawn

/-! ## Integration step -/

section Integrate

variable {F : Type} [LinearOrderedField F]

/-- The position stored for a body is the Euler position on lanes 0-2 and the
body's own radius on lane 3. -/
theorem integrate_fst (sqrt : F → F) (balls vels : List (Vector3 F)) (elapsedTime : F)
    (gravityVec : Vector3 F) (i : Nat) :
    (integrate sqrt balls vels elapsedTime gravityVec i).1 =
      ⟨(balls.getD i Vector3.zero).x + ((vels.getD i Vector3.zero).x +
          ((forceOn sqrt balls vels i).x / ((balls.getD i Vector3.zero).w +
            (balls.getD i Vector3.zero).w) + gravityVec.x) * elapsedTime) * elapsedTime,
       (balls.getD i Vector3.zero).y + ((vels.getD i Vector3.zero).y +
          ((forceOn sqrt balls vels i).y / ((balls.getD i Vector3.zero).w +
            (balls.getD i Vector3.zero).w) + gravityVec.y) * elapsedTime) * elapsedTime,
       (balls.getD i Vector3.zero).z + ((vels.getD i Vector3.zero).z +
          ((forceOn sqrt balls vels i).z / ((balls.getD i Vector3.zero).w +
            (balls.getD i Vector3.zero).w) + gravityVec.z) * elapsedTime) * elapsedTime,
       (balls.getD i Vector3.zero).w⟩ := rfl

theorem integrate_fst_w (sqrt : F → F) (balls vels : List (Vector3 F)) (elapsedTime : F)
    (gravityVec : Vector3 F) (i : Nat) :
    (integrate sqrt balls vels elapsedTime gravityVec i).1.w = (balls.getD i Vector3.zero).w :=
  rfl

/-- Lane 3 of the stored velocity is `(r - r) / elapsedTime`, zero. -/
theorem integrate_snd_w (sqrt : F → F) (balls vels : List (Vector3 F)) (elapsedTime : F)
    (gravityVec : Vector3 F) (i : Nat) :
    (integrate sqrt balls vels elapsedTime gravityVec i).2.w = 0 := by
  show ((balls.getD i Vector3.zero).w - (balls.getD i Vector3.zero).w) / elapsedTime = 0
  rw [sub_self, zero_div]

/-- The inner loop leaves the force as it is when no other body passes the
overlap test. -/
theorem foldl_pairStep_of_no_overlap (sqrt : F → F) (balls vels : List (Vector3 F))
    (i : Nat) (js : List Nat) (force : Vector3 F)
    (h : ∀ j ∈ js, j ≠ i →
      ((balls.getD i Vector3.zero - balls.getD j Vector3.zero).length sqrt).lt
        ((balls.getD i Vector3.zero).getR + (balls.getD j Vector3.zero).getR) = false) :
    js.foldl (pairStep sqrt balls vels i) force = force := by
  induction js with
  | nil => rfl
  | cons j rest ih =>
    have hstep : pairStep sqrt balls vels i force j = force := by
      unfold pairStep
      by_cases hij : i = j
      · simp only [ne_eq, hij, not_true_eq_false, if_false]
      · have := h j (List.mem_cons_self _ _) (fun e => hij e.symm)
        simp only [ne_eq, hij, not_false_eq_true, if_true, this, Bool.false_eq_true, if_false]
    rw [List.foldl_cons, hstep]
    exact ih (fun k hk => h k (List.mem_cons_of_mem _ hk))

end Integrate

/-! ## One frame, continued -/

section RunReturns

variable {F : Type} [LinearOrderedField F]

/-- With at least `2 * poolSize` bodies after the optional spawn, and fewer
than `2^31`, `run` returns. -/
theorem run_isSome (sqrt : F → F) (poolSize : Nat) (elapsedTime : F) (gravity : Vector3 F)
    (addBall : Bool) (s : HPCAssignment F) (hP : 0 < poolSize)
    (h : 2 * poolSize ≤ (spawnIf addBall s).myballz.length)
    (hsize : (spawnIf addBall s).myballz.length < 2 ^ 31) :
    ∃ s1, run sqrt poolSize elapsedTime gravity addBall s = some s1 := by
  obtain ⟨tasks, ht⟩ := dispatch_isSome _ poolSize hP h hsize
  unfold run
  simp only [ht]
  exact ⟨_, rfl⟩

/-- A returning `run` keeps the four buffers at one length. -/
theorem run_sameLength (sqrt : F → F) (poolSize : Nat) (elapsedTime : F)
    (gravity : Vector3 F) (addBall : Bool) (s s1 : HPCAssignment F) (hs : SameLength s)
    (h : run sqrt poolSize elapsedTime gravity addBall s = some s1) : SameLength s1 := by
  obtain ⟨a1, a2, a3, a4⟩ := run_eq_some sqrt poolSize elapsedTime gravity addBall s s1 hs h
  have hl := spawnIf_sameLength addBall s hs
  unfold SameLength
  rw [a1, a2, a3, a4]
  unfold updatedPositions updatedVelocities
  simp only [List.length_map, List.length_range]
  exact ⟨trivial, trivial, hl.1⟩

theorem fresh_sameLength : SameLength (HPCAssignment.fresh : HPCAssignment F) :=
  ⟨rfl, rfl, rfl⟩

theorem reachable_sameLength (sqrt : F → F) (poolSize : Nat) (s : HPCAssignment F)
    (h : Reachable sqrt poolSize s) : SameLength s := by
  induction h with
  | load => exact addBalls_sameLength _ fresh_sameLength
  | run elapsedTime gravity addBall _ hrun ih =>
    exact run_sameLength sqrt poolSize elapsedTime gravity addBall _ _ ih hrun

/-- Every body of a grid carries the grid's radius. -/
theorem mem_grid_w (fuel : Nat) (x0 xBound xStep z0 zBound zStep y r : F) (b : Vector3 F)
    (h : b ∈ grid fuel x0 xBound xStep z0 zBound zStep y r) : b.w = r := by
  unfold grid at h
  obtain ⟨x, _, hx⟩ := List.mem_flatMap.1 h
  obtain ⟨z, _, rfl⟩ := List.mem_map.1 hx
  rfl

/-- Bodies after a spawn: the old ones, then bodies of radius 1.5, 1 or 0.5. -/
theorem mem_addBalls_myballz (s : HPCAssignment F) (b : Vector3 F)
    (h : b ∈ (addBalls s).myballz) : b ∈ s.myballz ∨ ValidRadius b.w := by
  unfold addBalls addBallsFuel at h
  simp only [List.mem_append] at h
  rcases h with h | (h | h) | h
  · exact Or.inl h
  · exact Or.inr (Or.inr (Or.inr (mem_grid_w _ _ _ _ _ _ _ _ _ _ h)))
  · exact Or.inr (Or.inr (Or.inl (mem_grid_w _ _ _ _ _ _ _ _ _ _ h)))
  · exact Or.inr (Or.inl (mem_grid_w _ _ _ _ _ _ _ _ _ _ h))

/-- Shape of a spawn: new bodies of valid radius appended to the positions,
as many zero vectors appended to the velocities. -/
theorem addBalls_append (s : HPCAssignment F) :
    ∃ new : List (Vector3 F), (addBalls s).myballz = s.myballz ++ new ∧
      (addBalls s).myvelocityz = s.myvelocityz ++ new.map (fun _ => Vector3.splat 0) ∧
      ∀ b ∈ new, ValidRadius b.w := by
  refine ⟨_, rfl, rfl, ?_⟩
  intro b hb
  simp only [List.mem_append] at hb
  rcases hb with (h | h) | h
  · exact Or.inr (Or.inr (mem_grid_w _ _ _ _ _ _ _ _ _ _ h))
  · exact Or.inr (Or.inl (mem_grid_w _ _ _ _ _ _ _ _ _ _ h))
  · exact Or.inl (mem_grid_w _ _ _ _ _ _ _ _ _ _ h)

theorem spawnIf_validRadius (addBall : Bool) (s : HPCAssignment F)
    (h : ∀ b ∈ s.myballz, ValidRadius b.w) :
    ∀ b ∈ (spawnIf addBall s).myballz, ValidRadius b.w := by
  unfold spawnIf
  split
  · intro b hb
    rcases mem_addBalls_myballz s b hb with hb | hb
    · exact h b hb
    · exact hb
  · exact h

/-- The optional spawn leaves the existing bodies where they are. -/
theorem spawnIf_myballz_getElem? (addBall : Bool) (s : HPCAssignment F) (i : Nat)
    (hi : i < s.myballz.length) : (spawnIf addBall s).myballz[i]? = s.myballz[i]? := by
  unfold spawnIf
  split
  · unfold addBalls addBallsFuel
    exact List.getElem?_append_left hi
  · rfl

theorem spawnIf_myballz_length_le (addBall : Bool) (s : HPCAssignment F) :
    s.myballz.length ≤ (spawnIf addBall s).myballz.length := by
  unfold spawnIf
  split
  · rw [addBalls_myballz_length]
    omega
  · exact le_refl _

/-- Front position `i` after a returning `run`. -/
theorem run_myballz_getElem? (sqrt : F → F) (poolSize : Nat) (elapsedTime : F)
    (gravity : Vector3 F) (addBall : Bool) (s s1 : HPCAssignment F) (hs : SameLength s)
    (h : run sqrt poolSize elapsedTime gravity addBall s = some s1) (i : Nat)
    (hi : i < (spawnIf addBall s).myballz.length) :
    s1.myballz[i]? = some (integrate sqrt (spawnIf addBall s).myballz
      (spawnIf addBall s).myvelocityz elapsedTime gravity i).1 := by
  obtain ⟨a1, _, _, _⟩ := run_eq_some sqrt poolSize elapsedTime gravity addBall s s1 hs h
  rw [a1]
  unfold updatedPositions
  rw [List.getElem?_map, List.getElem?_range hi]
  rfl

/-- Front velocity `i` after a returning `run`. -/
theorem run_myvelocityz_getElem? (sqrt : F → F) (poolSize : Nat) (elapsedTime : F)
    (gravity : Vector3 F) (addBall : Bool) (s s1 : HPCAssignment F) (hs : SameLength s)
    (h : run sqrt poolSize elapsedTime gravity addBall s = some s1) (i : Nat)
    (hi : i < (spawnIf addBall s).myballz.length) :
    s1.myvelocityz[i]? = some (integrate sqrt (spawnIf addBall s).myballz
      (spawnIf addBall s).myvelocityz elapsedTime gravity i).2 := by
  obtain ⟨_, a2, _, _⟩ := run_eq_some sqrt poolSize elapsedTime gravity addBall s s1 hs h
  rw [a2]
  unfold updatedVelocities
  rw [List.getElem?_map, List.getElem?_range hi]
  rfl

/-- Radii after a returning `run` are the radii before it. -/
theorem run_validRadius (sqrt : F → F) (poolSize : Nat) (elapsedTime : F)
    (gravity : Vector3 F) (addBall : Bool) (s s1 : HPCAssignment F) (hs : SameLength s)
    (hr : ∀ b ∈ s.myballz, ValidRadius b.w)
    (h : run sqrt poolSize elapsedTime gravity addBall s = some s1) :
    ∀ b ∈ s1.myballz, ValidRadius b.w := by
  intro b hb
  obtain ⟨a1, _, _, _⟩ := run_eq_some sqrt poolSize elapsedTime gravity addBall s s1 hs h
  rw [a1] at hb
  unfold updatedPositions at hb
  obtain ⟨i, hi, rfl⟩ := List.mem_map.1 hb
  have hi' : i < (spawnIf addBall s).myballz.length := List.mem_range.1 hi
  rw [integrate_fst_w, List.getD_eq_getElem _ _ hi']
  exact spawnIf_validRadius addBall s hr _ (List.getElem_mem hi')

theorem reachable_validRadius (sqrt : F → F) (poolSize : Nat) (s : HPCAssignment F)
    (h : Reachable sqrt poolSize s) : ∀ b ∈ s.myballz, ValidRadius b.w := by
  induction h with
  | load =>
    intro b hb
    rcases mem_addBalls_myballz _ b hb with hb | hb
    · exact absurd hb (List.not_mem_nil b)
    · exact hb
  | run elapsedTime gravity addBall hprev hrun ih =>
    exact run_validRadius sqrt poolSize elapsedTime gravity addBall _ _
      (reachable_sameLength sqrt poolSize _ hprev) ih hrun

end RunReturns

/-! ## The claims -/

section Claims

variable {F : Type} [LinearOrderedField F]

open Vector3

/-- C1 (defect in the code).  Partition coverage is claimed for every
population `N ≥ 1` and pool size `P ≥ 1`.  For `N < 2 * P` the chunk size
`numBalls = N / (2 * P)` is zero and `myballz.size() / numBalls` divides by
zero, so no range is dispatched at all: one body on one thread, and the 1008
bodies of `load()` on 512 threads. -/
theorem dispatch_undefined_small_population :
    dispatch 1 1 = none ∧ dispatch 1008 512 = none ∧
      ∀ size poolSize : Nat, size < 2 * poolSize → dispatch size poolSize = none :=
  ⟨rfl, rfl, dispatch_eq_none_of_lt⟩

/-- C2.  Determinism under parallelism: two engines with the same front
buffers (all four buffers of one length each), given the same `elapsedTime`,
gravity and spawn flag, on pools of `P1` and `P2` threads with at least
`2 * max P1 P2` bodies, both return from `run` and end with the same front
positions and the same front velocities. -/
theorem run_deterministic (sqrt : F → F) (P1 P2 : Nat) (elapsedTime : F)
    (gravity : Vector3 F) (addBall : Bool) (s t : HPCAssignment F)
    (hs : SameLength s) (ht : SameLength t)
    (hballz : s.myballz = t.myballz) (hvel : s.myvelocityz = t.myvelocityz)
    (hP1 : 0 < P1) (hP2 : 0 < P2)
    (hN : 2 * max P1 P2 ≤ (spawnIf addBall s).myballz.length)
    (hsize : (spawnIf addBall s).myballz.length < 2 ^ 31) :
    ∃ s1 t1, run sqrt P1 elapsedTime gravity addBall s = some s1 ∧
      run sqrt P2 elapsedTime gravity addBall t = some t1 ∧
      s1.myballz = t1.myballz ∧ s1.myvelocityz = t1.myvelocityz := by
  have hfront : (spawnIf addBall s).myballz = (spawnIf addBall t).myballz ∧
      (spawnIf addBall s).myvelocityz = (spawnIf addBall t).myvelocityz := by
    unfold spawnIf
    split
    · simp only [addBalls, addBallsFuel, hballz, hvel, and_self]
    · exact ⟨hballz, hvel⟩
  have h1 : 2 * P1 ≤ (spawnIf addBall s).myballz.length :=
    le_trans (Nat.mul_le_mul_left 2 (le_max_left P1 P2)) hN
  have h2 : 2 * P2 ≤ (spawnIf addBall t).myballz.length := by
    rw [← hfront.1]
    exact le_trans (Nat.mul_le_mul_left 2 (le_max_right P1 P2)) hN
  obtain ⟨s1, hs1⟩ := run_isSome sqrt P1 elapsedTime gravity addBall s hP1 h1 hsize
  obtain ⟨t1, ht1⟩ := run_isSome sqrt P2 elapsedTime gravity addBall t hP2 h2
    (by rw [← hfront.1]; exact hsize)
  obtain ⟨a1, a2, _, _⟩ := run_eq_some sqrt P1 elapsedTime gravity addBall s s1 hs hs1
  obtain ⟨b1, b2, _, _⟩ := run_eq_some sqrt P2 elapsedTime gravity addBall t t1 ht ht1
  refine ⟨s1, t1, hs1, ht1, ?_, ?_⟩
  · rw [a1, b1, hfront.1, hfront.2]
  · rw [a2, b2, hfront.1, hfront.2]

/-- Witness of C2: sixteen bodies at rest, three units apart, pools of 1 and of
8 threads, different back buffers. -/
theorem run_deterministic_witness :
    ∃ s1 t1 : HPCAssignment ℚ,
      run Rat.sqrt 1 (1 / 10) ⟨0, -981 / 100, 0, 0⟩ false
        ⟨(List.range 16).map (fun k : Nat => ⟨3 * (k : ℚ), 0, 0, 1⟩), List.replicate 16 zero,
          List.replicate 16 zero, List.replicate 16 zero⟩ = some s1 ∧
      run Rat.sqrt 8 (1 / 10) ⟨0, -981 / 100, 0, 0⟩ false
        ⟨(List.range 16).map (fun k : Nat => ⟨3 * (k : ℚ), 0, 0, 1⟩), List.replicate 16 zero,
          List.replicate 16 ⟨1, 1, 1, 1⟩, List.replicate 16 ⟨2, 2, 2, 2⟩⟩ = some t1 ∧
      s1.myballz = t1.myballz ∧ s1.myvelocityz = t1.myvelocityz :=
  run_deterministic Rat.sqrt 1 8 (1 / 10) ⟨0, -981 / 100, 0, 0⟩ false _ _
    (by simp [SameLength]) (by simp [SameLength]) rfl rfl (by decide) (by decide)
    (by simp [spawnIf]) (by simp [spawnIf])

/-- C3.  Double-buffer frame property of one task, for `start ≤ stop ≤ N`:
the front buffers are unchanged; a back-buffer index outside `[start, stop)` is
unchanged; on a state with the same front buffers and back buffers of the same
lengths the task leaves the same values at every index of `[start, stop)`,
whatever the back buffers held; and updating `[start, mid)` and then
`[mid, stop)` is updating `[start, stop)` once. -/
theorem doSomeBallStuff_frame (sqrt : F → F) (start stop : Nat) (elapsedTime : F)
    (gravityVec : Vector3 F) (s : HPCAssignment F)
    (_hse : start ≤ stop) (_hN : stop ≤ s.myballz.length) :
    ((doSomeBallStuff sqrt start stop elapsedTime gravityVec s).myballz = s.myballz ∧
      (doSomeBallStuff sqrt start stop elapsedTime gravityVec s).myvelocityz = s.myvelocityz) ∧
    (∀ i : Nat, ¬ (start ≤ i ∧ i < stop) →
      (doSomeBallStuff sqrt start stop elapsedTime gravityVec s).myballz2[i]? = s.myballz2[i]? ∧
      (doSomeBallStuff sqrt start stop elapsedTime gravityVec s).myvelocityz2[i]? =
        s.myvelocityz2[i]?) ∧
    (∀ t : HPCAssignment F, t.myballz = s.myballz → t.myvelocityz = s.myvelocityz →
      t.myballz2.length = s.myballz2.length → t.myvelocityz2.length = s.myvelocityz2.length →
      ∀ i : Nat, start ≤ i → i < stop →
        (doSomeBallStuff sqrt start stop elapsedTime gravityVec t).myballz2[i]? =
          (doSomeBallStuff sqrt start stop elapsedTime gravityVec s).myballz2[i]? ∧
        (doSomeBallStuff sqrt start stop elapsedTime gravityVec t).myvelocityz2[i]? =
          (doSomeBallStuff sqrt start stop elapsedTime gravityVec s).myvelocityz2[i]?) ∧
    (∀ mid : Nat, start ≤ mid → mid ≤ stop →
      doSomeBallStuff sqrt mid stop elapsedTime gravityVec
          (doSomeBallStuff sqrt start mid elapsedTime gravityVec s) =
        doSomeBallStuff sqrt start stop elapsedTime gravityVec s) := by
  refine ⟨⟨doSomeBallStuff_myballz .., doSomeBallStuff_myvelocityz ..⟩, ?_, ?_, ?_⟩
  · intro i hi
    rw [doSomeBallStuff_myballz2, doSomeBallStuff_myvelocityz2, if_neg hi, if_neg hi]
    exact ⟨rfl, rfl⟩
  · intro t hb hv hl1 hl2 i hi1 hi2
    have hi : start ≤ i ∧ i < stop := ⟨hi1, hi2⟩
    rw [doSomeBallStuff_myballz2, doSomeBallStuff_myvelocityz2, doSomeBallStuff_myballz2,
      doSomeBallStuff_myvelocityz2, hb, hv]
    simp only [if_pos hi]
    constructor
    · by_cases h : i < s.myballz2.length
      · rw [List.getElem?_eq_getElem h, List.getElem?_eq_getElem (hl1 ▸ h)]
        rfl
      · rw [List.getElem?_eq_none (by omega), List.getElem?_eq_none (by omega)]
    · by_cases h : i < s.myvelocityz2.length
      · rw [List.getElem?_eq_getElem h, List.getElem?_eq_getElem (hl2 ▸ h)]
        rfl
      · rw [List.getElem?_eq_none (by omega), List.getElem?_eq_none (by omega)]
  · intro mid h1 h2
    unfold doSomeBallStuff
    rw [← List.foldl_append]
    congr 1
    have e1 : stop - start = (stop - mid) + (mid - start) := by omega
    have e2 : mid = start + (mid - start) := by omega
    rw [e1]
    nth_rewrite 2 [e2]
    exact List.range'_append_1 start (mid - start) (stop - mid)

/-- Witness of C3: the task `[1, 2)` on three bodies. -/
theorem doSomeBallStuff_frame_witness :
    (doSomeBallStuff Rat.sqrt 1 2 (1 / 10) ⟨0, -981 / 100, 0, 0⟩
        (⟨[⟨0, 0, 0, 1⟩, ⟨3, 0, 0, 1⟩, ⟨6, 0, 0, 1 / 2⟩], [zero, zero, zero],
          [zero, zero, zero], [zero, zero, zero]⟩ : HPCAssignment ℚ)).myballz =
      [⟨0, 0, 0, 1⟩, ⟨3, 0, 0, 1⟩, ⟨6, 0, 0, 1 / 2⟩] :=
  (doSomeBallStuff_frame Rat.sqrt 1 2 (1 / 10) ⟨0, -981 / 100, 0, 0⟩
    ⟨[⟨0, 0, 0, 1⟩, ⟨3, 0, 0, 1⟩, ⟨6, 0, 0, 1 / 2⟩], [zero, zero, zero],
      [zero, zero, zero], [zero, zero, zero]⟩ (by decide) (by decide)).1.1

/-- C4.  Semi-implicit Euler in exact arithmetic: for `elapsedTime ≠ 0` and a
body `i` of the task's range, with `force` the value accumulated by the task,
the stored position is the position of `eulerSpec` (lanes 0-2 updated, radius
in lane 3) and the stored velocity, computed as
`(newpos - pointp) / elapsedTime`, agrees with the velocity of `eulerSpec` on
lanes 0-2. -/
theorem doSomeBallStuff_semi_implicit_euler (sqrt : F → F) (start stop i : Nat)
    (elapsedTime : F) (gravityVec : Vector3 F) (s : HPCAssignment F)
    (hdt : elapsedTime ≠ 0) (h1 : start ≤ i) (h2 : i < stop) (_h3 : stop ≤ s.myballz.length)
    (h4 : i < s.myballz2.length) (h5 : i < s.myvelocityz2.length) :
    (doSomeBallStuff sqrt start stop elapsedTime gravityVec s).myballz2[i]? =
        some (eulerSpec (forceOn sqrt s.myballz s.myvelocityz i) (s.myballz.getD i zero)
          (s.myvelocityz.getD i zero) gravityVec elapsedTime).1 ∧
      ∃ v : Vector3 F,
        (doSomeBallStuff sqrt start stop elapsedTime gravityVec s).myvelocityz2[i]? = some v ∧
        v.x = (eulerSpec (forceOn sqrt s.myballz s.myvelocityz i) (s.myballz.getD i zero)
          (s.myvelocityz.getD i zero) gravityVec elapsedTime).2.x ∧
        v.y = (eulerSpec (forceOn sqrt s.myballz s.myvelocityz i) (s.myballz.getD i zero)
          (s.myvelocityz.getD i zero) gravityVec elapsedTime).2.y ∧
        v.z = (eulerSpec (forceOn sqrt s.myballz s.myvelocityz i) (s.myballz.getD i zero)
          (s.myvelocityz.getD i zero) gravityVec elapsedTime).2.z := by
  have hi : start ≤ i ∧ i < stop := ⟨h1, h2⟩
  rw [doSomeBallStuff_myballz2, doSomeBallStuff_myvelocityz2, if_pos hi, if_pos hi,
    List.getElem?_eq_getElem h4, List.getElem?_eq_getElem h5]
  refine ⟨?_, _, rfl, ?_, ?_, ?_⟩
  · show some (integrate sqrt s.myballz s.myvelocityz elapsedTime gravityVec i).1 = _
    rw [integrate_fst]
    have e : ∀ r : F, r + r = 2 * r := fun r => (two_mul r).symm
    simp only [e]
    rfl
  · show ((s.myballz.getD i zero).x + ((s.myvelocityz.getD i zero).x +
        ((forceOn sqrt s.myballz s.myvelocityz i).x / ((s.myballz.getD i zero).w +
          (s.myballz.getD i zero).w) + gravityVec.x) * elapsedTime) * elapsedTime -
        (s.myballz.getD i zero).x) / elapsedTime =
      (s.myvelocityz.getD i zero).x + ((forceOn sqrt s.myballz s.myvelocityz i).x /
        (2 * (s.myballz.getD i zero).w) + gravityVec.x) * elapsedTime
    rw [← two_mul, add_sub_cancel_left, mul_div_assoc, div_self hdt, mul_one]
  · show ((s.myballz.getD i zero).y + ((s.myvelocityz.getD i zero).y +
        ((forceOn sqrt s.myballz s.myvelocityz i).y / ((s.myballz.getD i zero).w +
          (s.myballz.getD i zero).w) + gravityVec.y) * elapsedTime) * elapsedTime -
        (s.myballz.getD i zero).y) / elapsedTime =
      (s.myvelocityz.getD i zero).y + ((forceOn sqrt s.myballz s.myvelocityz i).y /
        (2 * (s.myballz.getD i zero).w) + gravityVec.y) * elapsedTime
    rw [← two_mul, add_sub_cancel_left, mul_div_assoc, div_self hdt, mul_one]
  · show ((s.myballz.getD i zero).z + ((s.myvelocityz.getD i zero).z +
        ((forceOn sqrt s.myballz s.myvelocityz i).z / ((s.myballz.getD i zero).w +
          (s.myballz.getD i zero).w) + gravityVec.z) * elapsedTime) * elapsedTime -
        (s.myballz.getD i zero).z) / elapsedTime =
      (s.myvelocityz.getD i zero).z + ((forceOn sqrt s.myballz s.myvelocityz i).z /
        (2 * (s.myballz.getD i zero).w) + gravityVec.z) * elapsedTime
    rw [← two_mul, add_sub_cancel_left, mul_div_assoc, div_self hdt, mul_one]

/-- Force on a single body at the origin with radius 1 and zero velocity. -/
theorem forceOn_single_body (sqrt : F → F) :
    forceOn sqrt [(⟨0, 0, 0, 1⟩ : Vector3 F)] [zero] 0 = ⟨0, 0, 0, 0⟩ := by
  apply ext_lanes <;>
    simp [forceOn, wallForce, pairStep, List.range_succ] <;> norm_num

/-- Witness of C4: one body at the origin, radius 1, at rest, gravity
`(0, -9.81, 0)`, `elapsedTime = 0.1`. -/
theorem doSomeBallStuff_semi_implicit_euler_witness :
    (doSomeBallStuff Rat.sqrt 0 1 (1 / 10) ⟨0, -981 / 100, 0, 0⟩
        (⟨[⟨0, 0, 0, 1⟩], [zero], [zero], [zero]⟩ : HPCAssignment ℚ)).myballz2[0]? =
      some ⟨0, -981 / 10000, 0, 1⟩ :=
  (doSomeBallStuff_semi_implicit_euler Rat.sqrt 0 1 0 (1 / 10) ⟨0, -981 / 100, 0, 0⟩
    ⟨[⟨0, 0, 0, 1⟩], [zero], [zero], [zero]⟩ (by norm_num) (by decide) (by decide)
    (by decide) (by decide) (by decide)).1.trans (by
      rw [forceOn_single_body]
      simp only [eulerSpec, List.getD_cons_zero]
      congr 1
      apply ext_lanes <;> simp <;> norm_num)

/-- Buffers holding one body at `(0, 0, 0)` with radius 1 and zero velocity,
gravity `(0, -9.81, 0)`, `dt = 0.1`, no spawn: on every pool size `run`
computes `numBalls = 1 / (2 * poolSize) = 0` and divides by it, so it
produces no state; the task `doSomeBallStuff(0, 1, ...)` on these buffers
stores `position' = (0, -0.0981, 0, 1)` and `velocity' = (0, -0.981, 0)`.
No sequence of `load()` and `run` calls leaves a population of one body
(`reachable_length`). -/
theorem run_single_body_undefined (sqrt : F → F) (poolSize : Nat) :
    run sqrt poolSize (1 / 10) ⟨0, -981 / 100, 0, 0⟩ false
        (⟨[⟨0, 0, 0, 1⟩], [zero], [zero], [zero]⟩ : HPCAssignment F) = none ∧
      doSomeBallStuff sqrt 0 1 (1 / 10) ⟨0, -981 / 100, 0, 0⟩
        (⟨[⟨0, 0, 0, 1⟩], [zero], [zero], [zero]⟩ : HPCAssignment F) =
        ⟨[⟨0, 0, 0, 1⟩], [zero], [⟨0, -981 / 10000, 0, 1⟩], [⟨0, -981 / 1000, 0, 0⟩]⟩ := by
  constructor
  · have hd : dispatch 1 poolSize = none := by
      by_cases hP : poolSize = 0
      · subst hP
        rfl
      · exact dispatch_eq_none_of_lt 1 poolSize (by omega)
    unfold run
    simp only [spawnIf, Bool.false_eq_true, if_false, List.length_singleton, hd]
  · have hi : integrate sqrt [(⟨0, 0, 0, 1⟩ : Vector3 F)] [zero] (1 / 10)
        ⟨0, -981 / 100, 0, 0⟩ 0 = (⟨0, -981 / 10000, 0, 1⟩, ⟨0, -981 / 1000, 0, 0⟩) := by
      unfold integrate
      rw [forceOn_single_body]
      simp only [List.getD_cons_zero]
      apply Prod.ext
      · apply ext_lanes <;> simp <;> norm_num
      · apply ext_lanes <;> simp <;> norm_num
    show ballStep sqrt (1 / 10) ⟨0, -981 / 100, 0, 0⟩ _ 0 = _
    unfold ballStep
    simp only [hi, List.set_cons_zero]

/-- C6.  Radius invariant: in every state reached by `load()` and returning
`run` calls every body's fourth position lane is 0.5, 1.0 or 1.5, and a
returning `run` gives every index that existed before the call a front
position with the radius it had before the call. -/
theorem radius_invariant (sqrt : F → F) (poolSize : Nat) (s : HPCAssignment F)
    (h : Reachable sqrt poolSize s) :
    (∀ b ∈ s.myballz, ValidRadius b.w) ∧
      ∀ (elapsedTime : F) (gravity : Vector3 F) (addBall : Bool) (s1 : HPCAssignment F),
        run sqrt poolSize elapsedTime gravity addBall s = some s1 →
        ∀ i : Nat, i < s.myballz.length →
          (s1.myballz[i]?).map Vector3.w = (s.myballz[i]?).map Vector3.w ∧
          ∃ b, s1.myballz[i]? = some b ∧ ValidRadius b.w := by
  have hs := reachable_sameLength sqrt poolSize s h
  have hr := reachable_validRadius sqrt poolSize s h
  refine ⟨hr, ?_⟩
  intro elapsedTime gravity addBall s1 hrun i hi
  have hi' : i < (spawnIf addBall s).myballz.length :=
    lt_of_lt_of_le hi (spawnIf_myballz_length_le addBall s)
  have hget := run_myballz_getElem? sqrt poolSize elapsedTime gravity addBall s s1 hs hrun i hi'
  have hw : (integrate sqrt (spawnIf addBall s).myballz (spawnIf addBall s).myvelocityz
      elapsedTime gravity i).1.w = (s.myballz[i]).w := by
    rw [integrate_fst_w, List.getD_eq_getElem?_getD, spawnIf_myballz_getElem? addBall s i hi,
      List.getElem?_eq_getElem hi]
    rfl
  refine ⟨?_, _, hget, ?_⟩
  · rw [hget, List.getElem?_eq_getElem hi, Option.map_some', Option.map_some', hw]
  · rw [hw]
    exact hr _ (List.getElem_mem hi)

/-- Witness of C6: the state after `load()` and one `run` with a spawn on a
pool of 4 threads. -/
theorem radius_invariant_witness :
    ∃ s1 : HPCAssignment ℚ,
      run Rat.sqrt 4 (1 / 10) ⟨0, -981 / 100, 0, 0⟩ true (load HPCAssignment.fresh).2 = some s1 ∧
      ∀ b ∈ s1.myballz, ValidRadius b.w := by
  obtain ⟨s1, h1⟩ := run_isSome Rat.sqrt 4 (1 / 10) ⟨0, -981 / 100, 0, 0⟩ true
    (load (HPCAssignment.fresh : HPCAssignment ℚ)).2 (by decide)
    (by simp [spawnIf, load, addBalls_myballz_length, HPCAssignment.fresh])
    (by simp [spawnIf, load, addBalls_myballz_length, HPCAssignment.fresh])
  exact ⟨s1, h1, (radius_invariant Rat.sqrt 4 s1 (Reachable.run _ _ _ Reachable.load h1)).1⟩

/-- C7.  Buffer-length invariant: after construction, after `load()`, after
every `addBalls()` and after every returning `run` (hence before the next one)
the four buffers have the same length. -/
theorem buffer_length_invariant (sqrt : F → F) (poolSize : Nat) (s : HPCAssignment F)
    (h : Constructed sqrt poolSize s) : SameLength s := by
  induction h with
  | fresh => exact fresh_sameLength
  | load _ ih => exact addBalls_sameLength _ ih
  | addBalls _ ih => exact addBalls_sameLength _ ih
  | run elapsedTime gravity addBall _ hrun ih =>
    exact run_sameLength sqrt poolSize elapsedTime gravity addBall _ _ ih hrun

/-- Witness of C7: construction, `load()`, then one `run` without a spawn on a
pool of 4 threads. -/
theorem buffer_length_invariant_witness :
    ∃ s1 : HPCAssignment ℚ,
      run Rat.sqrt 4 (1 / 10) ⟨0, -981 / 100, 0, 0⟩ false (load HPCAssignment.fresh).2 = some s1 ∧
      SameLength s1 := by
  obtain ⟨s1, h1⟩ := run_isSome Rat.sqrt 4 (1 / 10) ⟨0, -981 / 100, 0, 0⟩ false
    (load (HPCAssignment.fresh : HPCAssignment ℚ)).2 (by decide)
    (by simp [spawnIf, load, addBalls_myballz_length, HPCAssignment.fresh])
    (by simp [spawnIf, load, addBalls_myballz_length, HPCAssignment.fresh])
  exact ⟨s1, h1, buffer_length_invariant Rat.sqrt 4 s1
    (Constructed.run _ _ _ (Constructed.load Constructed.fresh) h1)⟩

/-- C8.  Velocity fourth lane: every front velocity has fourth lane zero after
`load()`, and after every returning `run` with `elapsedTime ≠ 0` from buffers
of one length, for every gravity vector and every front state. -/
theorem velocity_fourth_lane_zero (sqrt : F → F) (poolSize : Nat) (elapsedTime : F)
    (gravity : Vector3 F) (addBall : Bool) (s s1 : HPCAssignment F) (hs : SameLength s)
    (_hdt : elapsedTime ≠ 0)
    (hrun : run sqrt poolSize elapsedTime gravity addBall s = some s1) :
    (∀ v ∈ (load (HPCAssignment.fresh : HPCAssignment F)).2.myvelocityz, v.w = 0) ∧
      s1.myvelocityz.length = (spawnIf addBall s).myballz.length ∧
      ∀ v ∈ s1.myvelocityz, v.w = 0 := by
  obtain ⟨_, a2, _, _⟩ := run_eq_some sqrt poolSize elapsedTime gravity addBall s s1 hs hrun
  refine ⟨?_, ?_, ?_⟩
  · intro v hv
    simp only [load, addBalls, addBallsFuel, HPCAssignment.fresh, List.nil_append,
      List.mem_map] at hv
    obtain ⟨_, _, rfl⟩ := hv
    rfl
  · rw [a2]
    simp only [updatedVelocities, List.length_map, List.length_range]
  · intro v hv
    rw [a2] at hv
    unfold updatedVelocities at hv
    obtain ⟨i, _, rfl⟩ := List.mem_map.1 hv
    exact integrate_snd_w sqrt _ _ elapsedTime gravity i

/-- Witness of C8: two overlapping bodies of radius 1 and 0.5 and a gravity
vector with fourth lane 7, one thread. -/
theorem velocity_fourth_lane_zero_witness :
    ∃ s1 : HPCAssignment ℚ,
      run Rat.sqrt 1 (1 / 10) ⟨0, -981 / 100, 0, 7⟩ false
        ⟨[⟨0, 0, 0, 1⟩, ⟨0, 1, 0, 1 / 2⟩], [zero, zero], [zero, zero], [zero, zero]⟩ = some s1 ∧
      s1.myvelocityz.length = 2 ∧ ∀ v ∈ s1.myvelocityz, v.w = 0 := by
  obtain ⟨s1, h1⟩ := run_isSome Rat.sqrt 1 (1 / 10) ⟨0, -981 / 100, 0, 7⟩ false
    (⟨[⟨0, 0, 0, 1⟩, ⟨0, 1, 0, 1 / 2⟩], [zero, zero], [zero, zero], [zero, zero]⟩ :
      HPCAssignment ℚ) (by decide) (by simp [spawnIf]) (by simp [spawnIf])
  exact ⟨s1, h1, (velocity_fourth_lane_zero Rat.sqrt 1 (1 / 10) ⟨0, -981 / 100, 0, 7⟩ false
    _ s1 (by simp [SameLength]) (by norm_num) h1).2⟩

/-- C9.  Spawn postcondition: on a state of `N0` bodies (positions paired with
velocities) `addBalls()` leaves `N0 + 1008` bodies, and every index `i` with
`N0 ≤ i < N0 + 1008` holds a position of radius 0.5, 1.0 or 1.5 and a velocity
that is zero in all four lanes. -/
theorem addBalls_postcondition (s : HPCAssignment F) (i : Nat)
    (hlen : s.myvelocityz.length = s.myballz.length)
    (h1 : s.myballz.length ≤ i) (h2 : i < s.myballz.length + 1008) :
    (addBalls s).myballz.length = s.myballz.length + 1008 ∧
      (addBalls s).myvelocityz.length = s.myballz.length + 1008 ∧
      ∃ b : Vector3 F, (addBalls s).myballz[i]? = some b ∧ ValidRadius b.w ∧
        (addBalls s).myvelocityz[i]? = some ⟨0, 0, 0, 0⟩ := by
  have hb := addBalls_myballz_length s
  have hv : (addBalls s).myvelocityz.length = s.myballz.length + 1008 := by
    rw [← hb]
    exact addBallsFuel_myvelocityz_length 32 s hlen
  obtain ⟨new, e1, e2, hnew⟩ := addBalls_append s
  have hnewlen : new.length = 1008 := by
    have := congrArg List.length e1
    rw [hb, List.length_append] at this
    omega
  have hj : i - s.myballz.length < new.length := by omega
  refine ⟨hb, hv, new[i - s.myballz.length], ?_, hnew _ (List.getElem_mem hj), ?_⟩
  · rw [e1, List.getElem?_append_right h1, List.getElem?_eq_getElem hj]
  · rw [e2, List.getElem?_append_right (by omega), List.getElem?_map, hlen,
      List.getElem?_eq_getElem hj]
    rfl

/-- Witness of C9: the first body that `load()` spawns on a new engine. -/
theorem addBalls_postcondition_witness :
    ∃ b : Vector3 ℚ, (addBalls (HPCAssignment.fresh : HPCAssignment ℚ)).myballz[0]? = some b ∧
      ValidRadius b.w ∧
      (addBalls (HPCAssignment.fresh : HPCAssignment ℚ)).myvelocityz[0]? = some ⟨0, 0, 0, 0⟩ :=
  (addBalls_postcondition (HPCAssignment.fresh : HPCAssignment ℚ) 0 rfl (Nat.le_refl 0)
    (by decide)).2.2

/-- C10.  Wall containment: a body with `position.x + radius > 40`, zero
velocity and radius 0.5, 1.0 or 1.5 that no other body overlaps (the test
`length < radius + radius2` fails for every other index) gets a force whose
x-component is `-500 * (position.x + radius - 40)`, strictly negative: the
opposite wall contributes nothing. -/
theorem wall_containment (sqrt : F → F) (balls vels : List (Vector3 F)) (i : Nat)
    (_hi : i < balls.length)
    (hr : ValidRadius (balls.getD i zero).w)
    (hv : vels.getD i zero = zero)
    (hx : (balls.getD i zero).x + (balls.getD i zero).w > 40)
    (hno : ∀ j : Nat, j < balls.length → j ≠ i →
      ((balls.getD i zero - balls.getD j zero).length sqrt).lt
        ((balls.getD i zero).getR + (balls.getD j zero).getR) = false) :
    (forceOn sqrt balls vels i).x =
        -500 * ((balls.getD i zero).x + (balls.getD i zero).w - 40) ∧
      (forceOn sqrt balls vels i).x < 0 := by
  have hfold : forceOn sqrt balls vels i =
      wallForce (balls.getD i zero) (vels.getD i zero) := by
    unfold forceOn
    exact foldl_pairStep_of_no_overlap sqrt balls vels i (List.range balls.length) _
      (fun j hj hne => hno j (List.mem_range.1 hj) hne)
  have hw : (balls.getD i zero).w ≤ 3 / 2 := by
    rcases hr with h | h | h <;> rw [h] <;> norm_num
  have h1 : (0 : F) < (balls.getD i zero).x + (balls.getD i zero).w - 40 := by linarith
  have h2 : ¬ ((40 : F) + ((balls.getD i zero).x - (balls.getD i zero).w) < 0) := by
    intro hc
    linarith
  have hval : (forceOn sqrt balls vels i).x =
      -500 * ((balls.getD i zero).x + (balls.getD i zero).w - 40) := by
    rw [hfold, hv]
    generalize balls.getD i zero = p at h1 h2
    simp only [wallForce, add_x, and_x, lessThan_x, sub_x, mul_x, splat_x, getR_x, zero_x,
      decide_eq_true_eq, if_pos h1, if_neg h2]
    ring
  refine ⟨hval, ?_⟩
  rw [hval]
  linarith

/-- Witness of C10: a single body of radius 1 at `x = 39.5`. -/
theorem wall_containment_witness :
    (forceOn Rat.sqrt [(⟨79 / 2, 0, 0, 1⟩ : Vector3 ℚ)] [zero] 0).x < 0 :=
  (wall_containment Rat.sqrt [(⟨79 / 2, 0, 0, 1⟩ : Vector3 ℚ)] [zero] 0 (by decide)
    (Or.inr (Or.inl rfl)) rfl (by norm_num)
    (fun j hj hne => absurd (Nat.lt_one_iff.1 hj) hne)).2

end Claims

/-! ## Pairwise force terms -/

namespace Vector3

variable {F : Type} [LinearOrderedField F]

@[simp] theorem dot3_x (a b : Vector3 F) : (a.dot3 b).x = a.x * b.x + a.y * b.y + a.z * b.z := rfl
@[simp] theorem dot3_y (a b : Vector3 F) : (a.dot3 b).y = a.x * b.x + a.y * b.y + a.z * b.z := rfl
@[simp] theorem dot3_z (a b : Vector3 F) : (a.dot3 b).z = a.x * b.x + a.y * b.y + a.z * b.z := rfl
@[simp] theorem dot3_w (a b : Vector3 F) : (a.dot3 b).w = a.x * b.x + a.y * b.y + a.z * b.z := rfl
@[simp] theorem length_x (sqrt : F → F) (a : Vector3 F) :
    (a.length sqrt).x = sqrt (a.x * a.x + a.y * a.y + a.z * a.z) := rfl
@[simp] theorem length_y (sqrt : F → F) (a : Vector3 F) :
    (a.length sqrt).y = sqrt (a.x * a.x + a.y * a.y + a.z * a.z) := rfl
@[simp] theorem length_z (sqrt : F → F) (a : Vector3 F) :
    (a.length sqrt).z = sqrt (a.x * a.x + a.y * a.y + a.z * a.z) := rfl
@[simp] theorem length_w (sqrt : F → F) (a : Vector3 F) :
    (a.length sqrt).w = sqrt (a.x * a.x + a.y * a.y + a.z * a.z) := rfl

/-- The squared distance does not depend on the order of the two points. -/
theorem dist_sq_comm (a b : Vector3 F) :
    (b.x - a.x) * (b.x - a.x) + (b.y - a.y) * (b.y - a.y) + (b.z - a.z) * (b.z - a.z) =
      (a.x - b.x) * (a.x - b.x) + (a.y - b.y) * (a.y - b.y) + (a.z - b.z) * (a.z - b.z) := by
  ring

end Vector3

section PairTerms

variable {F : Type} [LinearOrderedField F]

open Vector3

/-- One iteration of the inner loop adds `pairTerm` when the other index is a
different body that passes the overlap test, and nothing otherwise. -/
theorem pairStep_eq (sqrt : F → F) (balls vels : List (Vector3 F)) (i : Nat)
    (force : Vector3 F) (j : Nat) :
    pairStep sqrt balls vels i force j =
      if i ≠ j ∧ overlaps sqrt (balls.getD i zero) (balls.getD j zero) = true then
        force + pairTerm sqrt (balls.getD i zero) (vels.getD i zero)
          (balls.getD j zero) (vels.getD j zero)
      else force := by
  unfold pairStep overlaps pairTerm
  by_cases hij : i = j
  · simp only [ne_eq, hij, not_true_eq_false, if_false, false_and]
  · by_cases hov : ((balls.getD i zero - balls.getD j zero).length sqrt).lt
        ((balls.getD i zero).getR + (balls.getD j zero).getR) = true
    · simp only [ne_eq, hij, not_false_eq_true, if_true, hov, and_self]
    · simp only [ne_eq, hij, not_false_eq_true, if_true, hov, and_false, if_false,
        Bool.false_eq_true]

/-- The overlap test is symmetric in the two bodies. -/
theorem overlaps_comm (sqrt : F → F) (a b : Vector3 F) :
    overlaps sqrt b a = overlaps sqrt a b := by
  unfold overlaps Vector3.lt
  simp only [length_x, sub_x, sub_y, sub_z, add_x, getR_x, dist_sq_comm a b, add_comm b.w a.w]

/-- Exchanging the two bodies negates every lane of the pair term. -/
theorem pairTerm_swap (sqrt : F → F) (pa va pb vb : Vector3 F) :
    (pairTerm sqrt pb vb pa va).x = -(pairTerm sqrt pa va pb vb).x ∧
    (pairTerm sqrt pb vb pa va).y = -(pairTerm sqrt pa va pb vb).y ∧
    (pairTerm sqrt pb vb pa va).z = -(pairTerm sqrt pa va pb vb).z ∧
    (pairTerm sqrt pb vb pa va).w = -(pairTerm sqrt pa va pb vb).w := by
  unfold pairTerm
  simp only [mul_x, mul_y, mul_z, mul_w, div_x, div_y, div_z, div_w, sub_x, sub_y, sub_z, sub_w,
    add_x, add_y, add_z, add_w, splat_x, splat_y, splat_z, splat_w, getR_x, getR_y, getR_z,
    getR_w, length_x, length_y, length_z, length_w, dot3_x, dot3_y, dot3_z, dot3_w,
    dist_sq_comm pa pb]
  refine ⟨?_, ?_, ?_, ?_⟩ <;> ring

end PairTerms

/-! ## One frame as a single pass -/

section SinglePass

variable {F : Type} [LinearOrderedField F]

theorem rat_sqrt_one : Rat.sqrt 1 = 1 := by
  simp

/-- A returning `run` leaves what one task over the whole population followed
by the swap leaves. -/
theorem run_eq_single_task (sqrt : F → F) (poolSize : Nat) (elapsedTime : F)
    (gravity : Vector3 F) (addBall : Bool) (s s1 : HPCAssignment F)
    (h : run sqrt poolSize elapsedTime gravity addBall s = some s1) :
    s1 = swapBuffers (doSomeBallStuff sqrt 0 (spawnIf addBall s).myballz.length
      elapsedTime gravity (spawnIf addBall s)) := by
  unfold run at h
  simp only at h
  generalize spawnIf addBall s = t at h
  cases hd : dispatch t.myballz.length poolSize with
  | none =>
    rw [hd] at h
    exact absurd h (by simp)
  | some tasks =>
    rw [hd] at h
    have hs1 := (Option.some.inj h).symm
    subst hs1
    have hcov := dispatch_cover t.myballz.length poolSize tasks hd
    congr 1
    apply HPCAssignment.ext_getElem?
    · rw [runTasks_myballz, doSomeBallStuff_myballz]
    · rw [runTasks_myvelocityz, doSomeBallStuff_myvelocityz]
    · intro i
      rw [runTasks_myballz2, doSomeBallStuff_myballz2]
      by_cases hi : i < t.myballz.length
      · rw [if_pos ((hcov i).2 hi), if_pos ⟨Nat.zero_le i, hi⟩]
      · rw [if_neg (fun hc => hi ((hcov i).1 hc)), if_neg (fun hc => hi hc.2)]
    · intro i
      rw [runTasks_myvelocityz2, doSomeBallStuff_myvelocityz2]
      by_cases hi : i < t.myballz.length
      · rw [if_pos ((hcov i).2 hi), if_pos ⟨Nat.zero_le i, hi⟩]
      · rw [if_neg (fun hc => hi ((hcov i).1 hc)), if_neg (fun hc => hi hc.2)]

end SinglePass

/-! ## The pool as a state machine -/

section Pool

variable {T : Type}

theorem poolStep_shutdown_flag (st : ThreadPool T × List T) (ev : PoolEvent T)
    (h : st.1.m_shutdown = true) : (poolStep st ev).1.m_shutdown = true := by
  cases ev with
  | enqueueFunc func =>
    simp only [poolStep, ThreadPool.enqueueFunc, h, if_true]
  | worker =>
    simp only [poolStep, ThreadPool.threadFuncIteration, h, if_true]
  | shutdown => rfl

/-- No event clears the shutdown flag. -/
theorem poolTrace_shutdown_flag (events : List (PoolEvent T)) (st : ThreadPool T × List T)
    (h : st.1.m_shutdown = true) : (poolTrace events st).1.m_shutdown = true := by
  induction events generalizing st with
  | nil => exact h
  | cons ev rest ih => exact ih (poolStep st ev) (poolStep_shutdown_flag st ev h)

theorem poolStep_stopped (st : ThreadPool T × List T) (ev : PoolEvent T)
    (h : st.1.m_shutdown = true) : poolStep st ev = st := by
  obtain ⟨p, log⟩ := st
  obtain ⟨n, q, f⟩ := p
  simp only at h
  subst h
  cases ev with
  | enqueueFunc func => rfl
  | worker => rfl
  | shutdown => rfl

/-- On a stopped pool no event changes the queue or makes a worker take a
task. -/
theorem poolTrace_stopped (events : List (PoolEvent T)) (st : ThreadPool T × List T)
    (h : st.1.m_shutdown = true) : poolTrace events st = st := by
  induction events with
  | nil => rfl
  | cons ev rest ih =>
    show poolTrace rest (poolStep st ev) = st
    rw [poolStep_stopped st ev h]
    exact ih

end Pool

/-! ## Sum of the pairwise terms -/

section PairSum

variable {F : Type} [LinearOrderedField F]

open Vector3

/-- The term of the source is the term of the specification when the bodies
overlap. -/
theorem pairTerm_eq_spec (sqrt : F → F) (pa va pb vb : Vector3 F)
    (h : overlaps sqrt pa pb = true) :
    pairTerm sqrt pa va pb vb = pairForceSpec sqrt pa va pb vb := by
  have hlt : sqrt ((pa.x - pb.x) * (pa.x - pb.x) + (pa.y - pb.y) * (pa.y - pb.y) +
      (pa.z - pb.z) * (pa.z - pb.z)) < pa.w + pb.w := by
    simpa [overlaps, Vector3.lt] using h
  unfold pairForceSpec
  simp only [sub_x, sub_y, sub_z, ge_iff_le, if_neg (not_le.2 hlt)]
  apply ext_lanes <;>
    simp only [pairTerm, mul_x, mul_y, mul_z, mul_w, div_x, div_y, div_z, div_w, sub_x, sub_y,
      sub_z, sub_w, add_x, add_y, add_z, add_w, splat_x, splat_y, splat_z, splat_w, getR_x,
      getR_y, getR_z, getR_w, length_x, length_y, length_z, length_w, dot3_x, dot3_y, dot3_z,
      dot3_w]

/-- The specification's term is zero when the bodies do not overlap. -/
theorem pairForceSpec_of_not_overlaps (sqrt : F → F) (pa va pb vb : Vector3 F)
    (h : ¬ overlaps sqrt pa pb = true) : pairForceSpec sqrt pa va pb vb = zero := by
  have hge : pa.w + pb.w ≤ sqrt ((pa.x - pb.x) * (pa.x - pb.x) +
      (pa.y - pb.y) * (pa.y - pb.y) + (pa.z - pb.z) * (pa.z - pb.z)) := by
    simpa [overlaps, Vector3.lt] using h
  unfold pairForceSpec
  simp only [sub_x, sub_y, sub_z, ge_iff_le, if_pos hge]

/-- The inner loop, read through an additive lane `lane`: the initial value
plus the sum of the specification's terms over the indices other than `i`. -/
theorem foldl_pairStep_lane (lane : Vector3 F → F)
    (hadd : ∀ a b : Vector3 F, lane (a + b) = lane a + lane b) (sqrt : F → F)
    (balls vels : List (Vector3 F)) (i : Nat) (js : List Nat) (force : Vector3 F) :
    lane (js.foldl (pairStep sqrt balls vels i) force) =
      lane force + (js.map fun j =>
        if j ≠ i then
          lane (pairForceSpec sqrt (balls.getD i zero) (vels.getD i zero)
            (balls.getD j zero) (vels.getD j zero))
        else 0).sum := by
  induction js generalizing force with
  | nil => simp
  | cons j rest ih =>
    rw [List.foldl_cons, ih, List.map_cons, List.sum_cons, pairStep_eq, ← add_assoc]
    congr 1
    by_cases hij : i = j
    · subst hij
      simp
    · have hji : j ≠ i := fun h => hij h.symm
      by_cases hov : overlaps sqrt (balls.getD i zero) (balls.getD j zero) = true
      · rw [if_pos ⟨hij, hov⟩, if_pos hji, hadd, pairTerm_eq_spec sqrt _ _ _ _ hov]
      · rw [if_neg (fun h => hov h.2), if_pos hji,
          pairForceSpec_of_not_overlaps sqrt _ _ _ _ hov]
        have hz : lane (zero : Vector3 F) = 0 := by
          have h0 := hadd zero zero
          have e : (zero : Vector3 F) + zero = zero := by
            apply ext_lanes <;> simp
          rw [e] at h0
          linarith
        rw [hz, add_zero]

end PairSum

/-! ## Records of a spawn -/

section SpawnRecords

variable {F : Type} [LinearOrderedField F]

/-- A grid of `addBalls` whose loops run `nx + 1` and `nz + 1` times is the
grid of the specification. -/
theorem grid_eq_gridSpec (nx nz fuel : Nat) (xBound xStep zBound zStep y r : F)
    (hx : 0 ≤ xStep) (hz : 0 ≤ zStep) (hfx : nx + 1 ≤ fuel) (hfz : nz + 1 ≤ fuel)
    (hx1 : -38 + (nx : F) * xStep < xBound) (hx2 : ¬ (-38 + ((nx : F) + 1) * xStep < xBound))
    (hz1 : -38 + (nz : F) * zStep < zBound) (hz2 : ¬ (-38 + ((nz : F) + 1) * zStep < zBound)) :
    grid fuel (-38) xBound xStep (-38) zBound zStep y r =
      gridSpec (nx + 1) (nz + 1) xStep zStep y r := by
  unfold grid gridSpec
  rw [floatLoop_count nx fuel (-38) xBound xStep hx hfx hx1 hx2,
    floatLoop_count nz fuel (-38) zBound zStep hz hfz hz1 hz2, List.flatMap_map]
  simp only [List.map_map]
  rfl

/-- The positions appended by `addBalls` are the records of `spawnSpec`. -/
theorem addBalls_myballz_eq (s : HPCAssignment F) :
    (addBalls s).myballz = s.myballz ++ spawnSpec := by
  have h1 := grid_eq_gridSpec 16 18 32 (38 : F) (9 / 2) 38 4 38 (3 / 2) (by norm_num)
    (by norm_num) (by decide) (by decide) (by norm_num) (by norm_num) (by norm_num)
    (by norm_num)
  have h2 := grid_eq_gridSpec 16 16 32 (77 / 2 : F) (9 / 2) (77 / 2) (9 / 2) (353 / 10) 1
    (by norm_num) (by norm_num) (by decide) (by decide) (by norm_num) (by norm_num)
    (by norm_num) (by norm_num)
  have h3 := grid_eq_gridSpec 17 21 32 (77 / 2 : F) (43 / 10) (77 / 2) (7 / 2) 32 (1 / 2)
    (by norm_num) (by norm_num) (by decide) (by decide) (by norm_num) (by norm_num)
    (by norm_num) (by norm_num)
  unfold addBalls addBallsFuel spawnSpec
  simp only [h1, h2, h3]

theorem length_gridSpec (nx nz : Nat) (xStep zStep y r : F) :
    (gridSpec nx nz xStep zStep y r).length = nx * nz := by
  unfold gridSpec
  rw [length_flatMap_map, List.length_range, List.length_range]

end SpawnRecords

/-! ## The claims, continued -/

section Claims2

variable {F : Type} [LinearOrderedField F] {T : Type}

open Vector3

/-- C11.  Pairwise symmetry in exact arithmetic: for two different indices
`a`, `b` whose bodies pass the overlap test and are at distinct positions, the
test also holds with the bodies exchanged, the inner loop adds
`pairTerm A B` to the force of `a` and `pairTerm B A` to the force of `b`, and
`pairTerm B A` is the negation of `pairTerm A B` in each of the four lanes. -/
theorem pairwise_symmetry (sqrt : F → F) (balls vels : List (Vector3 F)) (a b : Nat)
    (forceA forceB : Vector3 F) (hab : a ≠ b)
    (hov : overlaps sqrt (balls.getD a zero) (balls.getD b zero) = true)
    (_hdistinct : ((balls.getD a zero - balls.getD b zero).length sqrt).x ≠ 0) :
    overlaps sqrt (balls.getD b zero) (balls.getD a zero) = true ∧
    pairStep sqrt balls vels a forceA b =
      forceA + pairTerm sqrt (balls.getD a zero) (vels.getD a zero)
        (balls.getD b zero) (vels.getD b zero) ∧
    pairStep sqrt balls vels b forceB a =
      forceB + pairTerm sqrt (balls.getD b zero) (vels.getD b zero)
        (balls.getD a zero) (vels.getD a zero) ∧
    (pairTerm sqrt (balls.getD b zero) (vels.getD b zero)
        (balls.getD a zero) (vels.getD a zero)).x =
      -(pairTerm sqrt (balls.getD a zero) (vels.getD a zero)
        (balls.getD b zero) (vels.getD b zero)).x ∧
    (pairTerm sqrt (balls.getD b zero) (vels.getD b zero)
        (balls.getD a zero) (vels.getD a zero)).y =
      -(pairTerm sqrt (balls.getD a zero) (vels.getD a zero)
        (balls.getD b zero) (vels.getD b zero)).y ∧
    (pairTerm sqrt (balls.getD b zero) (vels.getD b zero)
        (balls.getD a zero) (vels.getD a zero)).z =
      -(pairTerm sqrt (balls.getD a zero) (vels.getD a zero)
        (balls.getD b zero) (vels.getD b zero)).z ∧
    (pairTerm sqrt (balls.getD b zero) (vels.getD b zero)
        (balls.getD a zero) (vels.getD a zero)).w =
      -(pairTerm sqrt (balls.getD a zero) (vels.getD a zero)
        (balls.getD b zero) (vels.getD b zero)).w := by
  have hov' : overlaps sqrt (balls.getD b zero) (balls.getD a zero) = true := by
    rw [overlaps_comm]
    exact hov
  refine ⟨hov', ?_, ?_, pairTerm_swap sqrt _ _ _ _⟩
  · rw [pairStep_eq, if_pos ⟨hab, hov⟩]
  · rw [pairStep_eq, if_pos ⟨fun h => hab h.symm, hov'⟩]

/-- Witness of C11: bodies of radius 1 and 0.5 at distance 1 (a 3-4-5 offset
scaled by 1/5), the second one moving. -/
theorem pairwise_symmetry_witness :
    (pairTerm Rat.sqrt ⟨3 / 5, 4 / 5, 0, 1 / 2⟩ ⟨1, 0, 0, 0⟩ ⟨0, 0, 0, 1⟩ zero).x =
      -(pairTerm Rat.sqrt ⟨0, 0, 0, 1⟩ zero ⟨3 / 5, 4 / 5, 0, 1 / 2⟩ ⟨1, 0, 0, 0⟩).x :=
  (pairwise_symmetry Rat.sqrt [⟨0, 0, 0, 1⟩, ⟨3 / 5, 4 / 5, 0, 1 / 2⟩] [zero, ⟨1, 0, 0, 0⟩]
    0 1 zero zero (by decide)
    (by
      have h := rat_sqrt_one
      simp only [overlaps, Vector3.lt, List.getD_cons_zero, List.getD_cons_succ, length_x,
        sub_x, sub_y, sub_z, add_x, getR_x, decide_eq_true_eq]
      norm_num [h])
    (by
      have h := rat_sqrt_one
      simp only [List.getD_cons_zero, List.getD_cons_succ, length_x, sub_x, sub_y, sub_z]
      norm_num [h])).2.2.2.1

/-- C12 (defect in the code).  Small-population boundary: for a non-empty
population smaller than `2 * poolSize` the claim asks for exactly one range
`[0, N)`; `run` computes the chunk size `numBalls = N / (2 * poolSize) = 0`
and divides by it, so it dispatches nothing and produces no state. -/
theorem run_undefined_small_population (sqrt : F → F) (poolSize : Nat) (elapsedTime : F)
    (gravity : Vector3 F) (addBall : Bool) (s : HPCAssignment F)
    (_hne : 1 ≤ (spawnIf addBall s).myballz.length)
    (hsmall : (spawnIf addBall s).myballz.length < 2 * poolSize) :
    dispatch (spawnIf addBall s).myballz.length poolSize = none ∧
      run sqrt poolSize elapsedTime gravity addBall s = none := by
  have hd := dispatch_eq_none_of_lt _ poolSize hsmall
  refine ⟨hd, ?_⟩
  unfold run
  simp only [hd]

/-- Failing input of C12: three bodies on a pool of two threads. -/
theorem run_undefined_small_population_witness :
    run Rat.sqrt 2 (1 / 10) ⟨0, -981 / 100, 0, 0⟩ false
      (⟨[⟨0, 0, 0, 1⟩, ⟨3, 0, 0, 1⟩, ⟨6, 0, 0, 1⟩], [zero, zero, zero],
        [zero, zero, zero], [zero, zero, zero]⟩ : HPCAssignment ℚ) = none :=
  (run_undefined_small_population Rat.sqrt 2 (1 / 10) ⟨0, -981 / 100, 0, 0⟩ false
    ⟨[⟨0, 0, 0, 1⟩, ⟨3, 0, 0, 1⟩, ⟨6, 0, 0, 1⟩], [zero, zero, zero],
      [zero, zero, zero], [zero, zero, zero]⟩ (by simp [spawnIf]) (by simp [spawnIf])).2

/-- C13.  Publish: on buffers of one length with at least `2 * poolSize`
bodies after the optional spawn (fewer than `2^31`), `run` returns; the new
state is the swap of what `doSomeBallStuff` over the whole population leaves
from the state after the spawn, so the front buffers hold at every index
`i < N` the `newpos` and `newvelocity` computed for body `i` from that state
and the back buffers hold its front buffers; `updateRenderData` has received
the new front positions, one record `(x, y, z, radius)` per body, and the
count `N`. -/
theorem run_publish (sqrt : F → F) (poolSize : Nat) (elapsedTime : F) (gravity : Vector3 F)
    (addBall : Bool) (s : HPCAssignment F) (e : HPCEngine F) (hs : SameLength s)
    (hP : 0 < poolSize) (hN : 2 * poolSize ≤ (spawnIf addBall s).myballz.length)
    (hsize : (spawnIf addBall s).myballz.length < 2 ^ 31) :
    ∃ s1 e1, runFrame sqrt poolSize elapsedTime gravity addBall s e = some (s1, e1) ∧
      s1 = swapBuffers (doSomeBallStuff sqrt 0 (spawnIf addBall s).myballz.length
        elapsedTime gravity (spawnIf addBall s)) ∧
      s1.myballz.length = (spawnIf addBall s).myballz.length ∧
      s1.myvelocityz.length = (spawnIf addBall s).myballz.length ∧
      (∀ i : Nat, i < (spawnIf addBall s).myballz.length →
        s1.myballz[i]? = some (integrate sqrt (spawnIf addBall s).myballz
          (spawnIf addBall s).myvelocityz elapsedTime gravity i).1 ∧
        s1.myvelocityz[i]? = some (integrate sqrt (spawnIf addBall s).myballz
          (spawnIf addBall s).myvelocityz elapsedTime gravity i).2) ∧
      s1.myballz2 = (spawnIf addBall s).myballz ∧
      s1.myvelocityz2 = (spawnIf addBall s).myvelocityz ∧
      e1.m_numSpheres = (spawnIf addBall s).myballz.length ∧
      e1.m_renderData.length = (spawnIf addBall s).myballz.length ∧
      ∀ (i : Nat) (b : Vector3 F), s1.myballz[i]? = some b →
        e1.m_renderData[i]? = some ⟨b.x, b.y, b.z, b.w⟩ := by
  obtain ⟨s1, h1⟩ := run_isSome sqrt poolSize elapsedTime gravity addBall s hP hN hsize
  obtain ⟨a1, a2, a3, a4⟩ := run_eq_some sqrt poolSize elapsedTime gravity addBall s s1 hs h1
  have hlen1 : s1.myballz.length = (spawnIf addBall s).myballz.length := by
    rw [a1]
    simp only [updatedPositions, List.length_map, List.length_range]
  have hlen2 : s1.myvelocityz.length = (spawnIf addBall s).myballz.length := by
    rw [a2]
    simp only [updatedVelocities, List.length_map, List.length_range]
  have hmod : (spawnIf addBall s).myballz.length % 2 ^ 32 = (spawnIf addBall s).myballz.length :=
    Nat.mod_eq_of_lt (by omega)
  refine ⟨s1, updateRenderData (s1.myballz.map asRenderData) (s1.myballz.length % 2 ^ 32) e,
    ?_, run_eq_single_task sqrt poolSize elapsedTime gravity addBall s s1 h1, hlen1, hlen2,
    ?_, a3, a4, ?_, ?_, ?_⟩
  · unfold runFrame
    rw [h1]
  · intro i hi
    exact ⟨run_myballz_getElem? sqrt poolSize elapsedTime gravity addBall s s1 hs h1 i hi,
      run_myvelocityz_getElem? sqrt poolSize elapsedTime gravity addBall s s1 hs h1 i hi⟩
  · show s1.myballz.length % 2 ^ 32 = _
    rw [hlen1, hmod]
  · show (s1.myballz.map asRenderData).length = _
    rw [List.length_map, hlen1]
  · intro i b hb
    show (s1.myballz.map asRenderData)[i]? = _
    rw [List.getElem?_map, hb]
    rfl

/-- Witness of C13: two bodies, one thread, a new engine. -/
theorem run_publish_witness :
    ∃ (s1 : HPCAssignment ℚ) (e1 : HPCEngine ℚ),
      runFrame Rat.sqrt 1 (1 / 10) ⟨0, -981 / 100, 0, 0⟩ false
        ⟨[⟨0, 0, 0, 1⟩, ⟨3, 0, 0, 1 / 2⟩], [zero, zero], [zero, zero], [zero, zero]⟩
        ⟨[], 0, 0⟩ = some (s1, e1) ∧
      e1.m_numSpheres = 2 ∧ s1.myballz2 = [⟨0, 0, 0, 1⟩, ⟨3, 0, 0, 1 / 2⟩] := by
  obtain ⟨s1, e1, h1, _, _, _, _, h2, _, h3, _⟩ :=
    run_publish Rat.sqrt 1 (1 / 10) ⟨0, -981 / 100, 0, 0⟩ false
      (⟨[⟨0, 0, 0, 1⟩, ⟨3, 0, 0, 1 / 2⟩], [zero, zero], [zero, zero], [zero, zero]⟩ :
        HPCAssignment ℚ) ⟨[], 0, 0⟩ (by simp [SameLength]) (by decide) (by simp [spawnIf])
      (by simp [spawnIf])
  exact ⟨s1, e1, h1, h3, h2⟩

/-- C14.  Submission contract: `enqueueFunc` throws "enqueue on stopped
ThreadPool" exactly when the shutdown flag is set, and then leaves the pool as
it was; otherwise it returns and the queue is the old queue with the function
appended at the back, the other members unchanged.  After `shutdown()` no
sequence of submissions, worker iterations and further shutdowns clears the
flag, so every later submission throws. -/
theorem enqueueFunc_contract (p : ThreadPool T) (func : T) :
    ((p.enqueueFunc func).1 = Except.error "enqueue on stopped ThreadPool" ↔
        p.m_shutdown = true) ∧
      (p.m_shutdown = true → (p.enqueueFunc func).2 = p) ∧
      (p.m_shutdown = false → (p.enqueueFunc func).1 = Except.ok () ∧
        (p.enqueueFunc func).2.m_queue = p.m_queue ++ [func] ∧
        (p.enqueueFunc func).2.m_shutdown = false ∧
        (p.enqueueFunc func).2.m_threads = p.m_threads) ∧
      ∀ (events : List (PoolEvent T)) (taken : List T),
        (poolTrace events (p.shutdown, taken)).1.m_shutdown = true ∧
        ((poolTrace events (p.shutdown, taken)).1.enqueueFunc func).1 =
          Except.error "enqueue on stopped ThreadPool" := by
  refine ⟨?_, ?_, ?_, ?_⟩
  · cases hflag : p.m_shutdown with
    | true => simp [ThreadPool.enqueueFunc, hflag]
    | false => simp [ThreadPool.enqueueFunc, hflag]
  · intro h
    simp only [ThreadPool.enqueueFunc, h, if_true]
  · intro h
    simp only [ThreadPool.enqueueFunc, h, Bool.false_eq_true, if_false, and_self]
  · intro events taken
    have h := poolTrace_shutdown_flag events (p.shutdown, taken) rfl
    refine ⟨h, ?_⟩
    simp only [ThreadPool.enqueueFunc, h, if_true]

/-- C15.  Worker step: on a running pool whose queue is `task :: rest` one
iteration of `threadFunc` takes `task`, the oldest one, leaves `rest` in
order and goes on to call `task`; on a stopped pool an iteration returns
without touching the queue, whatever it holds, and no sequence of events
after that changes the queue or lets a worker take a task. -/
theorem threadFunc_iteration (p : ThreadPool T) :
    (∀ (task : T) (rest : List T), p.m_shutdown = false → p.m_queue = task :: rest →
        p.threadFuncIteration = ThreadPool.Iteration.execute task { p with m_queue := rest } ∧
        poolStep (p, []) PoolEvent.worker = ({ p with m_queue := rest }, [task])) ∧
      (p.m_shutdown = true → p.threadFuncIteration = ThreadPool.Iteration.exit) ∧
      (p.m_shutdown = true → ∀ (events : List (PoolEvent T)) (taken : List T),
        poolTrace events (p, taken) = (p, taken)) := by
  refine ⟨?_, ?_, ?_⟩
  · intro task rest hflag hq
    constructor
    · simp only [ThreadPool.threadFuncIteration, hflag, Bool.false_eq_true, if_false, hq]
    · simp only [poolStep, ThreadPool.threadFuncIteration, hflag, Bool.false_eq_true, if_false,
        hq, List.nil_append]
  · intro hflag
    simp only [ThreadPool.threadFuncIteration, hflag, if_true]
  · intro hflag events taken
    exact poolTrace_stopped events (p, taken) hflag

/-- Witness of C14: a submission to a new pool of two workers is appended, and
fails once the pool was shut down and a worker has passed through its loop. -/
theorem enqueueFunc_contract_witness :
    ((ThreadPool.init 2 : ThreadPool Nat).enqueueFunc 7).2.m_queue = [7] ∧
      ((poolTrace [PoolEvent.worker, PoolEvent.enqueueFunc 5]
        ((ThreadPool.init 2 : ThreadPool Nat).shutdown, [])).1.enqueueFunc 7).1 =
        Except.error "enqueue on stopped ThreadPool" :=
  ⟨((enqueueFunc_contract (ThreadPool.init 2 : ThreadPool Nat) 7).2.2.1 rfl).2.1,
    ((enqueueFunc_contract (ThreadPool.init 2 : ThreadPool Nat) 7).2.2.2
      [PoolEvent.worker, PoolEvent.enqueueFunc 5] []).2⟩

/-- Witness of C15: a running pool holding the tasks 1, 2, 3 gives task 1 to
the worker and keeps 2, 3; the same pool after `shutdown()` keeps all three
through two worker iterations. -/
theorem threadFunc_iteration_witness :
    (⟨2, [1, 2, 3], false⟩ : ThreadPool Nat).threadFuncIteration =
        ThreadPool.Iteration.execute 1 ⟨2, [2, 3], false⟩ ∧
      poolTrace [PoolEvent.worker, PoolEvent.worker]
        ((⟨2, [1, 2, 3], true⟩ : ThreadPool Nat), []) = (⟨2, [1, 2, 3], true⟩, []) :=
  ⟨((threadFunc_iteration (⟨2, [1, 2, 3], false⟩ : ThreadPool Nat)).1 1 [2, 3] rfl rfl).1,
    (threadFunc_iteration (⟨2, [1, 2, 3], true⟩ : ThreadPool Nat)).2.2 rfl
      [PoolEvent.worker, PoolEvent.worker] []⟩

/-- Counterexample of C16: a fire-and-forget task that throws "boom", followed
by a second task, on a running pool with one worker.  The exception is not
caught in `threadFunc`: the worker ends with it and the second task stays in
the queue. -/
theorem fire_and_forget_failure_ends_worker :
    (ThreadPool.threadFunc 3
        (((((ThreadPool.init 1 : ThreadPool (Job Unit)).enqueueFunc
          (fun _ => Except.error "boom")).2).enqueueFunc (fun shared => Except.ok shared)).2)
        []).1 = WorkerEnd.terminated "boom" ∧
      (ThreadPool.threadFunc 3
        (((((ThreadPool.init 1 : ThreadPool (Job Unit)).enqueueFunc
          (fun _ => Except.error "boom")).2).enqueueFunc (fun shared => Except.ok shared)).2)
        []).2.1.m_queue.length = 1 :=
  ⟨rfl, rfl⟩

/-- C16 (amended).  A function submitted through `enqueue` to a running pool
with an empty queue does not end the worker, whether it returns or throws:
the submission returns a future, the worker calls the task, returns to the
wait with the queue empty, and `get()` on the future yields the function's
value or re-raises its exception.  A task submitted through `enqueueFunc` that
throws is not caught: the worker that called it ends with the exception. -/
theorem task_failure_semantics {R : Type} (f : Unit → Except String R)
    (p : ThreadPool (Job R)) (shared : List (SharedState R)) (fuel : Nat)
    (hrun : p.m_shutdown = false) (hq : p.m_queue = []) :
    (p.enqueue f shared).1 = Except.ok shared.length ∧
      (ThreadPool.threadFunc (fuel + 2) (p.enqueue f shared).2.1 (p.enqueue f shared).2.2).1 =
        WorkerEnd.waiting ∧
      (ThreadPool.threadFunc (fuel + 2) (p.enqueue f shared).2.1 (p.enqueue f shared).2.2).2.1 =
        p ∧
      futureGet (p.enqueue f shared).2.2 shared.length = none ∧
      futureGet
        (ThreadPool.threadFunc (fuel + 2) (p.enqueue f shared).2.1 (p.enqueue f shared).2.2).2.2
        shared.length = some (f ()) ∧
      ∀ (job : Job R) (rest : List (Job R)) (what : String), job shared = Except.error what →
        ThreadPool.threadFunc (fuel + 1) { p with m_queue := job :: rest } shared =
          (WorkerEnd.terminated what, { p with m_queue := rest }, shared) := by
  obtain ⟨n, q, flag⟩ := p
  simp only at hrun hq
  subst hrun
  subst hq
  refine ⟨rfl, rfl, rfl, ?_, ?_, ?_⟩
  · simp [futureGet, ThreadPool.enqueue, ThreadPool.enqueueFunc]
  · simp [futureGet, ThreadPool.enqueue, ThreadPool.enqueueFunc, ThreadPool.threadFunc,
      ThreadPool.threadFuncIteration, packagedJob]
  · intro job rest what hjob
    simp only [ThreadPool.threadFunc, ThreadPool.threadFuncIteration, Bool.false_eq_true,
      if_false, hjob]

/-- Witness of C16 (amended): a function that throws "boom", submitted through
`enqueue` to a new pool with one worker. -/
theorem task_failure_semantics_witness :
    (ThreadPool.threadFunc 2
        ((ThreadPool.init 1 : ThreadPool (Job Unit)).enqueue
          (fun _ => Except.error "boom") []).2.1
        ((ThreadPool.init 1 : ThreadPool (Job Unit)).enqueue
          (fun _ => Except.error "boom") []).2.2).1 = WorkerEnd.waiting :=
  (task_failure_semantics (fun _ => (Except.error "boom" : Except String Unit))
    (ThreadPool.init 1) [] 0 rfl rfl).2.1

/-- C17.  Spawn records: `load()` returns true on every state; on a new engine
it leaves the 1008 positions of `spawnSpec`, in index order 17 x 19 = 323
bodies of radius 1.5 at y = 38 with steps 4.5 and 4.0, then 17 x 17 = 289
bodies of radius 1.0 at y = 35.3 with steps 4.5, then 18 x 22 = 396 bodies of
radius 0.5 at y = 32 with steps 4.3 and 3.5; every `addBalls()` appends these
same records to the positions. -/
theorem load_spawn_records :
    (∀ s : HPCAssignment F, (load s).1 = true) ∧
      (load (HPCAssignment.fresh : HPCAssignment F)).2.myballz = spawnSpec ∧
      (spawnSpec : List (Vector3 F)).length = 1008 ∧
      (gridSpec 17 19 (9 / 2 : F) 4 38 (3 / 2)).length = 323 ∧
      (gridSpec 17 17 (9 / 2 : F) (9 / 2) (353 / 10) 1).length = 289 ∧
      (gridSpec 18 22 (43 / 10 : F) (7 / 2) 32 (1 / 2)).length = 396 ∧
      ∀ s : HPCAssignment F, (addBalls s).myballz = s.myballz ++ spawnSpec := by
  refine ⟨fun _ => rfl, ?_, ?_, length_gridSpec _ _ _ _ _ _, length_gridSpec _ _ _ _ _ _,
    length_gridSpec _ _ _ _ _ _, addBalls_myballz_eq⟩
  · show (addBalls (HPCAssignment.fresh : HPCAssignment F)).myballz = spawnSpec
    rw [addBalls_myballz_eq]
    rfl
  · unfold spawnSpec
    simp only [List.length_append, length_gridSpec]

/-- Counterexample of C18: after `unload()` on an engine whose pool of four
workers is running, the shutdown flag is still clear and a submission is
accepted. -/
theorem unload_leaves_pool_running :
    (unload (HPCAssignment.fresh : HPCAssignment ℚ)
        (ThreadPool.init 4 : ThreadPool Unit)).2.m_shutdown = false ∧
      ((unload (HPCAssignment.fresh : HPCAssignment ℚ)
        (ThreadPool.init 4 : ThreadPool Unit)).2.enqueueFunc ()).1 = Except.ok () :=
  ⟨rfl, rfl⟩

/-- C18 (amended).  `unload()` leaves the task pool as it is, so a pool that
accepted submissions before `unload()` accepts them after it; the pool is shut
down by its destructor, which sets the shutdown flag, and after that every
submission fails with the pool-stopped error. -/
theorem unload_pool_unchanged (s : HPCAssignment F) (threads : ThreadPool T) (func : T) :
    (unload s threads).2 = threads ∧
      ((unload s threads).2.enqueueFunc func).1 = (threads.enqueueFunc func).1 ∧
      threads.destroy.m_shutdown = true ∧
      (threads.destroy.enqueueFunc func).1 = Except.error "enqueue on stopped ThreadPool" :=
  ⟨rfl, rfl, rfl, rfl⟩

/-- Counterexample of C19: a body of radius 1 at `x = -39.5` at rest, half a
unit through the wall at `-40`.  The wall force on lane x is 250; with the
inner penetration `40 - (position - radius) = 80.5` of the claim no choice of
the two masks gives it. -/
theorem wallForce_inner_penetration_sign :
    (wallForce (⟨-79 / 2, 0, 0, 1⟩ : Vector3 ℚ) zero).x = 250 ∧
      ¬ ∃ maskOuter maskInner : Bool,
        (wallForce (⟨-79 / 2, 0, 0, 1⟩ : Vector3 ℚ) zero).x =
          wallTermSpec maskOuter ((-79 / 2 + 1) - 40) 0 +
            wallTermSpec maskInner (40 - (-79 / 2 - 1)) 0 := by
  have h : (wallForce (⟨-79 / 2, 0, 0, 1⟩ : Vector3 ℚ) zero).x = 250 := by
    simp only [wallForce, add_x, and_x, lessThan_x, sub_x, mul_x, splat_x, getR_x, zero_x]
    norm_num
  refine ⟨h, ?_⟩
  rw [h]
  rintro ⟨m1, m2, hm⟩
  cases m1 <;> cases m2 <;> norm_num [wallTermSpec] at hm

/-- C19 (amended).  Wall force formula: on each of the lanes x, y, z the wall
force is the sum of an outer and an inner term; the outer penetration is
`(position + radius) - 40` with mask `0 < penetration`, the inner penetration
is `40 + (position - radius)` with mask `penetration < 0`; a term is
`-500*penetration - 10*velocity` when its mask is set and zero otherwise. -/
theorem wallForce_formula (pointp pointv : Vector3 F) :
    (wallForce pointp pointv).x =
        wallTermSpec (decide (0 < (pointp.x + pointp.w) - 40)) ((pointp.x + pointp.w) - 40)
          pointv.x +
        wallTermSpec (decide (40 + (pointp.x - pointp.w) < 0)) (40 + (pointp.x - pointp.w))
          pointv.x ∧
      (wallForce pointp pointv).y =
        wallTermSpec (decide (0 < (pointp.y + pointp.w) - 40)) ((pointp.y + pointp.w) - 40)
          pointv.y +
        wallTermSpec (decide (40 + (pointp.y - pointp.w) < 0)) (40 + (pointp.y - pointp.w))
          pointv.y ∧
      (wallForce pointp pointv).z =
        wallTermSpec (decide (0 < (pointp.z + pointp.w) - 40)) ((pointp.z + pointp.w) - 40)
          pointv.z +
        wallTermSpec (decide (40 + (pointp.z - pointp.w) < 0)) (40 + (pointp.z - pointp.w))
          pointv.z := by
  refine ⟨?_, ?_, ?_⟩ <;>
    simp only [wallForce, wallTermSpec, add_x, and_x, lessThan_x, sub_x, mul_x, add_y, and_y,
      lessThan_y, sub_y, mul_y, add_z, and_z, lessThan_z, sub_z, mul_z, splat_x, splat_y,
      splat_z, getR_x, getR_y, getR_z, zero_x, zero_y, zero_z, zero_add]

/-- C20.  Pairwise force formula: in each lane the force of body `i` is its
wall force plus the sum, over every index `j ≠ i` of the whole population, of
the specification's pair term `pairForceSpec` (zero when
`length ≥ radius_i + radius_j`, otherwise `normal * (-300*x - 5*vs)`). -/
theorem pairwise_force_formula (sqrt : F → F) (balls vels : List (Vector3 F)) (i : Nat) :
    (forceOn sqrt balls vels i).x =
        (wallForce (balls.getD i zero) (vels.getD i zero)).x +
          ((List.range balls.length).map fun j =>
            if j ≠ i then (pairForceSpec sqrt (balls.getD i zero) (vels.getD i zero)
              (balls.getD j zero) (vels.getD j zero)).x else 0).sum ∧
      (forceOn sqrt balls vels i).y =
        (wallForce (balls.getD i zero) (vels.getD i zero)).y +
          ((List.range balls.length).map fun j =>
            if j ≠ i then (pairForceSpec sqrt (balls.getD i zero) (vels.getD i zero)
              (balls.getD j zero) (vels.getD j zero)).y else 0).sum ∧
      (forceOn sqrt balls vels i).z =
        (wallForce (balls.getD i zero) (vels.getD i zero)).z +
          ((List.range balls.length).map fun j =>
            if j ≠ i then (pairForceSpec sqrt (balls.getD i zero) (vels.getD i zero)
              (balls.getD j zero) (vels.getD j zero)).z else 0).sum ∧
      (forceOn sqrt balls vels i).w =
        (wallForce (balls.getD i zero) (vels.getD i zero)).w +
          ((List.range balls.length).map fun j =>
            if j ≠ i then (pairForceSpec sqrt (balls.getD i zero) (vels.getD i zero)
              (balls.getD j zero) (vels.getD j zero)).w else 0).sum := by
  unfold forceOn
  exact ⟨foldl_pairStep_lane Vector3.x (fun _ _ => rfl) sqrt balls vels i _ _,
    foldl_pairStep_lane Vector3.y (fun _ _ => rfl) sqrt balls vels i _ _,
    foldl_pairStep_lane Vector3.z (fun _ _ => rfl) sqrt balls vels i _ _,
    foldl_pairStep_lane Vector3.w (fun _ _ => rfl) sqrt balls vels i _ _⟩

/-- Witness of C20: a body of radius 1 at the origin and a body of radius 0.5
at distance 1, both at rest; the force on the first one has x lane `-90`. -/
theorem pairwise_force_formula_witness :
    (forceOn Rat.sqrt [⟨0, 0, 0, 1⟩, ⟨3 / 5, 4 / 5, 0, 1 / 2⟩] [zero, zero] 0).x = -90 :=
  (pairwise_force_formula Rat.sqrt [⟨0, 0, 0, 1⟩, ⟨3 / 5, 4 / 5, 0, 1 / 2⟩]
    [zero, zero] 0).1.trans (by
      have h := rat_sqrt_one
      have hw : (wallForce (⟨0, 0, 0, 1⟩ : Vector3 ℚ) zero).x = 0 := by
        simp only [wallForce, add_x, and_x, lessThan_x, sub_x, mul_x, splat_x, getR_x, zero_x]
        norm_num
      simp only [List.getD_cons_zero, List.getD_cons_succ, List.length_cons, List.length_nil,
        List.range_succ, List.range_zero, List.nil_append, List.cons_append, List.map_cons,
        List.map_nil, List.sum_cons, List.sum_nil, hw, pairForceSpec, sub_x, sub_y, sub_z,
        mul_x, div_x, splat_x, zero_x]
      norm_num [h])

end Claims2

/-! ## Walls and contacts -/

section Walls

variable {F : Type} [LinearOrderedField F]

open Vector3

/-- Each lane of the wall force is its outer term plus its inner term. -/
theorem wallForce_lanes (p v : Vector3 F) :
    (wallForce p v).x = outerWallTerm p.x p.w v.x + innerWallTerm p.x p.w v.x ∧
      (wallForce p v).y = outerWallTerm p.y p.w v.y + innerWallTerm p.y p.w v.y ∧
      (wallForce p v).z = outerWallTerm p.z p.w v.z + innerWallTerm p.z p.w v.z ∧
      (wallForce p v).w = outerWallTerm p.w p.w v.w + innerWallTerm p.w p.w v.w := by
  refine ⟨?_, ?_, ?_, ?_⟩ <;>
    simp only [wallForce, outerWallTerm, innerWallTerm, wallTermSpec, add_x, and_x, lessThan_x,
      sub_x, mul_x, add_y, and_y, lessThan_y, sub_y, mul_y, add_z, and_z, lessThan_z, sub_z,
      mul_z, add_w, and_w, lessThan_w, sub_w, mul_w, splat_x, splat_y, splat_z, splat_w,
      getR_x, getR_y, getR_z, getR_w, zero_x, zero_y, zero_z, zero_w, zero_add]

/-- With a radius of at most 40 the two wall terms of a lane are not both
different from zero. -/
theorem wallTerm_not_both (position radius velocity : F) (hr : radius ≤ 40) :
    outerWallTerm position radius velocity = 0 ∨ innerWallTerm position radius velocity = 0 := by
  by_cases h : 0 < (position + radius) - 40
  · right
    have h2 : ¬ (40 + (position - radius) < 0) := by
      intro hc
      linarith
    simp only [innerWallTerm, wallTermSpec, h2, decide_False, Bool.false_eq_true, if_false]
  · left
    simp only [outerWallTerm, wallTermSpec, h, decide_False, Bool.false_eq_true, if_false]

/-- A body at rest through the wall at `-40` is pushed back. -/
theorem wallTerm_inner (position radius : F) (hr : radius ≤ 40)
    (h : position - radius < -40) :
    outerWallTerm position radius 0 + innerWallTerm position radius 0 =
        -500 * (40 + position - radius) ∧
      0 < outerWallTerm position radius 0 + innerWallTerm position radius 0 := by
  have h1 : ¬ (0 < (position + radius) - 40) := by
    intro hc
    linarith
  have h2 : 40 + (position - radius) < 0 := by linarith
  have e : outerWallTerm position radius 0 + innerWallTerm position radius 0 =
      -500 * (40 + position - radius) := by
    simp only [outerWallTerm, innerWallTerm, wallTermSpec, h1, h2, decide_False, decide_True,
      Bool.false_eq_true, if_false, if_true]
    ring
  refine ⟨e, ?_⟩
  rw [e]
  linarith

theorem validRadius_bounds (r : F) (h : ValidRadius r) : 0 < r ∧ r ≤ 3 / 2 := by
  rcases h with h | h | h <;> rw [h] <;> constructor <;> norm_num

end Walls

/-! ## Lanes that the update reads -/

section LaneDependence

variable {F : Type} [LinearOrderedField F]

open Vector3

/-- The specification's pair term reads lanes 0-2 of the velocities only. -/
theorem pairForceSpec_congr (sqrt : F → F) (pa pb va vb va1 vb1 : Vector3 F)
    (ha : va.x = va1.x ∧ va.y = va1.y ∧ va.z = va1.z)
    (hb : vb.x = vb1.x ∧ vb.y = vb1.y ∧ vb.z = vb1.z) :
    pairForceSpec sqrt pa va pb vb = pairForceSpec sqrt pa va1 pb vb1 := by
  unfold pairForceSpec
  simp only [ha.1, ha.2.1, ha.2.2, hb.1, hb.2.1, hb.2.2]

/-- Lanes 0-2 of the force read lanes 0-2 of the velocities only. -/
theorem forceOn_congr (sqrt : F → F) (balls vels vels1 : List (Vector3 F)) (i : Nat)
    (hv : ∀ k : Nat, (vels.getD k zero).x = (vels1.getD k zero).x ∧
      (vels.getD k zero).y = (vels1.getD k zero).y ∧
      (vels.getD k zero).z = (vels1.getD k zero).z) :
    (forceOn sqrt balls vels i).x = (forceOn sqrt balls vels1 i).x ∧
      (forceOn sqrt balls vels i).y = (forceOn sqrt balls vels1 i).y ∧
      (forceOn sqrt balls vels i).z = (forceOn sqrt balls vels1 i).z := by
  have hpair : ∀ j : Nat,
      pairForceSpec sqrt (balls.getD i zero) (vels.getD i zero) (balls.getD j zero)
          (vels.getD j zero) =
        pairForceSpec sqrt (balls.getD i zero) (vels1.getD i zero) (balls.getD j zero)
          (vels1.getD j zero) :=
    fun j => pairForceSpec_congr sqrt _ _ _ _ _ _ (hv i) (hv j)
  obtain ⟨wx, wy, wz, _⟩ := wallForce_lanes (balls.getD i zero) (vels.getD i zero)
  obtain ⟨wx1, wy1, wz1, _⟩ := wallForce_lanes (balls.getD i zero) (vels1.getD i zero)
  unfold forceOn
  refine ⟨?_, ?_, ?_⟩
  · rw [foldl_pairStep_lane Vector3.x (fun _ _ => rfl),
      foldl_pairStep_lane Vector3.x (fun _ _ => rfl), wx, wx1, (hv i).1]
    simp only [hpair]
  · rw [foldl_pairStep_lane Vector3.y (fun _ _ => rfl),
      foldl_pairStep_lane Vector3.y (fun _ _ => rfl), wy, wy1, (hv i).2.1]
    simp only [hpair]
  · rw [foldl_pairStep_lane Vector3.z (fun _ _ => rfl),
      foldl_pairStep_lane Vector3.z (fun _ _ => rfl), wz, wz1, (hv i).2.2]
    simp only [hpair]

theorem integrate_snd (sqrt : F → F) (balls vels : List (Vector3 F)) (elapsedTime : F)
    (gravityVec : Vector3 F) (i : Nat) :
    (integrate sqrt balls vels elapsedTime gravityVec i).2 =
      ((integrate sqrt balls vels elapsedTime gravityVec i).1 -
        balls.getD i Vector3.zero).divScalar elapsedTime := rfl

/-- The stored pair reads lanes 0-2 of the velocities and of gravity only. -/
theorem integrate_congr (sqrt : F → F) (balls vels vels1 : List (Vector3 F))
    (elapsedTime : F) (g g1 : Vector3 F) (i : Nat)
    (hv : ∀ k : Nat, (vels.getD k zero).x = (vels1.getD k zero).x ∧
      (vels.getD k zero).y = (vels1.getD k zero).y ∧
      (vels.getD k zero).z = (vels1.getD k zero).z)
    (hg : g.x = g1.x ∧ g.y = g1.y ∧ g.z = g1.z) :
    integrate sqrt balls vels elapsedTime g i = integrate sqrt balls vels1 elapsedTime g1 i := by
  obtain ⟨fx, fy, fz⟩ := forceOn_congr sqrt balls vels vels1 i hv
  have h1 : (integrate sqrt balls vels elapsedTime g i).1 =
      (integrate sqrt balls vels1 elapsedTime g1 i).1 := by
    rw [integrate_fst, integrate_fst, fx, fy, fz, (hv i).1, (hv i).2.1, (hv i).2.2, hg.1,
      hg.2.1, hg.2.2]
  apply Prod.ext h1
  rw [integrate_snd, integrate_snd, h1]

end LaneDependence

/-! ## Shape of the dispatch -/

section DispatchShape

variable {F : Type} [LinearOrderedField F]

/-- Number and form of the ranges of a successful dispatch, with the chunk
size `c = size / (poolSize * 2)` and the count `k = size / c`. -/
theorem dispatch_count (size poolSize : Nat) (tasks : List (Nat × Nat))
    (h : dispatch size poolSize = some tasks) :
    tasks.length = size / (size / (poolSize * 2)) ∧
      0 < size / (poolSize * 2) ∧
      2 * poolSize ≤ tasks.length ∧ tasks.length < 4 * poolSize ∧
      tasks.length * (size / (poolSize * 2)) ≤ size ∧
      size < (tasks.length + 1) * (size / (poolSize * 2)) ∧
      (∀ i : Nat, i < tasks.length - 1 →
        tasks[i]? = some (i * (size / (poolSize * 2)), (i + 1) * (size / (poolSize * 2)))) ∧
      tasks[tasks.length - 1]? =
        some ((tasks.length - 1) * (size / (poolSize * 2)), size) := by
  obtain ⟨c, k, hP, hc, hk, hcpos, hk2, h1, h2, _, rfl⟩ :=
    dispatch_some_shape size poolSize tasks h
  have hlen : ((List.range (k - 1)).map (fun i => (i * c, (i + 1) * c))
      ++ [((k - 1) * c, size)]).length = k := by
    simp only [List.length_append, List.length_map, List.length_range, List.length_singleton]
    omega
  rw [hlen, ← hc]
  have e1 : poolSize * 2 * c + size % (poolSize * 2) = size := by
    rw [hc]
    exact Nat.div_add_mod size (poolSize * 2)
  have e2 : size % (poolSize * 2) < poolSize * 2 := Nat.mod_lt _ (by omega)
  have hupper : k < 4 * poolSize := by
    by_contra hcon
    have h4 : 4 * poolSize * c ≤ k * c := Nat.mul_le_mul_right c (Nat.le_of_not_lt hcon)
    have h5 : poolSize * 2 * 1 ≤ poolSize * 2 * c := Nat.mul_le_mul_left _ hcpos
    have e3 : 4 * poolSize * c = poolSize * 2 * c + poolSize * 2 * c := by ring
    omega
  refine ⟨hk, hcpos, hk2, hupper, h1, ?_, ?_, ?_⟩
  · have e4 : (k + 1) * c = k * c + c := by ring
    omega
  · intro i hi
    rw [List.getElem?_append_left (by simp only [List.length_map, List.length_range]; exact hi),
      List.getElem?_map, List.getElem?_range hi]
    rfl
  · rw [List.getElem?_append_right (by simp only [List.length_map, List.length_range]; omega)]
    simp only [List.length_map, List.length_range, Nat.sub_self, List.getElem?_cons_zero]

theorem spawnIf_myballz_length (addBall : Bool) (s : HPCAssignment F) :
    (spawnIf addBall s).myballz.length =
      s.myballz.length + if addBall = true then 1008 else 0 := by
  unfold spawnIf
  split
  · exact addBalls_myballz_length s
  · rfl

/-- A returning `run` leaves as many bodies as there were after the optional
spawn. -/
theorem run_myballz_length (sqrt : F → F) (poolSize : Nat) (elapsedTime : F)
    (gravity : Vector3 F) (addBall : Bool) (s s1 : HPCAssignment F) (hs : SameLength s)
    (h : run sqrt poolSize elapsedTime gravity addBall s = some s1) :
    s1.myballz.length = (spawnIf addBall s).myballz.length := by
  obtain ⟨a1, _, _, _⟩ := run_eq_some sqrt poolSize elapsedTime gravity addBall s s1 hs h
  rw [a1]
  simp only [updatedPositions, List.length_map, List.length_range]

/-- The population of a reachable state is a positive multiple of 1008. -/
theorem reachable_length (sqrt : F → F) (poolSize : Nat) (s : HPCAssignment F)
    (h : Reachable sqrt poolSize s) : ∃ k : Nat, 1 ≤ k ∧ s.myballz.length = 1008 * k := by
  induction h with
  | load =>
    refine ⟨1, le_refl 1, ?_⟩
    show (addBalls (HPCAssignment.fresh : HPCAssignment F)).myballz.length = 1008 * 1
    rw [addBalls_myballz_length]
    rfl
  | run elapsedTime gravity addBall hprev hrun ih =>
    obtain ⟨k, hk, hlen⟩ := ih
    have hl := run_myballz_length sqrt poolSize elapsedTime gravity addBall _ _
      (reachable_sameLength sqrt poolSize _ hprev) hrun
    rw [spawnIf_myballz_length, hlen] at hl
    cases addBall with
    | true =>
      refine ⟨k + 1, by omega, ?_⟩
      rw [hl]
      simp only [if_true]
      ring
    | false =>
      refine ⟨k, hk, ?_⟩
      rw [hl]
      simp

end DispatchShape

/-! ## The population after `load()` -/

section Loaded

variable {F : Type} [LinearOrderedField F]

open Vector3

theorem length_spawnSpec : (spawnSpec : List (Vector3 F)).length = 1008 := by
  unfold spawnSpec
  simp only [List.length_append, length_gridSpec]

theorem mem_gridSpec (nx nz : Nat) (xStep zStep y r : F) (b : Vector3 F)
    (h : b ∈ gridSpec nx nz xStep zStep y r) :
    ∃ i k : Nat, i < nx ∧ k < nz ∧
      b = Vector3.mk (-38 + (i : F) * xStep) y (-38 + (k : F) * zStep) r := by
  unfold gridSpec at h
  obtain ⟨i, hi, hb⟩ := List.mem_flatMap.1 h
  obtain ⟨k, hk, rfl⟩ := List.mem_map.1 hb
  exact ⟨i, k, List.mem_range.1 hi, List.mem_range.1 hk, rfl⟩

theorem spawnSpec_validRadius (b : Vector3 F) (h : b ∈ (spawnSpec : List (Vector3 F))) :
    ValidRadius b.w := by
  unfold spawnSpec at h
  simp only [List.mem_append] at h
  rcases h with (h | h) | h
  · obtain ⟨i, k, _, _, rfl⟩ := mem_gridSpec _ _ _ _ _ _ b h
    exact Or.inr (Or.inr rfl)
  · obtain ⟨i, k, _, _, rfl⟩ := mem_gridSpec _ _ _ _ _ _ b h
    exact Or.inr (Or.inl rfl)
  · obtain ⟨i, k, _, _, rfl⟩ := mem_gridSpec _ _ _ _ _ _ b h
    exact Or.inl rfl

/-- The state left by `load()` on a new engine. -/
theorem load_fresh :
    (load (HPCAssignment.fresh : HPCAssignment F)).2.myballz = spawnSpec ∧
      (load (HPCAssignment.fresh : HPCAssignment F)).2.myvelocityz =
        (spawnSpec : List (Vector3 F)).map (fun _ => splat 0) := by
  constructor
  · show (addBalls (HPCAssignment.fresh : HPCAssignment F)).myballz = spawnSpec
    rw [addBalls_myballz_eq]
    rfl
  · obtain ⟨new, e1, e2, _⟩ := addBalls_append (HPCAssignment.fresh : HPCAssignment F)
    have hnew : new = spawnSpec := by
      have h := addBalls_myballz_eq (HPCAssignment.fresh : HPCAssignment F)
      rw [e1] at h
      exact List.append_cancel_left h
    show (addBalls (HPCAssignment.fresh : HPCAssignment F)).myvelocityz = _
    rw [e2, hnew]
    rfl

end Loaded

/-! ## The loaded population is free of contacts -/

section ContactFree

variable {F : Type} [LinearOrderedField F]

open Vector3

/-- Two different natural numbers are at least one apart. -/
theorem one_le_sq_cast_sub (i k : Nat) (h : i ≠ k) :
    (1 : F) ≤ ((i : F) - (k : F)) * ((i : F) - (k : F)) := by
  rcases Nat.lt_or_gt_of_ne h with hlt | hgt
  · have h1 : (i : F) + 1 ≤ (k : F) := by exact_mod_cast hlt
    nlinarith
  · have h1 : (k : F) + 1 ≤ (i : F) := by exact_mod_cast hgt
    nlinarith

/-- Two different grid steps are at least one step apart. -/
theorem step_apart (i k : Nat) (h : i ≠ k) (origin step bound : F)
    (hstep : bound ≤ step * step) :
    bound ≤ ((origin + (i : F) * step) - (origin + (k : F) * step)) *
      ((origin + (i : F) * step) - (origin + (k : F) * step)) := by
  have h1 := @one_le_sq_cast_sub F _ i k h
  have h2 : 1 * (step * step) ≤
      (((i : F) - (k : F)) * ((i : F) - (k : F))) * (step * step) :=
    mul_le_mul_of_nonneg_right h1 (mul_self_nonneg step)
  have e : ((origin + (i : F) * step) - (origin + (k : F) * step)) *
      ((origin + (i : F) * step) - (origin + (k : F) * step)) =
      (((i : F) - (k : F)) * ((i : F) - (k : F))) * (step * step) := by ring
  rw [e]
  linarith

theorem apart_comm (a b : Vector3 F) (h : Apart a b) : Apart b a := by
  unfold Apart at h ⊢
  have e1 : (b.w + a.w) * (b.w + a.w) = (a.w + b.w) * (a.w + b.w) := by ring
  have e2 : (b.x - a.x) * (b.x - a.x) = (a.x - b.x) * (a.x - b.x) := by ring
  have e3 : (b.y - a.y) * (b.y - a.y) = (a.y - b.y) * (a.y - b.y) := by ring
  have e4 : (b.z - a.z) * (b.z - a.z) = (a.z - b.z) * (a.z - b.z) := by ring
  rw [e1, e2, e3, e4]
  exact h

/-- Bodies separated along an axis by the sum of their radii fail the overlap
test, for a true square root. -/
theorem not_overlaps_of_apart (sqrt : F → F) (hsqrt : IsSqrt sqrt) (a b : Vector3 F)
    (h : Apart a b) : overlaps sqrt a b = false := by
  have hD : 0 ≤ (a.x - b.x) * (a.x - b.x) + (a.y - b.y) * (a.y - b.y) +
      (a.z - b.z) * (a.z - b.z) := by
    have h1 := mul_self_nonneg (a.x - b.x)
    have h2 := mul_self_nonneg (a.y - b.y)
    have h3 := mul_self_nonneg (a.z - b.z)
    linarith
  obtain ⟨hs0, hs1⟩ := hsqrt _ hD
  have hnot : ¬ (sqrt ((a.x - b.x) * (a.x - b.x) + (a.y - b.y) * (a.y - b.y) +
      (a.z - b.z) * (a.z - b.z)) < a.w + b.w) := by
    intro hlt
    have hsq := mul_self_lt_mul_self hs0 hlt
    rw [hs1] at hsq
    have h1 := mul_self_nonneg (a.x - b.x)
    have h2 := mul_self_nonneg (a.y - b.y)
    have h3 := mul_self_nonneg (a.z - b.z)
    rcases h with h | h | h <;> linarith
  simp only [overlaps, Vector3.lt, length_x, sub_x, sub_y, sub_z, add_x, getR_x, hnot,
    decide_False]

/-- The bodies of one grid whose steps are at least twice the radius are
pairwise apart. -/
theorem gridSpec_pairwise (nx nz : Nat) (xStep zStep y r : F)
    (hx : (r + r) * (r + r) ≤ xStep * xStep) (hz : (r + r) * (r + r) ≤ zStep * zStep) :
    (gridSpec nx nz xStep zStep y r).Pairwise Apart := by
  unfold gridSpec
  rw [List.pairwise_flatMap]
  constructor
  · intro i _
    rw [List.pairwise_map]
    apply List.Pairwise.imp _ (List.nodup_range nz)
    intro k k1 hk
    exact Or.inr (Or.inr (step_apart k k1 hk (-38) zStep _ hz))
  · apply List.Pairwise.imp _ (List.nodup_range nx)
    intro i i1 hi a ha b hb
    obtain ⟨k, _, rfl⟩ := List.mem_map.1 ha
    obtain ⟨k1, _, rfl⟩ := List.mem_map.1 hb
    exact Or.inl (step_apart i i1 hi (-38) xStep _ hx)

/-- Bodies of two grids at heights that differ by the sum of the radii are
apart. -/
theorem gridSpec_apart (nx nz nx1 nz1 : Nat) (xStep zStep y r xStep1 zStep1 y1 r1 : F)
    (hy : (r + r1) * (r + r1) ≤ (y - y1) * (y - y1)) (a b : Vector3 F)
    (ha : a ∈ gridSpec nx nz xStep zStep y r) (hb : b ∈ gridSpec nx1 nz1 xStep1 zStep1 y1 r1) :
    Apart a b := by
  obtain ⟨_, _, _, _, rfl⟩ := mem_gridSpec _ _ _ _ _ _ a ha
  obtain ⟨_, _, _, _, rfl⟩ := mem_gridSpec _ _ _ _ _ _ b hb
  exact Or.inr (Or.inl hy)

/-- The records of a spawn are pairwise apart. -/
theorem spawnSpec_pairwise : (spawnSpec : List (Vector3 F)).Pairwise Apart := by
  unfold spawnSpec
  rw [List.pairwise_append, List.pairwise_append]
  refine ⟨⟨gridSpec_pairwise _ _ _ _ _ _ (by norm_num) (by norm_num),
    gridSpec_pairwise _ _ _ _ _ _ (by norm_num) (by norm_num), ?_⟩,
    gridSpec_pairwise _ _ _ _ _ _ (by norm_num) (by norm_num), ?_⟩
  · intro a ha b hb
    exact gridSpec_apart _ _ _ _ _ _ _ _ _ _ _ _ (by norm_num) a b ha hb
  · intro a ha b hb
    rcases List.mem_append.1 ha with ha | ha
    · exact gridSpec_apart _ _ _ _ _ _ _ _ _ _ _ _ (by norm_num) a b ha hb
    · exact gridSpec_apart _ _ _ _ _ _ _ _ _ _ _ _ (by norm_num) a b ha hb

/-- Two records of a spawn at different indices fail the overlap test. -/
theorem spawnSpec_not_overlaps (sqrt : F → F) (hsqrt : IsSqrt sqrt) (i j : Nat)
    (hi : i < 1008) (hj : j < 1008) (hij : i ≠ j) :
    overlaps sqrt ((spawnSpec : List (Vector3 F)).getD i zero)
      ((spawnSpec : List (Vector3 F)).getD j zero) = false := by
  have hi1 : i < (spawnSpec : List (Vector3 F)).length := by rw [length_spawnSpec]; exact hi
  have hj1 : j < (spawnSpec : List (Vector3 F)).length := by rw [length_spawnSpec]; exact hj
  have hp := List.pairwise_iff_getElem.1 (@spawnSpec_pairwise F _)
  rw [List.getD_eq_getElem _ _ hi1, List.getD_eq_getElem _ _ hj1]
  apply not_overlaps_of_apart sqrt hsqrt
  rcases Nat.lt_or_gt_of_ne hij with hlt | hgt
  · exact hp i j hi1 hj1 hlt
  · exact apart_comm _ _ (hp j i hj1 hi1 hgt)

end ContactFree

/-! ## The loaded population is inside the walls -/

section Inside

variable {F : Type} [LinearOrderedField F]

open Vector3

/-- The bodies of a grid whose last row and column stay inside the walls are
inside the walls. -/
theorem gridSpec_insideWalls (mx mz : Nat) (xStep zStep y r : F) (hxs : 0 ≤ xStep)
    (hzs : 0 ≤ zStep) (hr : r ≤ 2) (hx : -38 + (mx : F) * xStep + r ≤ 40)
    (hz : -38 + (mz : F) * zStep + r ≤ 40) (hy1 : -40 ≤ y - r) (hy2 : y + r ≤ 40)
    (b : Vector3 F) (hb : b ∈ gridSpec (mx + 1) (mz + 1) xStep zStep y r) : InsideWalls b := by
  obtain ⟨i, k, hi, hk, rfl⟩ := mem_gridSpec _ _ _ _ _ _ b hb
  have hi1 : (i : F) ≤ (mx : F) := by exact_mod_cast Nat.lt_succ_iff.1 hi
  have hk1 : (k : F) ≤ (mz : F) := by exact_mod_cast Nat.lt_succ_iff.1 hk
  have hi0 : (0 : F) ≤ (i : F) := Nat.cast_nonneg i
  have hk0 : (0 : F) ≤ (k : F) := Nat.cast_nonneg k
  have h1 := mul_le_mul_of_nonneg_right hi1 hxs
  have h2 := mul_le_mul_of_nonneg_right hk1 hzs
  have h3 := mul_nonneg hi0 hxs
  have h4 := mul_nonneg hk0 hzs
  unfold InsideWalls
  refine ⟨⟨?_, ?_⟩, ⟨hy1, hy2⟩, ⟨?_, ?_⟩⟩ <;> simp only <;> linarith

/-- Every record of a spawn is inside the walls. -/
theorem spawnSpec_insideWalls (b : Vector3 F) (hb : b ∈ (spawnSpec : List (Vector3 F))) :
    InsideWalls b := by
  unfold spawnSpec at hb
  simp only [List.mem_append] at hb
  rcases hb with (h | h) | h
  · exact gridSpec_insideWalls 16 18 _ _ _ _ (by norm_num) (by norm_num) (by norm_num)
      (by norm_num) (by norm_num) (by norm_num) (by norm_num) b h
  · exact gridSpec_insideWalls 16 16 _ _ _ _ (by norm_num) (by norm_num) (by norm_num)
      (by norm_num) (by norm_num) (by norm_num) (by norm_num) b h
  · exact gridSpec_insideWalls 17 21 _ _ _ _ (by norm_num) (by norm_num) (by norm_num)
      (by norm_num) (by norm_num) (by norm_num) (by norm_num) b h

/-- A wall term is zero where the wall is not penetrated. -/
theorem wallTerms_inside (position radius velocity : F) (h1 : -40 ≤ position - radius)
    (h2 : position + radius ≤ 40) :
    outerWallTerm position radius velocity + innerWallTerm position radius velocity = 0 := by
  have e1 : ¬ (0 < (position + radius) - 40) := by
    intro hc
    linarith
  have e2 : ¬ (40 + (position - radius) < 0) := by
    intro hc
    linarith
  simp only [outerWallTerm, innerWallTerm, wallTermSpec, e1, e2, decide_False,
    Bool.false_eq_true, if_false, add_zero]

/-- The wall force of a body of radius at most 20 inside the walls is zero in
every lane. -/
theorem wallForce_inside (p v : Vector3 F) (hp : InsideWalls p) (hr : p.w ≤ 20) :
    wallForce p v = ⟨0, 0, 0, 0⟩ := by
  obtain ⟨ex, ey, ez, ew⟩ := wallForce_lanes p v
  obtain ⟨⟨hx1, hx2⟩, ⟨hy1, hy2⟩, ⟨hz1, hz2⟩⟩ := hp
  apply ext_lanes
  · rw [ex]
    exact wallTerms_inside _ _ _ hx1 hx2
  · rw [ey]
    exact wallTerms_inside _ _ _ hy1 hy2
  · rw [ez]
    exact wallTerms_inside _ _ _ hz1 hz2
  · rw [ew]
    exact wallTerms_inside _ _ _ (by linarith) (by linarith)

end Inside


/-! ## The checked inner loop -/

section CheckedLoop

variable {F : Type} [LinearOrderedField F]

open Vector3

/-- The checked quotient has no value exactly when a lane of the divisor is
zero. -/
theorem divChecked_eq_none_iff (a b : Vector3 F) :
    a.divChecked b = none ↔ (b.x = 0 ∨ b.y = 0 ∨ b.z = 0 ∨ b.w = 0) := by
  unfold Vector3.divChecked
  by_cases h : b.x = 0 ∨ b.y = 0 ∨ b.z = 0 ∨ b.w = 0
  · rw [if_pos h]
    exact ⟨fun _ => h, fun _ => rfl⟩
  · rw [if_neg h]
    exact ⟨fun hne => Option.noConfusion hne, fun hf => (h hf).elim⟩

/-- A checked quotient that has a value is the quotient. -/
theorem divChecked_eq_some (a b r : Vector3 F) (h : a.divChecked b = some r) : r = a / b := by
  unfold Vector3.divChecked at h
  by_cases hz : b.x = 0 ∨ b.y = 0 ∨ b.z = 0 ∨ b.w = 0
  · rw [if_pos hz] at h
    exact Option.noConfusion h
  · rw [if_neg hz] at h
    exact (Option.some.inj h).symm

/-- An iteration of the checked inner loop has no value exactly when the other
index is a different body, the overlap test holds and a lane of `length` is
zero: line 94 is executed with a zero divisor. -/
theorem pairStepChecked_eq_none_iff (sqrt : F → F) (balls vels : List (Vector3 F)) (i : Nat)
    (force : Vector3 F) (j : Nat) :
    pairStepChecked sqrt balls vels i force j = none ↔
      (i ≠ j ∧ overlaps sqrt (balls.getD i zero) (balls.getD j zero) = true ∧
        (((balls.getD i zero - balls.getD j zero).length sqrt).x = 0 ∨
          ((balls.getD i zero - balls.getD j zero).length sqrt).y = 0 ∨
          ((balls.getD i zero - balls.getD j zero).length sqrt).z = 0 ∨
          ((balls.getD i zero - balls.getD j zero).length sqrt).w = 0)) := by
  unfold pairStepChecked overlaps
  by_cases hij : i = j
  · simp only [ne_eq, hij, not_true_eq_false, if_false, false_and, iff_false]
    exact fun h => Option.noConfusion h
  · by_cases hov : ((balls.getD i zero - balls.getD j zero).length sqrt).lt
        ((balls.getD i zero).getR + (balls.getD j zero).getR) = true
    · simp only [ne_eq, hij, not_false_eq_true, if_true, hov, true_and]
      cases hd : (balls.getD i zero - balls.getD j zero).divChecked
          ((balls.getD i zero - balls.getD j zero).length sqrt) with
      | none =>
        simp only [true_iff]
        exact (divChecked_eq_none_iff _ _).1 hd
      | some nor =>
        refine ⟨fun h => Option.noConfusion h, fun hz => ?_⟩
        have hn := (divChecked_eq_none_iff (balls.getD i zero - balls.getD j zero) _).2 hz
        rw [hd] at hn
        exact Option.noConfusion hn
    · simp only [ne_eq, hij, not_false_eq_true, if_true, hov, Bool.false_eq_true, if_false,
        false_and, and_false, iff_false]
      exact fun h => Option.noConfusion h

/-- An iteration of the checked inner loop that has a value computes the value
of `pairStep`. -/
theorem pairStepChecked_eq_some (sqrt : F → F) (balls vels : List (Vector3 F)) (i : Nat)
    (force : Vector3 F) (j : Nat) (r : Vector3 F)
    (h : pairStepChecked sqrt balls vels i force j = some r) :
    pairStep sqrt balls vels i force j = r := by
  unfold pairStepChecked at h
  unfold pairStep
  by_cases hij : i = j
  · simp only [ne_eq, hij, not_true_eq_false, if_false] at h ⊢
    exact Option.some.inj h
  · by_cases hov : ((balls.getD i zero - balls.getD j zero).length sqrt).lt
        ((balls.getD i zero).getR + (balls.getD j zero).getR) = true
    · simp only [ne_eq, hij, not_false_eq_true, if_true, hov] at h ⊢
      cases hd : (balls.getD i zero - balls.getD j zero).divChecked
          ((balls.getD i zero - balls.getD j zero).length sqrt) with
      | none =>
        rw [hd] at h
        exact Option.noConfusion h
      | some nor =>
        rw [hd] at h
        rw [← divChecked_eq_some _ _ _ hd]
        exact Option.some.inj h
    · simp only [ne_eq, hij, not_false_eq_true, if_true, hov, Bool.false_eq_true,
        if_false] at h ⊢
      exact Option.some.inj h

/-- An iteration of the checked inner loop whose divisor `length` has no zero
lane has the value of `pairStep`. -/
theorem pairStepChecked_of_ne_zero (sqrt : F → F) (balls vels : List (Vector3 F)) (i : Nat)
    (force : Vector3 F) (j : Nat)
    (h : ¬ (((balls.getD i zero - balls.getD j zero).length sqrt).x = 0 ∨
          ((balls.getD i zero - balls.getD j zero).length sqrt).y = 0 ∨
          ((balls.getD i zero - balls.getD j zero).length sqrt).z = 0 ∨
          ((balls.getD i zero - balls.getD j zero).length sqrt).w = 0)) :
    pairStepChecked sqrt balls vels i force j = some (pairStep sqrt balls vels i force j) := by
  cases hc : pairStepChecked sqrt balls vels i force j with
  | none => exact (h ((pairStepChecked_eq_none_iff sqrt balls vels i force j).1 hc).2.2).elim
  | some r => rw [pairStepChecked_eq_some sqrt balls vels i force j r hc]

/-- A checked inner loop that has a value computes the value of the inner
loop. -/
theorem pairLoopChecked_eq_some (sqrt : F → F) (balls vels : List (Vector3 F)) (i : Nat)
    (js : List Nat) (force r : Vector3 F)
    (h : pairLoopChecked sqrt balls vels i js force = some r) :
    js.foldl (pairStep sqrt balls vels i) force = r := by
  induction js generalizing force with
  | nil => exact Option.some.inj h
  | cons k ks ih =>
    unfold pairLoopChecked at h
    cases hk : pairStepChecked sqrt balls vels i force k with
    | none =>
      rw [hk] at h
      exact Option.noConfusion h
    | some force1 =>
      rw [hk] at h
      rw [List.foldl_cons, pairStepChecked_eq_some sqrt balls vels i force k force1 hk]
      exact ih force1 h

/-- A checked force that has a value is the value of `forceOn`. -/
theorem forceOnChecked_eq_some (sqrt : F → F) (balls vels : List (Vector3 F)) (i : Nat)
    (r : Vector3 F) (h : forceOnChecked sqrt balls vels i = some r) :
    forceOn sqrt balls vels i = r :=
  pairLoopChecked_eq_some sqrt balls vels i _ _ r h

end CheckedLoop

/-! ## Lanes with the range of `float` -/

section FloatRangeLemmas

/-- Zero is in range. -/
theorem inRange_zero : InRange 0 := by
  unfold InRange overflowThreshold
  norm_num

/-- An exact value in range is kept. -/
theorem ofExact_of_inRange (q : ℚ) (h : InRange q) : Lane.ofExact q = Lane.finite q := by
  unfold Lane.ofExact
  rw [if_neg (not_le.2 h.2), if_neg (not_le.2 h.1)]

/-- On finite lanes whose products and differences stay in range, `cross3` on
lanes with the range of `float` is `cross3` over the rationals. -/
theorem cross3Lanes_finiteLanes (a b : Vector3 ℚ)
    (hx1 : InRange (a.y * b.z)) (hx2 : InRange (a.z * b.y))
    (hx : InRange (a.y * b.z - a.z * b.y))
    (hy1 : InRange (a.z * b.x)) (hy2 : InRange (a.x * b.z))
    (hy : InRange (a.z * b.x - a.x * b.z))
    (hz1 : InRange (a.x * b.y)) (hz2 : InRange (a.y * b.x))
    (hz : InRange (a.x * b.y - a.y * b.x))
    (hw : InRange (a.w * b.w)) :
    cross3Lanes (finiteLanes a) (finiteLanes b) = finiteLanes (a.cross3 b) := by
  show (⟨(Lane.ofExact (a.y * b.z)).sub (Lane.ofExact (a.z * b.y)),
      (Lane.ofExact (a.z * b.x)).sub (Lane.ofExact (a.x * b.z)),
      (Lane.ofExact (a.x * b.y)).sub (Lane.ofExact (a.y * b.x)),
      (Lane.ofExact (a.w * b.w)).sub (Lane.ofExact (a.w * b.w))⟩ : Vector3 Lane) =
    ⟨Lane.finite (a.y * b.z - a.z * b.y), Lane.finite (a.z * b.x - a.x * b.z),
      Lane.finite (a.x * b.y - a.y * b.x), Lane.finite (a.w * b.w - a.w * b.w)⟩
  rw [ofExact_of_inRange _ hx1, ofExact_of_inRange _ hx2, ofExact_of_inRange _ hy1,
    ofExact_of_inRange _ hy2, ofExact_of_inRange _ hz1, ofExact_of_inRange _ hz2,
    ofExact_of_inRange _ hw]
  show (⟨Lane.ofExact (a.y * b.z - a.z * b.y), Lane.ofExact (a.z * b.x - a.x * b.z),
      Lane.ofExact (a.x * b.y - a.y * b.x), Lane.ofExact (a.w * b.w - a.w * b.w)⟩ :
        Vector3 Lane) = _
  rw [ofExact_of_inRange _ hx, ofExact_of_inRange _ hy, ofExact_of_inRange _ hz,
    ofExact_of_inRange (a.w * b.w - a.w * b.w) (by rw [sub_self]; exact inRange_zero)]

end FloatRangeLemmas

/-! ## The claims, concluded -/

section Claims3

variable {F : Type} [LinearOrderedField F] {T : Type}

open Vector3

/-- C21.  Shape of the partition: for a pool of `P ≥ 1` threads and a
population `2 * P ≤ N` (below `2^31`), with `c = N / (2 * P)`, `run` submits
`K = N / c` tasks, `2 * P ≤ K ≤ 4 * P - 1`; task `i < K - 1` is the range
`[i * c, (i + 1) * c)` of exactly `c` bodies and the last task is
`[(K - 1) * c, N)`, which has `c + N % c` bodies, at least `c` and fewer than
`2 * c`. -/
theorem partition_shape (N P : Nat) (hP : 1 ≤ P) (hN : 2 * P ≤ N) (hsize : N < 2 ^ 31) :
    ∃ tasks : List (Nat × Nat), dispatch N P = some tasks ∧
      tasks.length = N / (N / (2 * P)) ∧
      2 * P ≤ tasks.length ∧ tasks.length ≤ 4 * P - 1 ∧
      (∀ i : Nat, i < tasks.length - 1 →
        tasks[i]? = some (i * (N / (2 * P)), (i + 1) * (N / (2 * P))) ∧
        (i + 1) * (N / (2 * P)) - i * (N / (2 * P)) = N / (2 * P)) ∧
      tasks[tasks.length - 1]? = some ((tasks.length - 1) * (N / (2 * P)), N) ∧
      N - (tasks.length - 1) * (N / (2 * P)) = N / (2 * P) + N % (N / (2 * P)) ∧
      N / (2 * P) ≤ N / (2 * P) + N % (N / (2 * P)) ∧
      N / (2 * P) + N % (N / (2 * P)) < 2 * (N / (2 * P)) := by
  obtain ⟨tasks, ht⟩ := dispatch_isSome N P hP hN hsize
  obtain ⟨h1, hc, h2, h3, h4, h5, h6, h7⟩ := dispatch_count N P tasks ht
  rw [Nat.mul_comm P 2] at h1 hc h4 h5 h6 h7
  have hmod : N % (N / (2 * P)) < N / (2 * P) := Nat.mod_lt _ hc
  have hdm : N / (2 * P) * (N / (N / (2 * P))) + N % (N / (2 * P)) = N :=
    Nat.div_add_mod N (N / (2 * P))
  rw [← h1] at hdm
  have e1 : (tasks.length - 1) * (N / (2 * P)) =
      tasks.length * (N / (2 * P)) - N / (2 * P) := by
    rw [Nat.sub_mul, Nat.one_mul]
  have e2 : N / (2 * P) * tasks.length = tasks.length * (N / (2 * P)) := Nat.mul_comm _ _
  have e3 : N / (2 * P) ≤ tasks.length * (N / (2 * P)) :=
    Nat.le_mul_of_pos_left _ (by omega)
  refine ⟨tasks, ht, h1, h2, by omega, ?_, h7, by omega, by omega, by omega⟩
  intro i hi
  refine ⟨h6 i hi, ?_⟩
  rw [Nat.add_mul, Nat.one_mul, Nat.add_sub_cancel_left]

/-- Witness of C21: the 1008 bodies of `load()` on a pool of 5 threads, chunk
size 100, ten tasks, the last one `[900, 1008)`. -/
theorem partition_shape_witness :
    ∃ tasks : List (Nat × Nat), dispatch 1008 5 = some tasks ∧ tasks.length = 10 ∧
      tasks[9]? = some (900, 1008) := by
  obtain ⟨tasks, h1, h2, _, _, _, h3, _⟩ :=
    partition_shape 1008 5 (by decide) (by decide) (by decide)
  have e : 1008 / (1008 / (2 * 5)) = 10 := by decide
  rw [e] at h2
  rw [h2] at h3
  exact ⟨tasks, h1, h2, h3⟩

/-- Counterexample of C22: for the 1008 bodies of `load()` on a pool of 4
threads `run` submits 8 ranges of 126 bodies each, and the average range size
is not within a factor of two of `2 * 4 = 8`. -/
theorem chunk_size_not_twice_pool :
    dispatch 1008 4 = some [(0, 126), (126, 252), (252, 378), (378, 504), (504, 630),
        (630, 756), (756, 882), (882, 1008)] ∧
      ¬ AverageAboutTwicePool 1008 8 4 := by
  constructor
  · rfl
  · decide

/-- C22 (amended).  Chunk granularity: for `2 * poolSize ≤ N` (below `2^31`)
`run` chooses the number of ranges `K` to be about `2 * poolSize`,
`2 * poolSize ≤ K < 4 * poolSize`, so that the average range size `N / K` is
about `N / (2 * poolSize)`: with `c = N / (2 * poolSize)`,
`K * c ≤ N < (K + 1) * c`. -/
theorem chunk_granularity (N P : Nat) (hP : 1 ≤ P) (hN : 2 * P ≤ N) (hsize : N < 2 ^ 31) :
    ∃ tasks : List (Nat × Nat), dispatch N P = some tasks ∧
      2 * P ≤ tasks.length ∧ tasks.length < 4 * P ∧
      tasks.length * (N / (2 * P)) ≤ N ∧ N < (tasks.length + 1) * (N / (2 * P)) := by
  obtain ⟨tasks, ht⟩ := dispatch_isSome N P hP hN hsize
  obtain ⟨_, _, h2, h3, h4, h5, _, _⟩ := dispatch_count N P tasks ht
  rw [Nat.mul_comm P 2] at h4 h5
  exact ⟨tasks, ht, h2, h3, h4, h5⟩

/-- Witness of C22 (amended): 1008 bodies on 4 threads give between 8 and 15
ranges, of average size about `1008 / 8 = 126`. -/
theorem chunk_granularity_witness :
    ∃ tasks : List (Nat × Nat), dispatch 1008 4 = some tasks ∧
      2 * 4 ≤ tasks.length ∧ tasks.length < 4 * 4 ∧
      tasks.length * (1008 / (2 * 4)) ≤ 1008 ∧ 1008 < (tasks.length + 1) * (1008 / (2 * 4)) :=
  chunk_granularity 1008 4 (by decide) (by decide) (by decide)

/-- C23.  Division safety after `load()`: in every state reached by `load()`
and returning `run` calls the population is a positive multiple of 1008; a
pool has at least one thread; on a pool of `1 ≤ P ≤ 504` threads, whatever the
spawn flag, the divisor `2 * P` is not zero, the chunk size
`numBalls = N / (2 * P)` is at least 1, and a population below `2^31` makes
`run` return with a population that is not smaller than before. -/
theorem division_safety (sqrt : F → F) (poolSize : Nat) (s : HPCAssignment F)
    (h : Reachable sqrt poolSize s) (hP1 : 1 ≤ poolSize) (hP2 : poolSize ≤ 504) :
    (∃ k : Nat, 1 ≤ k ∧ s.myballz.length = 1008 * k) ∧
      (∀ hardwareConcurrency : Nat,
        1 ≤ (ThreadPool.init hardwareConcurrency : ThreadPool T).size) ∧
      ∀ (elapsedTime : F) (gravity : Vector3 F) (addBall : Bool),
        2 * poolSize ≠ 0 ∧
        1 ≤ (spawnIf addBall s).myballz.length / (2 * poolSize) ∧
        ((spawnIf addBall s).myballz.length < 2 ^ 31 →
          ∃ s1, run sqrt poolSize elapsedTime gravity addBall s = some s1 ∧
            s.myballz.length ≤ s1.myballz.length ∧
            ∃ k : Nat, 1 ≤ k ∧ s1.myballz.length = 1008 * k) := by
  obtain ⟨k, hk, hlen⟩ := reachable_length sqrt poolSize s h
  refine ⟨⟨k, hk, hlen⟩, ?_, ?_⟩
  · intro hc
    exact le_max_right hc 1
  · intro elapsedTime gravity addBall
    have hge : 2 * poolSize ≤ (spawnIf addBall s).myballz.length := by
      have := spawnIf_myballz_length_le addBall s
      omega
    refine ⟨by omega, (Nat.le_div_iff_mul_le (by omega)).2 (by omega), ?_⟩
    intro hsize
    obtain ⟨s1, hs1⟩ := run_isSome sqrt poolSize elapsedTime gravity addBall s hP1 hge hsize
    have hl := run_myballz_length sqrt poolSize elapsedTime gravity addBall s s1
      (reachable_sameLength sqrt poolSize s h) hs1
    refine ⟨s1, hs1, ?_, reachable_length sqrt poolSize s1
      (Reachable.run elapsedTime gravity addBall h hs1)⟩
    rw [hl]
    exact spawnIf_myballz_length_le addBall s

/-- Witness of C23: the state after `load()` on a pool of 4 threads holds
1008 bodies. -/
theorem division_safety_witness :
    ∃ k : Nat, 1 ≤ k ∧
      (load (HPCAssignment.fresh : HPCAssignment ℚ)).2.myballz.length = 1008 * k :=
  (@division_safety ℚ _ Unit Rat.sqrt 4 _ Reachable.load (by decide) (by decide)).1

/-- C24.  A freshly loaded population is free of contacts (exact arithmetic,
`sqrt` a true square root): after `load()` every body is inside the six walls,
two different bodies never pass the overlap test, so the force of every body
is zero in every lane, and the first `run` without a spawn on a pool of
`1 ≤ P ≤ 504` threads with `elapsedTime ≠ 0` returns and gives body `i` the
velocity `gravity * dt` and the position `position + gravity * dt * dt` on
lanes 0-2. -/
theorem loaded_population_contact_free (sqrt : F → F) (hsqrt : IsSqrt sqrt) (poolSize : Nat)
    (elapsedTime : F) (gravity : Vector3 F) (hdt : elapsedTime ≠ 0) (hP1 : 1 ≤ poolSize)
    (hP2 : poolSize ≤ 504) :
    (∀ b ∈ (load (HPCAssignment.fresh : HPCAssignment F)).2.myballz, InsideWalls b) ∧
      (∀ i j : Nat, i < 1008 → j < 1008 → i ≠ j →
        overlaps sqrt
          ((load (HPCAssignment.fresh : HPCAssignment F)).2.myballz.getD i zero)
          ((load (HPCAssignment.fresh : HPCAssignment F)).2.myballz.getD j zero) = false) ∧
      (∀ i : Nat, i < 1008 →
        forceOn sqrt (load (HPCAssignment.fresh : HPCAssignment F)).2.myballz
          (load (HPCAssignment.fresh : HPCAssignment F)).2.myvelocityz i = ⟨0, 0, 0, 0⟩) ∧
      ∃ s1 : HPCAssignment F,
        run sqrt poolSize elapsedTime gravity false
          (load (HPCAssignment.fresh : HPCAssignment F)).2 = some s1 ∧
        ∀ i : Nat, i < 1008 → ∃ p b v : Vector3 F,
          (load (HPCAssignment.fresh : HPCAssignment F)).2.myballz[i]? = some p ∧
          s1.myballz[i]? = some b ∧ s1.myvelocityz[i]? = some v ∧
          v.x = gravity.x * elapsedTime ∧ v.y = gravity.y * elapsedTime ∧
          v.z = gravity.z * elapsedTime ∧
          b.x = p.x + gravity.x * elapsedTime * elapsedTime ∧
          b.y = p.y + gravity.y * elapsedTime * elapsedTime ∧
          b.z = p.z + gravity.z * elapsedTime * elapsedTime := by
  obtain ⟨hballz, hvel⟩ := @load_fresh F _
  have hlen : (load (HPCAssignment.fresh : HPCAssignment F)).2.myballz.length = 1008 := by
    rw [hballz, length_spawnSpec]
  have hsame : SameLength (load (HPCAssignment.fresh : HPCAssignment F)).2 :=
    addBalls_sameLength _ fresh_sameLength
  have hno : ∀ i j : Nat, i < 1008 → j < 1008 → i ≠ j →
      overlaps sqrt
        ((load (HPCAssignment.fresh : HPCAssignment F)).2.myballz.getD i zero)
        ((load (HPCAssignment.fresh : HPCAssignment F)).2.myballz.getD j zero) = false := by
    intro i j hi hj hij
    rw [hballz]
    exact spawnSpec_not_overlaps sqrt hsqrt i j hi hj hij
  have hvz : ∀ i : Nat,
      (load (HPCAssignment.fresh : HPCAssignment F)).2.myvelocityz.getD i zero = zero := by
    intro i
    rw [hvel, List.getD_eq_getElem?_getD, List.getElem?_map]
    cases (spawnSpec : List (Vector3 F))[i]? <;> rfl
  have hforce : ∀ i : Nat, i < 1008 →
      forceOn sqrt (load (HPCAssignment.fresh : HPCAssignment F)).2.myballz
        (load (HPCAssignment.fresh : HPCAssignment F)).2.myvelocityz i = ⟨0, 0, 0, 0⟩ := by
    intro i hi
    have hi1 : i < (load (HPCAssignment.fresh : HPCAssignment F)).2.myballz.length := by
      rw [hlen]
      exact hi
    have hmem : (load (HPCAssignment.fresh : HPCAssignment F)).2.myballz.getD i zero ∈
        (spawnSpec : List (Vector3 F)) := by
      rw [List.getD_eq_getElem _ _ hi1, ← hballz]
      exact List.getElem_mem hi1
    obtain ⟨hr0, hr1⟩ := validRadius_bounds _ (spawnSpec_validRadius _ hmem)
    unfold forceOn
    rw [foldl_pairStep_of_no_overlap sqrt _ _ i _ _
      (fun j hj hne => hno i j hi (hlen ▸ List.mem_range.1 hj) (fun e => hne e.symm))]
    exact wallForce_inside _ _ (spawnSpec_insideWalls _ hmem) (by linarith)
  refine ⟨?_, hno, hforce, ?_⟩
  · intro b hb
    rw [hballz] at hb
    exact spawnSpec_insideWalls b hb
  · obtain ⟨s1, hs1⟩ := run_isSome sqrt poolSize elapsedTime gravity false
      (load (HPCAssignment.fresh : HPCAssignment F)).2 hP1
      (by
        show 2 * poolSize ≤ (load (HPCAssignment.fresh : HPCAssignment F)).2.myballz.length
        rw [hlen]
        omega)
      (by
        show (load (HPCAssignment.fresh : HPCAssignment F)).2.myballz.length < 2 ^ 31
        rw [hlen]
        decide)
    refine ⟨s1, hs1, ?_⟩
    intro i hi
    have hi1 : i < (load (HPCAssignment.fresh : HPCAssignment F)).2.myballz.length := by
      rw [hlen]
      exact hi
    have hb := run_myballz_getElem? sqrt poolSize elapsedTime gravity false _ s1 hsame hs1 i hi1
    have hv := run_myvelocityz_getElem? sqrt poolSize elapsedTime gravity false _ s1 hsame hs1
      i hi1
    refine ⟨_, _, _, List.getElem?_eq_getElem hi1, hb, hv, ?_⟩
    have hsp : spawnIf false (load (HPCAssignment.fresh : HPCAssignment F)).2 =
        (load (HPCAssignment.fresh : HPCAssignment F)).2 := rfl
    have hfst := integrate_fst sqrt (load (HPCAssignment.fresh : HPCAssignment F)).2.myballz
      (load (HPCAssignment.fresh : HPCAssignment F)).2.myvelocityz elapsedTime gravity i
    rw [hforce i hi, hvz i, List.getD_eq_getElem _ _ hi1] at hfst
    have hsnd := integrate_snd sqrt (load (HPCAssignment.fresh : HPCAssignment F)).2.myballz
      (load (HPCAssignment.fresh : HPCAssignment F)).2.myvelocityz elapsedTime gravity i
    rw [hfst, List.getD_eq_getElem _ _ hi1] at hsnd
    rw [hsp, hsnd, hfst]
    refine ⟨?_, ?_, ?_, ?_, ?_, ?_⟩
    · simp only [divScalar_x, sub_x, zero_x, zero_div, zero_add, add_sub_cancel_left]
      field_simp
    · simp only [divScalar_y, sub_y, zero_y, zero_div, zero_add, add_sub_cancel_left]
      field_simp
    · simp only [divScalar_z, sub_z, zero_z, zero_div, zero_add, add_sub_cancel_left]
      field_simp
    · simp only [zero_x, zero_div, zero_add]
    · simp only [zero_y, zero_div, zero_add]
    · simp only [zero_z, zero_div, zero_add]

/-- Witness of C24: the real numbers with their square root, a pool of 4
threads, `elapsedTime = 0.1` and gravity `(0, -9.81, 0)`. -/
theorem loaded_population_contact_free_witness :
    ∃ s1 : HPCAssignment ℝ,
      run Real.sqrt 4 (1 / 10) ⟨0, -981 / 100, 0, 0⟩ false
        (load (HPCAssignment.fresh : HPCAssignment ℝ)).2 = some s1 ∧
      ∀ i : Nat, i < 1008 → ∃ p b v : Vector3 ℝ,
        (load (HPCAssignment.fresh : HPCAssignment ℝ)).2.myballz[i]? = some p ∧
        s1.myballz[i]? = some b ∧ s1.myvelocityz[i]? = some v ∧
        v.x = 0 * (1 / 10) ∧ v.y = -981 / 100 * (1 / 10) ∧ v.z = 0 * (1 / 10) ∧
        b.x = p.x + 0 * (1 / 10) * (1 / 10) ∧
        b.y = p.y + -981 / 100 * (1 / 10) * (1 / 10) ∧
        b.z = p.z + 0 * (1 / 10) * (1 / 10) :=
  (loaded_population_contact_free Real.sqrt
    (fun x hx => ⟨Real.sqrt_nonneg x, Real.mul_self_sqrt hx⟩) 4 (1 / 10)
    ⟨0, -981 / 100, 0, 0⟩ (by norm_num) (by decide) (by decide)).2.2.2

/-- C26.  Fourth-lane noninterference: two executions of `doSomeBallStuff` on
the same range with `elapsedTime ≠ 0`, the same front positions and the same
back buffers, whose gravity vectors agree on lanes 0-2 and whose front
velocities agree on lanes 0-2 at every index (the fourth lanes are free),
leave the same back positions and the same back velocities, in all four
lanes. -/
theorem fourth_lane_noninterference (sqrt : F → F) (start stop : Nat) (elapsedTime : F)
    (g1 g2 : Vector3 F) (s t : HPCAssignment F) (_hdt : elapsedTime ≠ 0)
    (hballz : s.myballz = t.myballz)
    (hvel : ∀ k : Nat, (s.myvelocityz.getD k zero).x = (t.myvelocityz.getD k zero).x ∧
      (s.myvelocityz.getD k zero).y = (t.myvelocityz.getD k zero).y ∧
      (s.myvelocityz.getD k zero).z = (t.myvelocityz.getD k zero).z)
    (hg : g1.x = g2.x ∧ g1.y = g2.y ∧ g1.z = g2.z)
    (hballz2 : s.myballz2 = t.myballz2) (hvel2 : s.myvelocityz2 = t.myvelocityz2) :
    (doSomeBallStuff sqrt start stop elapsedTime g1 s).myballz2 =
        (doSomeBallStuff sqrt start stop elapsedTime g2 t).myballz2 ∧
      (doSomeBallStuff sqrt start stop elapsedTime g1 s).myvelocityz2 =
        (doSomeBallStuff sqrt start stop elapsedTime g2 t).myvelocityz2 := by
  have hint : ∀ i : Nat, integrate sqrt s.myballz s.myvelocityz elapsedTime g1 i =
      integrate sqrt t.myballz t.myvelocityz elapsedTime g2 i := by
    intro i
    rw [hballz]
    exact integrate_congr sqrt t.myballz s.myvelocityz t.myvelocityz elapsedTime g1 g2 i hvel hg
  constructor
  · apply List.ext_getElem?
    intro i
    rw [doSomeBallStuff_myballz2, doSomeBallStuff_myballz2, hint i, hballz2]
  · apply List.ext_getElem?
    intro i
    rw [doSomeBallStuff_myvelocityz2, doSomeBallStuff_myvelocityz2, hint i, hvel2]

/-- Witness of C26: two overlapping bodies; the second execution has fourth
lanes 7 in gravity and 3, 9 in the velocities, the first has zeros. -/
theorem fourth_lane_noninterference_witness :
    (doSomeBallStuff Rat.sqrt 0 2 (1 / 10) ⟨0, -981 / 100, 0, 0⟩
        (⟨[⟨0, 0, 0, 1⟩, ⟨3 / 5, 4 / 5, 0, 1 / 2⟩], [⟨1, 0, 0, 0⟩, ⟨0, 2, 0, 0⟩],
          [zero, zero], [zero, zero]⟩ : HPCAssignment ℚ)).myballz2 =
      (doSomeBallStuff Rat.sqrt 0 2 (1 / 10) ⟨0, -981 / 100, 0, 7⟩
        (⟨[⟨0, 0, 0, 1⟩, ⟨3 / 5, 4 / 5, 0, 1 / 2⟩], [⟨1, 0, 0, 3⟩, ⟨0, 2, 0, 9⟩],
          [zero, zero], [zero, zero]⟩ : HPCAssignment ℚ)).myballz2 :=
  (fourth_lane_noninterference Rat.sqrt 0 2 (1 / 10) ⟨0, -981 / 100, 0, 0⟩
    ⟨0, -981 / 100, 0, 7⟩
    ⟨[⟨0, 0, 0, 1⟩, ⟨3 / 5, 4 / 5, 0, 1 / 2⟩], [⟨1, 0, 0, 0⟩, ⟨0, 2, 0, 0⟩],
      [zero, zero], [zero, zero]⟩
    ⟨[⟨0, 0, 0, 1⟩, ⟨3 / 5, 4 / 5, 0, 1 / 2⟩], [⟨1, 0, 0, 3⟩, ⟨0, 2, 0, 9⟩],
      [zero, zero], [zero, zero]⟩
    (by norm_num) rfl
    (by
      intro k
      match k with
      | 0 => exact ⟨rfl, rfl, rfl⟩
      | 1 => exact ⟨rfl, rfl, rfl⟩
      | k + 2 => exact ⟨rfl, rfl, rfl⟩)
    ⟨rfl, rfl, rfl⟩ rfl rfl).1

/-- C27.  Walls push inward and never both at once: for a body of radius 0.5,
1.0 or 1.5 at rest, each lane x, y, z of the wall force is the sum of an outer
and an inner term that are never both different from zero; where
`position - radius < -40` the lane equals `-500*(40 + position - radius)` and
is strictly positive; the fourth lane of the wall force is zero. -/
theorem walls_push_inward (pointp pointv : Vector3 F) (hr : ValidRadius pointp.w)
    (hv : pointv = zero) :
    ((wallForce pointp pointv).x =
          outerWallTerm pointp.x pointp.w pointv.x + innerWallTerm pointp.x pointp.w pointv.x ∧
        (outerWallTerm pointp.x pointp.w pointv.x = 0 ∨
          innerWallTerm pointp.x pointp.w pointv.x = 0) ∧
        (pointp.x - pointp.w < -40 →
          (wallForce pointp pointv).x = -500 * (40 + pointp.x - pointp.w) ∧
          0 < (wallForce pointp pointv).x)) ∧
      ((wallForce pointp pointv).y =
          outerWallTerm pointp.y pointp.w pointv.y + innerWallTerm pointp.y pointp.w pointv.y ∧
        (outerWallTerm pointp.y pointp.w pointv.y = 0 ∨
          innerWallTerm pointp.y pointp.w pointv.y = 0) ∧
        (pointp.y - pointp.w < -40 →
          (wallForce pointp pointv).y = -500 * (40 + pointp.y - pointp.w) ∧
          0 < (wallForce pointp pointv).y)) ∧
      ((wallForce pointp pointv).z =
          outerWallTerm pointp.z pointp.w pointv.z + innerWallTerm pointp.z pointp.w pointv.z ∧
        (outerWallTerm pointp.z pointp.w pointv.z = 0 ∨
          innerWallTerm pointp.z pointp.w pointv.z = 0) ∧
        (pointp.z - pointp.w < -40 →
          (wallForce pointp pointv).z = -500 * (40 + pointp.z - pointp.w) ∧
          0 < (wallForce pointp pointv).z)) ∧
      (wallForce pointp pointv).w = 0 := by
  obtain ⟨hpos, hle⟩ := validRadius_bounds pointp.w hr
  have h40 : pointp.w ≤ 40 := by linarith
  obtain ⟨ex, ey, ez, ew⟩ := wallForce_lanes pointp pointv
  subst hv
  refine ⟨⟨ex, wallTerm_not_both _ _ _ h40, fun h => ?_⟩,
    ⟨ey, wallTerm_not_both _ _ _ h40, fun h => ?_⟩,
    ⟨ez, wallTerm_not_both _ _ _ h40, fun h => ?_⟩, ?_⟩
  · rw [ex]
    exact wallTerm_inner pointp.x pointp.w h40 h
  · rw [ey]
    exact wallTerm_inner pointp.y pointp.w h40 h
  · rw [ez]
    exact wallTerm_inner pointp.z pointp.w h40 h
  · rw [ew]
    have h1 : ¬ (0 < (pointp.w + pointp.w) - 40) := by
      intro hc
      linarith
    have h2 : ¬ (40 + (pointp.w - pointp.w) < 0) := by
      intro hc
      linarith
    simp only [outerWallTerm, innerWallTerm, wallTermSpec, h1, h2, decide_False,
      Bool.false_eq_true, if_false, add_zero]

/-- Witness of C27: a body of radius 1 at rest at `x = -39.5`; the wall force
on lane x is 250. -/
theorem walls_push_inward_witness :
    (wallForce (⟨-79 / 2, 0, 0, 1⟩ : Vector3 ℚ) zero).x = -500 * (40 + -79 / 2 - 1) ∧
      0 < (wallForce (⟨-79 / 2, 0, 0, 1⟩ : Vector3 ℚ) zero).x :=
  (walls_push_inward (⟨-79 / 2, 0, 0, 1⟩ : Vector3 ℚ) zero (Or.inr (Or.inl rfl)) rfl).1.2.2
    (by norm_num)

/-- C28.  Contact forces are repulsive: for two different bodies that pass the
overlap test, at distinct positions and with equal velocities, the term added
to the force of the first one is, on lanes 0-2,
`300*(radius_i + radius_j - length)/length` times `position_i - position_j`,
and this factor is strictly positive (`sqrt` takes no negative value). -/
theorem contact_force_repulsive (sqrt : F → F) (hsqrt : ∀ x : F, 0 ≤ sqrt x)
    (balls vels : List (Vector3 F)) (i j : Nat) (force : Vector3 F) (hij : i ≠ j)
    (hov : overlaps sqrt (balls.getD i zero) (balls.getD j zero) = true)
    (hdistinct : ((balls.getD i zero - balls.getD j zero).length sqrt).x ≠ 0)
    (hvel : vels.getD i zero = vels.getD j zero) :
    pairStep sqrt balls vels i force j =
        force + pairTerm sqrt (balls.getD i zero) (vels.getD i zero)
          (balls.getD j zero) (vels.getD j zero) ∧
      0 < 300 * ((balls.getD i zero).w + (balls.getD j zero).w -
          ((balls.getD i zero - balls.getD j zero).length sqrt).x) /
        ((balls.getD i zero - balls.getD j zero).length sqrt).x ∧
      (pairTerm sqrt (balls.getD i zero) (vels.getD i zero)
          (balls.getD j zero) (vels.getD j zero)).x =
        300 * ((balls.getD i zero).w + (balls.getD j zero).w -
            ((balls.getD i zero - balls.getD j zero).length sqrt).x) /
          ((balls.getD i zero - balls.getD j zero).length sqrt).x *
          ((balls.getD i zero).x - (balls.getD j zero).x) ∧
      (pairTerm sqrt (balls.getD i zero) (vels.getD i zero)
          (balls.getD j zero) (vels.getD j zero)).y =
        300 * ((balls.getD i zero).w + (balls.getD j zero).w -
            ((balls.getD i zero - balls.getD j zero).length sqrt).x) /
          ((balls.getD i zero - balls.getD j zero).length sqrt).x *
          ((balls.getD i zero).y - (balls.getD j zero).y) ∧
      (pairTerm sqrt (balls.getD i zero) (vels.getD i zero)
          (balls.getD j zero) (vels.getD j zero)).z =
        300 * ((balls.getD i zero).w + (balls.getD j zero).w -
            ((balls.getD i zero - balls.getD j zero).length sqrt).x) /
          ((balls.getD i zero - balls.getD j zero).length sqrt).x *
          ((balls.getD i zero).z - (balls.getD j zero).z) := by
  have hstep : pairStep sqrt balls vels i force j =
      force + pairTerm sqrt (balls.getD i zero) (vels.getD i zero)
        (balls.getD j zero) (vels.getD j zero) := by
    rw [pairStep_eq, if_pos ⟨hij, hov⟩]
  refine ⟨hstep, ?_⟩
  rw [hvel]
  generalize balls.getD i zero = pa at hov hdistinct
  generalize balls.getD j zero = pb at hov hdistinct
  generalize vels.getD j zero = v
  have hlt : (((pa - pb).length sqrt)).x < pa.w + pb.w := by
    simpa [overlaps, Vector3.lt] using hov
  have hpos : 0 < ((pa - pb).length sqrt).x :=
    lt_of_le_of_ne (by rw [length_x]; exact hsqrt _) (Ne.symm hdistinct)
  refine ⟨?_, ?_, ?_, ?_⟩
  · apply div_pos _ hpos
    linarith
  · simp only [pairTerm, mul_x, div_x, sub_x, sub_y, sub_z, add_x, splat_x, getR_x, length_x,
      dot3_x]
    ring
  · simp only [pairTerm, mul_y, div_y, sub_x, sub_y, sub_z, add_y, splat_y, getR_y, length_x,
      length_y, dot3_y]
    ring
  · simp only [pairTerm, mul_z, div_z, sub_x, sub_y, sub_z, add_z, splat_z, getR_z, length_x,
      length_z, dot3_z]
    ring

/-- Witness of C28: a body of radius 1 at the origin and a body of radius 0.5
at distance 1, both at rest: the factor is `300 * 0.5 / 1 = 150` and the term
on lane x is `150 * (0 - 3/5) = -90`. -/
theorem contact_force_repulsive_witness :
    (pairTerm Rat.sqrt ⟨0, 0, 0, 1⟩ zero ⟨3 / 5, 4 / 5, 0, 1 / 2⟩ zero).x = -90 :=
  (contact_force_repulsive Rat.sqrt Rat.sqrt_nonneg [⟨0, 0, 0, 1⟩, ⟨3 / 5, 4 / 5, 0, 1 / 2⟩]
    [zero, zero] 0 1 zero (by decide)
    (by
      have h := rat_sqrt_one
      simp only [overlaps, Vector3.lt, List.getD_cons_zero, List.getD_cons_succ, length_x,
        sub_x, sub_y, sub_z, add_x, getR_x, decide_eq_true_eq]
      norm_num [h])
    (by
      have h := rat_sqrt_one
      simp only [List.getD_cons_zero, List.getD_cons_succ, length_x, sub_x, sub_y, sub_z]
      norm_num [h])
    rfl).2.2.1.trans (by
      have h := rat_sqrt_one
      simp only [List.getD_cons_zero, List.getD_cons_succ, length_x, sub_x, sub_y, sub_z]
      norm_num [h])

/-- C29 (defect in the code).  `normalise` is claimed to be `v / v.length()`
in all four lanes.  Its dot product uses the mask `0x77`, which leaves lane 3
of the divisor zero, where `length` uses `0x7F`: lanes 0-2 agree with
`v / v.length()`, lane 3 is `v.w / sqrt 0`.  For `v = (3, 4, 0, 1)` the length
is 5, lane 3 of `v / v.length()` is `1/5`, and `normalise` divides lane 3 by
`sqrt 0 = 0`. -/
theorem normalise_fourth_lane_divisor :
    (∀ (sqrt : F → F) (v : Vector3 F),
        (v.normalise sqrt).x = (v / v.length sqrt).x ∧
        (v.normalise sqrt).y = (v / v.length sqrt).y ∧
        (v.normalise sqrt).z = (v / v.length sqrt).z ∧
        (v.normalise sqrt).w = v.w / sqrt 0) ∧
      ((⟨3, 4, 0, 1⟩ : Vector3 ℚ).length Rat.sqrt).x = 5 ∧
      ((⟨3, 4, 0, 1⟩ : Vector3 ℚ) / (⟨3, 4, 0, 1⟩ : Vector3 ℚ).length Rat.sqrt).w = 1 / 5 ∧
      ((⟨3, 4, 0, 1⟩ : Vector3 ℚ).normalise Rat.sqrt).w = 1 / Rat.sqrt 0 ∧
      Rat.sqrt 0 = 0 ∧
      ((⟨3, 4, 0, 1⟩ : Vector3 ℚ).normalise Rat.sqrt).w ≠
        ((⟨3, 4, 0, 1⟩ : Vector3 ℚ) / (⟨3, 4, 0, 1⟩ : Vector3 ℚ).length Rat.sqrt).w := by
  have h25 : Rat.sqrt (3 * 3 + 4 * 4 + 0 * 0) = 5 := by
    have h := Rat.sqrt_eq 5
    norm_num at h
    norm_num
  have h0 : Rat.sqrt 0 = 0 := by
    simp
  refine ⟨fun sqrt v => ⟨rfl, rfl, rfl, rfl⟩, h25, ?_, rfl, h0, ?_⟩
  · show (1 : ℚ) / Rat.sqrt (3 * 3 + 4 * 4 + 0 * 0) = 1 / 5
    rw [h25]
  · show (1 : ℚ) / Rat.sqrt 0 ≠ 1 / Rat.sqrt (3 * 3 + 4 * 4 + 0 * 0)
    rw [h25, h0]
    norm_num

/-- C30.  Cross product: in exact arithmetic lanes 0-2 of `cross3 a b` are
`(a.y*b.z - a.z*b.y, a.z*b.x - a.x*b.z, a.x*b.y - a.y*b.x)` and the fourth
lane is `a.w*b.w - a.w*b.w`; on lanes with the range of `float` every lane is
the same expression in the lane operations, whatever the lanes hold, and the
fourth lane is zero when `a.w` and `b.w` are finite and their product is
below the overflow threshold in magnitude. -/
theorem cross3_formula_in_range (a b : Vector3 F) (la lb : Vector3 Lane) (aw bw : ℚ)
    (ha : la.w = Lane.finite aw) (hb : lb.w = Lane.finite bw) (hrange : InRange (aw * bw)) :
    ((a.cross3 b).x = a.y * b.z - a.z * b.y ∧
      (a.cross3 b).y = a.z * b.x - a.x * b.z ∧
      (a.cross3 b).z = a.x * b.y - a.y * b.x ∧
      (a.cross3 b).w = a.w * b.w - a.w * b.w) ∧
    ((cross3Lanes la lb).x = (la.y.mul lb.z).sub (la.z.mul lb.y) ∧
      (cross3Lanes la lb).y = (la.z.mul lb.x).sub (la.x.mul lb.z) ∧
      (cross3Lanes la lb).z = (la.x.mul lb.y).sub (la.y.mul lb.x) ∧
      (cross3Lanes la lb).w = (la.w.mul lb.w).sub (la.w.mul lb.w)) ∧
    (cross3Lanes la lb).w = Lane.finite 0 := by
  refine ⟨⟨rfl, rfl, rfl, rfl⟩, ⟨rfl, rfl, rfl, rfl⟩, ?_⟩
  show (la.w.mul lb.w).sub (la.w.mul lb.w) = Lane.finite 0
  rw [ha, hb]
  show (Lane.ofExact (aw * bw)).sub (Lane.ofExact (aw * bw)) = Lane.finite 0
  rw [ofExact_of_inRange _ hrange]
  show Lane.ofExact (aw * bw - aw * bw) = Lane.finite 0
  rw [sub_self]
  exact ofExact_of_inRange 0 inRange_zero

/-- Witness of C30: the cross product of the first two unit vectors, with
fourth lanes 5 and 7, on lanes with the range of `float`: the fourth lane is
`35 - 35 = 0`. -/
theorem cross3_formula_in_range_witness :
    (cross3Lanes (finiteLanes ⟨1, 0, 0, 5⟩) (finiteLanes ⟨0, 1, 0, 7⟩)).w = Lane.finite 0 :=
  (cross3_formula_in_range (⟨1, 0, 0, 5⟩ : Vector3 ℚ) ⟨0, 1, 0, 7⟩
    (finiteLanes ⟨1, 0, 0, 5⟩) (finiteLanes ⟨0, 1, 0, 7⟩) 5 7 rfl rfl
    (by unfold InRange overflowThreshold; norm_num)).2.2

/-- Counterexample of C30 as stated: for `a = (1, 0, 0, 1e20)` and
`b = (0, 1, 0, 1e20)` the product `a.w * b.w = 1e40` is above the range of
`float`, both products of the fourth lane are `+inf`, and `cross3` returns
`(0, 0, 1, NaN)`: the fourth lane is not zero. -/
theorem cross3_fourth_lane_overflow :
    cross3Lanes (finiteLanes ⟨1, 0, 0, 10 ^ 20⟩) (finiteLanes ⟨0, 1, 0, 10 ^ 20⟩) =
        ⟨Lane.finite 0, Lane.finite 0, Lane.finite 1, Lane.nan⟩ ∧
      (cross3Lanes (finiteLanes ⟨1, 0, 0, 10 ^ 20⟩) (finiteLanes ⟨0, 1, 0, 10 ^ 20⟩)).w ≠
        Lane.finite 0 := by
  have h0 : Lane.ofExact 0 = Lane.finite 0 := ofExact_of_inRange 0 inRange_zero
  have h1 : Lane.ofExact 1 = Lane.finite 1 :=
    ofExact_of_inRange 1 (by unfold InRange overflowThreshold; norm_num)
  have hbig : Lane.ofExact (10 ^ 20 * 10 ^ 20) = Lane.inf false := by
    unfold Lane.ofExact overflowThreshold
    rw [if_pos (by norm_num)]
  have h : cross3Lanes (finiteLanes ⟨1, 0, 0, 10 ^ 20⟩) (finiteLanes ⟨0, 1, 0, 10 ^ 20⟩) =
      ⟨Lane.finite 0, Lane.finite 0, Lane.finite 1, Lane.nan⟩ := by
    show (⟨(Lane.ofExact (0 * 0)).sub (Lane.ofExact (0 * 1)),
        (Lane.ofExact (0 * 0)).sub (Lane.ofExact (1 * 0)),
        (Lane.ofExact (1 * 1)).sub (Lane.ofExact (0 * 0)),
        (Lane.ofExact (10 ^ 20 * 10 ^ 20)).sub (Lane.ofExact (10 ^ 20 * 10 ^ 20))⟩ :
          Vector3 Lane) = _
    rw [hbig]
    simp only [mul_zero, zero_mul, mul_one, h0, h1]
    show (⟨Lane.ofExact (0 - 0), Lane.ofExact (0 - 0), Lane.ofExact (1 - 0), Lane.nan⟩ :
      Vector3 Lane) = _
    simp only [sub_zero, h0, h1]
  refine ⟨h, ?_⟩
  rw [h]
  exact fun hne => Lane.noConfusion hne

end Claims3

/-! ## An isolated body -/

section IsolatedBody

variable {F : Type} [LinearOrderedField F]

open Vector3

/-- C5.  End-to-end for one body: a body at `(0, 0, 0)` with radius 1 and zero
velocity that no other body overlaps, gravity `(0, -9.81, 0)`, `dt = 0.1`, no
spawn.  The task `doSomeBallStuff(0, 1, ...)` on buffers holding this body
alone stores `position' = (0, -0.0981, 0, 1)` and `velocity' = (0, -0.981, 0)`;
and for a population of `N` bodies with `2 * poolSize ≤ N < 2^31` that holds
this body at index `i`, `run` returns and the new front buffers hold these
two values at index `i`, the radius unchanged. -/
theorem isolated_body_update (sqrt : F → F) (poolSize : Nat) (s : HPCAssignment F) (i : Nat)
    (hs : SameLength s) (hP : 0 < poolSize) (hN : 2 * poolSize ≤ s.myballz.length)
    (hsize : s.myballz.length < 2 ^ 31) (hi : i < s.myballz.length)
    (hp : s.myballz[i]? = some ⟨0, 0, 0, 1⟩) (hv : s.myvelocityz[i]? = some ⟨0, 0, 0, 0⟩)
    (hno : ∀ j : Nat, j < s.myballz.length → j ≠ i →
      overlaps sqrt ⟨0, 0, 0, 1⟩ (s.myballz.getD j zero) = false) :
    doSomeBallStuff sqrt 0 1 (1 / 10) ⟨0, -981 / 100, 0, 0⟩
        (⟨[⟨0, 0, 0, 1⟩], [zero], [zero], [zero]⟩ : HPCAssignment F) =
        ⟨[⟨0, 0, 0, 1⟩], [zero], [⟨0, -981 / 10000, 0, 1⟩], [⟨0, -981 / 1000, 0, 0⟩]⟩ ∧
      ∃ s1 : HPCAssignment F,
        run sqrt poolSize (1 / 10) ⟨0, -981 / 100, 0, 0⟩ false s = some s1 ∧
        s1.myballz[i]? = some ⟨0, -981 / 10000, 0, 1⟩ ∧
        s1.myvelocityz[i]? = some ⟨0, -981 / 1000, 0, 0⟩ := by
  refine ⟨(run_single_body_undefined sqrt 1).2, ?_⟩
  obtain ⟨s1, hs1⟩ := run_isSome sqrt poolSize (1 / 10) ⟨0, -981 / 100, 0, 0⟩ false s hP hN hsize
  have hb := run_myballz_getElem? sqrt poolSize (1 / 10) ⟨0, -981 / 100, 0, 0⟩ false s s1 hs
    hs1 i hi
  have hw := run_myvelocityz_getElem? sqrt poolSize (1 / 10) ⟨0, -981 / 100, 0, 0⟩ false s s1
    hs hs1 i hi
  have hsp : spawnIf false s = s := rfl
  rw [hsp] at hb hw
  have hpD : s.myballz.getD i zero = ⟨0, 0, 0, 1⟩ := by
    rw [List.getD_eq_getElem?_getD, hp]
    rfl
  have hvD : s.myvelocityz.getD i zero = ⟨0, 0, 0, 0⟩ := by
    rw [List.getD_eq_getElem?_getD, hv]
    rfl
  have hforce : forceOn sqrt s.myballz s.myvelocityz i = ⟨0, 0, 0, 0⟩ := by
    unfold forceOn
    rw [foldl_pairStep_of_no_overlap sqrt s.myballz s.myvelocityz i _ _ (by
      intro j hj hji
      have h := hno j (List.mem_range.1 hj) hji
      rw [hpD]
      exact h)]
    rw [hpD]
    exact wallForce_inside _ _ (by unfold InsideWalls; norm_num) (by norm_num)
  have hfst : (integrate sqrt s.myballz s.myvelocityz (1 / 10) ⟨0, -981 / 100, 0, 0⟩ i).1 =
      ⟨0, -981 / 10000, 0, 1⟩ := by
    rw [integrate_fst, hforce, hpD, hvD]
    apply ext_lanes <;> norm_num
  have hsnd : (integrate sqrt s.myballz s.myvelocityz (1 / 10) ⟨0, -981 / 100, 0, 0⟩ i).2 =
      ⟨0, -981 / 1000, 0, 0⟩ := by
    rw [integrate_snd, hfst, hpD]
    apply ext_lanes <;> simp <;> norm_num
  rw [hfst] at hb
  rw [hsnd] at hw
  exact ⟨s1, hs1, hb, hw⟩

/-- Witness of C5: two bodies of radius 1 at `(0, 0, 0)` and `(10, 0, 0)`, at
rest, one worker thread; the body at the origin is body 0. -/
theorem isolated_body_update_witness :
    ∃ s1 : HPCAssignment ℚ,
      run Rat.sqrt 1 (1 / 10) ⟨0, -981 / 100, 0, 0⟩ false
        ⟨[⟨0, 0, 0, 1⟩, ⟨10, 0, 0, 1⟩], [zero, zero], [zero, zero], [zero, zero]⟩ = some s1 ∧
      s1.myballz[0]? = some ⟨0, -981 / 10000, 0, 1⟩ ∧
      s1.myvelocityz[0]? = some ⟨0, -981 / 1000, 0, 0⟩ :=
  (isolated_body_update Rat.sqrt 1
    ⟨[⟨0, 0, 0, 1⟩, ⟨10, 0, 0, 1⟩], [zero, zero], [zero, zero], [zero, zero]⟩ 0
    (by decide) (by decide) (by decide) (by decide) (by decide) rfl rfl (by
      intro j hj hji
      have hj1 : j = 1 := by
        have h2 : j < 2 := hj
        omega
      subst hj1
      have h100 : Rat.sqrt ((0 - 10) * (0 - 10) + (0 - 0) * (0 - 0) + (0 - 0) * (0 - 0)) = 10 := by
        have h := Rat.sqrt_eq 10
        norm_num at h
        norm_num
      show decide (Rat.sqrt ((0 - 10) * (0 - 10) + (0 - 0) * (0 - 0) + (0 - 0) * (0 - 0)) <
        (1 : ℚ) + 1) = false
      rw [h100]
      norm_num)).2

/-- Counterexample of C5 as stated: on buffers holding exactly one body at
`(0, 0, 0)` with radius 1 and zero velocity, `run` with gravity
`(0, -9.81, 0)`, `dt = 0.1` and no spawn produces no state on any pool size:
`numBalls = 1 / (2 * poolSize)` is zero and `run` divides by it. -/
theorem single_body_run_no_result :
    ¬ ∃ (poolSize : Nat) (s1 : HPCAssignment ℚ),
      run Rat.sqrt poolSize (1 / 10) ⟨0, -981 / 100, 0, 0⟩ false
        ⟨[⟨0, 0, 0, 1⟩], [zero], [zero], [zero]⟩ = some s1 := by
  rintro ⟨poolSize, s1, h⟩
  rw [(run_single_body_undefined Rat.sqrt poolSize).1] at h
  exact Option.noConfusion h

end IsolatedBody

end HPC
